import Mathlib

/-!
# azure-spot-monitor: priority scoring, safety check, placement-score cache, reconciler

A shallow embedding of `k8s.go` and `main.go`.

* `float64` is modelled exactly: a finite value is an integer number of units of
  `2^(-1074)` (the spacing of the subnormals), and every arithmetic operation
  rounds its exact result to the nearest representable value, ties to even, one
  operation at a time (no fused multiply-add).  Signed zeros are identified.
* A Go map is the list of its entries in the order one execution iterates it.
* Go `int` values are `Int`; strings are `String` (valid UTF-8).
-/

set_option exponentiation.threshold 5000


namespace SpotMonitor

/-! ## binary64 arithmetic -/

/-- Number of fractional bits of the unit: one unit is `2^(-1074)`. -/
def unitBits : Nat := 1074

/-- One, measured in units. -/
def unitsPerOne : Nat := 2 ^ 1074

/-- First magnitude (in units) that is too large for binary64: `2^1024`. -/
def overflowUnits : Nat := 2 ^ 2098

/-- A `float64` value. `fin n` is the finite value `n * 2^(-1074)`. -/
inductive Float64 where
  | fin (n : Int)
  | inf (negative : Bool)
  | nan
deriving DecidableEq, Repr

namespace Float64

/-- Nearest integer to `a / b`, ties to the even neighbour (`b > 0`). -/
def rneNat (a b : Nat) : Nat :=
  if 2 * (a % b) < b then a / b
  else if b < 2 * (a % b) then a / b + 1
  else if (a / b) % 2 = 0 then a / b else a / b + 1

/-- Floor of the binary logarithm, by halving (`fuel` bounds the number of halvings). -/
def ilog2Aux : Nat → Nat → Nat
  | 0, _ => 0
  | fuel + 1, n => if n < 2 then 0 else ilog2Aux fuel (n / 2) + 1

/-- Floor of the binary logarithm of `n` (`0` for `n = 0`). -/
def ilog2 (n : Nat) : Nat := ilog2Aux n n

/-- Exponent of the spacing of binary64 values around a magnitude of `q` units:
values below `2^53` units are spaced one unit apart, and the spacing doubles with
each further binade (53 significant bits). -/
def spacingExp (q : Nat) : Nat := ilog2 q - 52

/-- The magnitude `a / b` (in units) rounded to binary64 precision, in units. -/
def roundMag (a b : Nat) : Nat :=
  rneNat a (b * 2 ^ spacingExp (a / b)) * 2 ^ spacingExp (a / b)

/-- The value of sign `negative` and magnitude `a / b` units, rounded to `float64`;
a rounded magnitude of `2^1024` or more overflows to an infinity. -/
def round (negative : Bool) (a b : Nat) : Float64 :=
  if overflowUnits ≤ roundMag a b then inf negative
  else fin (if negative then -(roundMag a b : Int) else (roundMag a b : Int))

/-- The rational `a / b` units rounded to `float64`. -/
def ofQuot (a : Int) (b : Nat) : Float64 := round (decide (a < 0)) a.natAbs b

/-- Conversion `float64(n)` of an integer. -/
def ofInt (n : Int) : Float64 := round (decide (n < 0)) (n.natAbs * unitsPerOne) 1

/-- Conversion of the untyped decimal constant `a / b` (`0.2` is `ofDec 2 10`). -/
def ofDec (a b : Nat) : Float64 := round false (a * unitsPerOne) b

/-- Unary minus. -/
def neg : Float64 → Float64
  | fin x => fin (-x)
  | inf s => inf (!s)
  | nan => nan

/-- Addition `x + y`. -/
def add : Float64 → Float64 → Float64
  | fin x, fin y => ofQuot (x + y) 1
  | nan, _ => nan
  | _, nan => nan
  | inf s, inf t => if s = t then inf s else nan
  | inf s, fin _ => inf s
  | fin _, inf t => inf t

/-- Subtraction `x - y`. -/
def sub (x y : Float64) : Float64 := add x (neg y)

/-- Multiplication `x * y`. -/
def mul : Float64 → Float64 → Float64
  | fin x, fin y => ofQuot (x * y) unitsPerOne
  | nan, _ => nan
  | _, nan => nan
  | inf s, inf t => inf (s != t)
  | inf s, fin y => if y = 0 then nan else inf (s != decide (y < 0))
  | fin x, inf t => if x = 0 then nan else inf (decide (x < 0) != t)

/-- Division `x / y` (a zero divisor is taken as `+0`). -/
def div : Float64 → Float64 → Float64
  | fin x, fin y =>
    if y = 0 then (if x = 0 then nan else inf (decide (x < 0)))
    else round (decide (x < 0) != decide (y < 0)) (x.natAbs * unitsPerOne) y.natAbs
  | nan, _ => nan
  | _, nan => nan
  | inf _, inf _ => nan
  | inf s, fin y => inf (s != decide (y < 0))
  | fin _, inf _ => fin 0

/-- Conversion `int(x)`: the fraction is discarded (truncation toward zero).  Go leaves
the result implementation-dependent when the value does not fit an `int`; the value
`-2^63` that amd64 produces is used here. -/
def toInt : Float64 → Int
  | fin n =>
    if -(2 : Int) ^ 63 ≤ Int.tdiv n (unitsPerOne : Int) ∧ Int.tdiv n (unitsPerOne : Int) < (2 : Int) ^ 63
    then Int.tdiv n (unitsPerOne : Int) else -(2 : Int) ^ 63
  | _ => -(2 : Int) ^ 63

/-- The rational number a finite value denotes (`0` for infinities and NaN). -/
def toRat : Float64 → ℚ
  | fin n => (n : ℚ) / (unitsPerOne : ℚ)
  | _ => 0

/-- Finite values. -/
def isFinite : Float64 → Bool
  | fin _ => true
  | _ => false

end Float64

/-! ## Go maps -/

/-- A Go map: its entries, in the order one execution ranges over them. -/
abbrev GoMap (K V : Type) := List (K × V)

namespace GoMap

variable {K V : Type} [DecidableEq K]

/-- The map index expression `m[k]`, with `zero` the zero value of the element type. -/
def get (m : GoMap K V) (k : K) (zero : V) : V :=
  match m with
  | [] => zero
  | e :: rest => if e.1 = k then e.2 else get rest k zero

/-- Whether `k` is a key of `m`. -/
def hasKey (m : GoMap K V) (k : K) : Bool :=
  match m with
  | [] => false
  | e :: rest => if e.1 = k then true else hasKey rest k

/-- The assignment `m[k] = v`. -/
def set (m : GoMap K V) (k : K) (v : V) : GoMap K V :=
  match m with
  | [] => [(k, v)]
  | e :: rest => if e.1 = k then (k, v) :: rest else e :: set rest k v

end GoMap

/-! ## Data model (`main.go`) -/

/-- The struct `Nodepool`; the field `Type` is `PoolType` here. -/
structure Nodepool where
  Name : String
  Discount : Float64
  EvictionRate : Float64
  PlacementScore : Int
  Version : Int
  PoolType : String
deriving DecidableEq, Repr

/-- The type `NodepoolMap`, `map[string]Nodepool`. -/
abbrev NodepoolMap := GoMap String Nodepool

/-! ## Priority scorer (`k8s.go`) -/

/-- The pattern `fmt.Sprintf(".*%s.*", name)`. -/
def pattern (name : String) : String := ".*" ++ name ++ ".*"

/-- The value of the variable `priority` that the loop body of `calculatePriority`
computes for one node pool. -/
def priority (nodePool : Nodepool) : Int :=
  let availabilityRateFactor :=
    ((Float64.ofInt 1).sub nodePool.EvictionRate).mul (Float64.ofDec 2 10)
  let discountFactor := nodePool.Discount.mul (Float64.ofDec 1 10)
  let placementScoreFactor :=
    ((Float64.ofInt nodePool.PlacementScore).div (Float64.ofInt 100)).mul (Float64.ofDec 6 10)
  let versionFactor :=
    ((Float64.ofInt (min 10 nodePool.Version)).div (Float64.ofInt 10)).mul (Float64.ofDec 1 10)
  ((((availabilityRateFactor.add discountFactor).add versionFactor).add
    placementScoreFactor).mul (Float64.ofInt 100)).toInt

/-- One iteration of the loop of `calculatePriority`. -/
def calculatePriorityStep (priorityMap : GoMap Int (List String)) (nodePool : Nodepool) :
    GoMap Int (List String) :=
  priorityMap.set (priority nodePool)
    (priorityMap.get (priority nodePool) [] ++ [pattern nodePool.Name])

/-- The function `calculatePriority`. -/
def calculatePriority (nodePools : NodepoolMap) : GoMap Int (List String) :=
  nodePools.foldl (fun priorityMap entry => calculatePriorityStep priorityMap entry.2) []

/-- The level the specification's formula assigns, in exact rational arithmetic:
`floor(100 * ((1 - eviction) * 0.2 + discount * 0.1 + (placement / 100) * 0.6 +
(min(version, 10) / 10) * 0.1))`. -/
def specPriority (r : Nodepool) : Int :=
  Int.floor ((100 : ℚ) * ((1 - r.EvictionRate.toRat) * (2 / 10) + r.Discount.toRat * (1 / 10)
    + ((r.PlacementScore : ℚ) / 100) * (6 / 10)
    + (((min r.Version 10 : Int) : ℚ) / 10) * (1 / 10)))

/-- A record with the given signal values (name and capacity kind do not enter the score). -/
def record (name : String) (discount evictionRate : Float64) (placementScore version : Int) :
    Nodepool :=
  { Name := name, Discount := discount, EvictionRate := evictionRate,
    PlacementScore := placementScore, Version := version, PoolType := "Spot" }


/-! ## Scoring on in-range records -/

/-- Finite values between 0 and 1. -/
def Float64.inUnitInterval : Float64 → Bool
  | Float64.fin n => decide (0 ≤ n ∧ n ≤ (unitsPerOne : Int))
  | _ => false

/-- The documented bounds of a record: discount and eviction rate are fractions in
`[0, 1]`, the placement score lies in `[0, 100]`, and the version is not negative. -/
def Nodepool.inBounds (r : Nodepool) : Bool :=
  r.Discount.inUnitInterval && r.EvictionRate.inUnitInterval &&
    decide (0 ≤ r.PlacementScore ∧ r.PlacementScore ≤ 100) && decide (0 ≤ r.Version)

namespace Float64

/-- Units of the rounded sum of two magnitudes given in units. -/
def addMag (x y : Nat) : Nat := roundMag (x + y) 1

/-- Units of the rounded difference `x - y` of two magnitudes (`y ≤ x`). -/
def subMag (x y : Nat) : Nat := roundMag (x - y) 1

/-- Units of the rounded product of two magnitudes. -/
def mulMag (x y : Nat) : Nat := roundMag (x * y) unitsPerOne

/-- Units of the rounded quotient of two magnitudes. -/
def divMag (x y : Nat) : Nat := roundMag (x * unitsPerOne) y

/-- Units of the rounded decimal constant `a / b`. -/
def decMag (a b : Nat) : Nat := roundMag (a * unitsPerOne) b

end Float64

/-- The value `(sum of the four factors) * 100` computed by `priority`, in units, for a
discount of `d` units, an eviction rate of `e` units, placement score `p` and capped
version `v`. -/
def scaledSum (d e p v : Nat) : Nat :=
  Float64.mulMag
    (Float64.addMag
      (Float64.addMag
        (Float64.addMag
          (Float64.mulMag (Float64.subMag unitsPerOne e) (Float64.decMag 2 10))
          (Float64.mulMag d (Float64.decMag 1 10)))
        (Float64.mulMag (Float64.divMag (v * unitsPerOne) (10 * unitsPerOne))
          (Float64.decMag 1 10)))
      (Float64.mulMag (Float64.divMag (p * unitsPerOne) (100 * unitsPerOne))
        (Float64.decMag 6 10)))
    (100 * unitsPerOne)

/-! ## Safety invariant checker (`k8s.go`) -/

/-- The predicate `unicode.IsSpace` on a code point. -/
def isSpace (c : Char) : Bool :=
  (9 ≤ c.toNat && c.toNat ≤ 13) || c.toNat == 32 || c.toNat == 133 || c.toNat == 160 ||
    c.toNat == 5760 || (8192 ≤ c.toNat && c.toNat ≤ 8202) || c.toNat == 8232 ||
    c.toNat == 8233 || c.toNat == 8239 || c.toNat == 8287 || c.toNat == 12288

/-- The function `strings.TrimSpace`: leading and trailing white space is removed. -/
def trimSpace (s : String) : String :=
  String.mk ((s.data.dropWhile isSpace).reverse.dropWhile isSpace).reverse

/-- The first loop of `checkSpotIsSafe`: the patterns of the pools of type `Regular`. -/
def regularNodepoolNames (nodePools : NodepoolMap) : List String :=
  nodePools.foldl (fun names entry =>
    if entry.2.PoolType = "Regular" then names ++ [pattern (trimSpace entry.2.Name)] else names) []

/-- The second loop of `checkSpotIsSafe`: `maxPriority` starts at the zero value of `int`. -/
def maxPriority (priorities : GoMap Int (List String)) : Int :=
  priorities.foldl (fun maxPriority entry =>
    if entry.1 > maxPriority then entry.1 else maxPriority) 0

/-- The function `checkSpotIsSafe`. -/
def checkSpotIsSafe (nodePools : NodepoolMap) (priorities : GoMap Int (List String)) : Bool :=
  let highestPriorityPools := priorities.get (maxPriority priorities) []
  if highestPriorityPools.any (fun pattern =>
      (regularNodepoolNames nodePools).any (fun defaultName => pattern = defaultName))
  then false else true

/-! ## Placement-score cache and fetcher (`main.go`) -/

/-- How a call ends. -/
inductive Outcome (α : Type) where
  /-- The call returns the value and a nil error. -/
  | value (v : α)
  /-- The call returns the error `err`. -/
  | error (err : String)
  /-- The call waits for a mutex that is never released. -/
  | blocked
  /-- The call panics. -/
  | panicked
  /-- The loop bound of the model is used up (this never happens, see
  `chunkLoop_fuel`). -/
  | outOfFuel
deriving DecidableEq, Repr

/-- The local type `placementScore` of `getPlacementScores`. -/
structure placementScore where
  SKU : String
  AvailabilityZone : String
  Score : String
deriving DecidableEq, Repr

/-- Scores by instance type and zone, `map[string]map[string]int`. -/
abbrev ScoreMap := GoMap String (GoMap String Int)

/-- The struct `placementCacheEntry`; times are nanoseconds since the Unix epoch. -/
structure placementCacheEntry where
  cacheKey : String
  timestamp : Int
  scores : ScoreMap
deriving DecidableEq, Repr

/-- The struct `PlacementScoreCache`; `mu` is `true` while the mutex is locked. -/
structure PlacementScoreCache where
  mu : Bool
  data : placementCacheEntry
  ttl : Int
deriving DecidableEq, Repr

/-- The duration `time.Minute`, in nanoseconds. -/
def minute : Int := 60000000000

/-- The zero `time.Time` (1 January of year 1), in nanoseconds since the Unix epoch. -/
def zeroTime : Int := -62135596800000000000

/-- The initial value of the package variable `placementCache`. -/
def placementCache : PlacementScoreCache :=
  { mu := false, data := { cacheKey := "", timestamp := zeroTime, scores := [] },
    ttl := 15 * minute }

/-- The duration `time.Since(t)` at clock reading `now`; a `Duration` saturates at the
bounds of `int64`. -/
def since (now t : Int) : Int :=
  if now - t > 9223372036854775807 then 9223372036854775807
  else if now - t < -9223372036854775808 then -9223372036854775808
  else now - t

/-- The local table `scoreMap`. -/
def scoreMap : GoMap String Int := [("Low", 25), ("Medium", 50), ("High", 100)]

/-- An HTTP response as far as `getPlacementScores` looks at it: status code, status text
and the outcome of decoding the body. -/
structure Response where
  StatusCode : Nat
  Status : String
  body : Except String (List placementScore)

/-- What `http.DefaultClient.Do` gives: an error or a response. -/
inductive HttpResult where
  | failed (err : String)
  | response (resp : Response)

/-- The environment of one call of `getPlacementScores`. -/
structure Env where
  /-- Clock reading when the cache entry is checked. -/
  now : Int
  /-- Error of `azidentity.NewManagedIdentityCredential`, if it fails. -/
  newCredential : Option String
  /-- Result of `cred.GetToken`. -/
  getToken : Except String String
  /-- Error of `http.NewRequest`, if it fails. -/
  newRequest : Option String
  /-- Result of the `k`-th call of `http.DefaultClient.Do` during this call. -/
  send : Nat → HttpResult
  /-- Clock reading `time.Now()` when the entry is stored. -/
  storeTime : Int

/-- Observable steps of `getPlacementScores`. -/
inductive Event where
  | lock
  | unlock
  | newCredential
  | getToken
  | send (chunk : List String)
  | sleep (d : Int)
deriving DecidableEq, Repr

/-- How the retry loop for one chunk ends. -/
inductive RetryExit where
  /-- A `return nil, err` inside the loop. -/
  | failed (err : String)
  /-- The loop is left with `resp` holding the last response (`none`: still nil). -/
  | exited (resp : Option Response)

/-- The loop `for attempt := 0; attempt < maxRetries; attempt++` for one chunk, with
`remaining = maxRetries - attempt`; `k` counts the requests sent so far. -/
def retryLoop (env : Env) (chunk : List String) :
    Nat → Nat → Int → Option Response → List Event → RetryExit × Nat × List Event
  | 0, k, _, resp, trace => (RetryExit.exited resp, k, trace)
  | remaining + 1, k, retryDelay, _, trace =>
    match env.newRequest with
    | some err => (RetryExit.failed ("failed to create request: " ++ err), k, trace)
    | none =>
      match env.send k with
      | HttpResult.failed err =>
        (RetryExit.failed ("request failed: " ++ err), k + 1, trace ++ [Event.send chunk])
      | HttpResult.response resp =>
        if resp.StatusCode = 429 then
          retryLoop env chunk remaining (k + 1) (retryDelay * 4) (some resp)
            (trace ++ [Event.send chunk, Event.sleep retryDelay])
        else (RetryExit.exited (some resp), k + 1, trace ++ [Event.send chunk])

/-- The loop over `parsed.PlacementScores` that fills `result`. -/
def accumulate (result : ScoreMap) (parsed : List placementScore) : ScoreMap :=
  parsed.foldl (fun result ps =>
    let result := if result.hasKey ps.SKU then result else result.set ps.SKU []
    result.set ps.SKU ((result.get ps.SKU []).set ps.AvailabilityZone (scoreMap.get ps.Score 0)))
    result

/-- The slice expression `instances[i:end]`. -/
def slice (instances : List String) (i stop : Nat) : List String :=
  (instances.drop i).take (stop - i)

/-- The body of the chunk loop after the payload is built: the retry loop, the check of
the status code, the decoding of the body and the filling of `result`.  It either ends
the call (`Except.error`) or hands the request count and `result` to the next
iteration. -/
def processChunk (env : Env) (chunk : List String) (k : Nat) (result : ScoreMap)
    (trace : List Event) : Except (Outcome ScoreMap) (Nat × ScoreMap) × List Event :=
  match retryLoop env chunk 3 k minute none trace with
  | (RetryExit.failed err, _, trace) => (Except.error (Outcome.error err), trace)
  | (RetryExit.exited none, _, trace) => (Except.error Outcome.panicked, trace)
  | (RetryExit.exited (some resp), k, trace) =>
    if resp.StatusCode ≥ 400 then
      (Except.error (Outcome.error ("API error: " ++ resp.Status)), trace)
    else
      match resp.body with
      | Except.error err =>
        (Except.error (Outcome.error ("failed to decode response: " ++ err)), trace)
      | Except.ok parsed => (Except.ok (k, accumulate result parsed), trace)

/-- The variable `end` of the chunk loop: `i + 5`, capped at `len(instances)`. -/
def chunkEnd (instances : List String) (i : Nat) : Nat :=
  if i + 5 > instances.length then instances.length else i + 5

/-- The loop `for i := 0; i < len(instances); i += 5`, from index `i` on. -/
def chunkLoop (env : Env) (instances : List String) :
    Nat → Nat → Nat → ScoreMap → List Event → Outcome ScoreMap × List Event
  | 0, _, _, _, trace => (Outcome.outOfFuel, trace)
  | fuel + 1, i, k, result, trace =>
    if i < instances.length then
      match processChunk env (slice instances i (chunkEnd instances i)) k result trace with
      | (Except.error outcome, trace) => (outcome, trace)
      | (Except.ok (k, result), trace) => chunkLoop env instances fuel (i + 5) k result trace
    else (Outcome.value result, trace)

/-- The chunks the loop cuts from index `i` on. -/
def chunksFrom (instances : List String) : Nat → Nat → List (List String)
  | 0, _ => []
  | fuel + 1, i =>
    if i < instances.length then
      slice instances i (chunkEnd instances i) :: chunksFrom instances fuel (i + 5)
    else []

/-- The call `sort.Strings(instances)`. -/
def sortStrings (instances : List String) : List String :=
  instances.insertionSort (fun a b => a ≤ b)

/-- The cache key `fmt.Sprintf("%s-%s-%s", region, subscriptionId, strings.Join(instances, ","))`
of the sorted instance list. -/
def cacheKeyOf (region subscriptionId : String) (instances : List String) : String :=
  region ++ "-" ++ subscriptionId ++ "-" ++ ",".intercalate (sortStrings instances)

/-- What a call of `getPlacementScores` does: how it ends, the cache it leaves, and its
observable steps. -/
structure FetchResult where
  outcome : Outcome ScoreMap
  cache : PlacementScoreCache
  trace : List Event

/-- The function `getPlacementScores`, called on the cache `cache` in environment `env`. -/
def getPlacementScores (cache : PlacementScoreCache) (env : Env)
    (region subscriptionId _clientID : String) (instances : List String) : FetchResult :=
  let instances := sortStrings instances
  let cacheKey := region ++ "-" ++ subscriptionId ++ "-" ++ ",".intercalate instances
  if cache.mu then { outcome := Outcome.blocked, cache := cache, trace := [] }
  else
    let entry := cache.data
    if entry.cacheKey = cacheKey ∧ since env.now entry.timestamp < cache.ttl then
      { outcome := Outcome.value entry.scores,
        cache := { cache with mu := true }, trace := [Event.lock] }
    else
      match env.newCredential with
      | some err =>
        { outcome := Outcome.error ("failed to create managed identity credential: " ++ err),
          cache := cache, trace := [Event.lock, Event.unlock, Event.newCredential] }
      | none =>
        match env.getToken with
        | Except.error err =>
          { outcome := Outcome.error ("failed to get access token: " ++ err),
            cache := cache,
            trace := [Event.lock, Event.unlock, Event.newCredential, Event.getToken] }
        | Except.ok _ =>
          match chunkLoop env instances (instances.length + 1) 0 0 []
              [Event.lock, Event.unlock, Event.newCredential, Event.getToken] with
          | (Outcome.value result, trace) =>
            { outcome := Outcome.value result,
              cache := { cache with
                data := { cacheKey := cacheKey, timestamp := env.storeTime, scores := result } },
              trace := trace ++ [Event.lock, Event.unlock] }
          | (outcome, trace) => { outcome := outcome, cache := cache, trace := trace }

/-- The requests of a trace: the chunk each one carries. -/
def sentChunks (trace : List Event) : List (List String) :=
  trace.filterMap (fun ev => match ev with
    | Event.send chunk => some chunk
    | _ => none)

/-- The waits of a trace. -/
def sleeps (trace : List Event) : List Int :=
  trace.filterMap (fun ev => match ev with
    | Event.sleep d => some d
    | _ => none)

/-! ## Reconciler (`k8s.go`) -/

/-- A `corev1.ConfigMap` as far as `updateConfigMap` uses it; `Data` is `none` for a
nil map. -/
structure ConfigMap where
  Name : String
  Namespace : String
  Data : Option (GoMap String String)
deriving DecidableEq, Repr

/-- Errors of the API-server client. -/
inductive ApiError where
  | notFound
  | alreadyExists
  | other (msg : String)
deriving DecidableEq, Repr

/-- The configuration store at the configured name and namespace: the resource, if
there is one. -/
abbrev Store := Option ConfigMap

/-- The environment of one call of `updateConfigMap`. -/
structure ClusterEnv where
  /-- Error of `getK8SClient`, if it fails. -/
  clientset : Option String
  /-- The setting `configmap.cluster-autoscaler.name`. -/
  clusterAutoscalerCmName : String
  /-- The setting `configmap.cluster-autoscaler.namespace`. -/
  clusterAutoscalerCmNamespace : String
  /-- The serializer `yaml.Marshal` on rankings. -/
  marshal : GoMap Int (List String) → Except String String
  /-- A failure of the read, besides the resource being absent. -/
  getFault : Option ApiError
  /-- A failure of the create, besides the resource being present. -/
  createFault : Option ApiError
  /-- A failure of the update, besides the resource being absent. -/
  updateFault : Option ApiError

/-- The request `ConfigMaps(namespace).Get`. -/
def apiGet (store : Store) (env : ClusterEnv) : Except ApiError ConfigMap :=
  match env.getFault with
  | some err => Except.error err
  | none =>
    match store with
    | none => Except.error ApiError.notFound
    | some cm => Except.ok cm

/-- The request `ConfigMaps(namespace).Create`. -/
def apiCreate (store : Store) (env : ClusterEnv) (cm : ConfigMap) : Except ApiError Store :=
  match env.createFault with
  | some err => Except.error err
  | none =>
    match store with
    | some _ => Except.error ApiError.alreadyExists
    | none => Except.ok (some cm)

/-- The request `ConfigMaps(namespace).Update`. -/
def apiUpdate (store : Store) (env : ClusterEnv) (cm : ConfigMap) : Except ApiError Store :=
  match env.updateFault with
  | some err => Except.error err
  | none =>
    match store with
    | none => Except.error ApiError.notFound
    | some _ => Except.ok (some cm)

/-- A write request submitted to the store. -/
inductive WriteEvent where
  | create (cm : ConfigMap)
  | update (cm : ConfigMap)
deriving DecidableEq, Repr

/-- How a call of `updateConfigMap` ends. -/
inductive UpdateOutcome where
  /-- The call returns nil. -/
  | ok
  /-- The call returns the error of a store request. -/
  | apiError (err : ApiError)
  /-- The call returns the error of `yaml.Marshal`. -/
  | marshalError (err : String)
  /-- The process exits in `lg.Fatal`. -/
  | exited
  /-- The call panics. -/
  | panicked
deriving DecidableEq, Repr

/-- What a call of `updateConfigMap` does: how it ends, the store it leaves, and the
write requests it submitted. -/
structure UpdateResult where
  outcome : UpdateOutcome
  store : Store
  writes : List WriteEvent
deriving DecidableEq, Repr

/-- The map index expression `cm.Data["priorities"]` (a nil map reads as empty). -/
def storedPriorities (cm : ConfigMap) : String :=
  match cm.Data with
  | none => ""
  | some data => data.get "priorities" ""

/-- The function `updateConfigMap`, called on the store `store` in environment `env`. -/
def updateConfigMap (store : Store) (env : ClusterEnv) (nodePools : NodepoolMap) :
    UpdateResult :=
  let calculatedPriorities := calculatePriority nodePools
  match env.clientset with
  | some _ => { outcome := UpdateOutcome.exited, store := store, writes := [] }
  | none =>
    match env.marshal calculatedPriorities with
    | Except.error err =>
      { outcome := UpdateOutcome.marshalError err, store := store, writes := [] }
    | Except.ok newDataYamlString =>
      match apiGet store env with
      | Except.error _ =>
        let cm : ConfigMap :=
          { Name := env.clusterAutoscalerCmName, Namespace := env.clusterAutoscalerCmNamespace,
            Data := some [("priorities", newDataYamlString)] }
        match apiCreate store env cm with
        | Except.error err =>
          { outcome := UpdateOutcome.apiError err, store := store,
            writes := [WriteEvent.create cm] }
        | Except.ok store =>
          { outcome := UpdateOutcome.ok, store := store, writes := [WriteEvent.create cm] }
      | Except.ok cm =>
        if newDataYamlString = storedPriorities cm then
          { outcome := UpdateOutcome.ok, store := store, writes := [] }
        else
          match cm.Data with
          | none => { outcome := UpdateOutcome.panicked, store := store, writes := [] }
          | some data =>
            let cm : ConfigMap := { cm with Data := some (data.set "priorities" newDataYamlString) }
            match apiUpdate store env cm with
            | Except.error err =>
              { outcome := UpdateOutcome.apiError err, store := store,
                writes := [WriteEvent.update cm] }
            | Except.ok store =>
              { outcome := UpdateOutcome.ok, store := store, writes := [WriteEvent.update cm] }

/-! ## Sample environments -/

/-- An environment that grants the credential and the token and builds every request;
`send` answers the requests. -/
def Env.granting (now storeTime : Int) (send : Nat → HttpResult) : Env :=
  { now := now, newCredential := none, getToken := Except.ok "token", newRequest := none,
    send := send, storeTime := storeTime }

/-- A response with status 200 and the decoded body `parsed`. -/
def okResponse (parsed : List placementScore) : HttpResult :=
  HttpResult.response { StatusCode := 200, Status := "200 OK", body := Except.ok parsed }

/-- A response with the given status whose body is not a score payload. -/
def statusResponse (code : Nat) (status : String) : HttpResult :=
  HttpResult.response { StatusCode := code, Status := status, body := Except.error "EOF" }

/-- A first call on the initial cache: the scores of instance type `a` are fetched. -/
def firstCall : FetchResult :=
  getPlacementScores placementCache
    (Env.granting 0 1000 (fun _ => okResponse [⟨"a", "1", "High"⟩])) "r" "s" "c" ["a"]

/-- A second call with the same query, two minutes after the first. -/
def secondCall : FetchResult :=
  getPlacementScores firstCall.cache
    (Env.granting (1000 + 2 * minute) (1001 + 2 * minute) (fun _ => okResponse []))
    "r" "s" "c" ["a"]

/-- A third call with the same query, four minutes after the first. -/
def thirdCall : FetchResult :=
  getPlacementScores secondCall.cache
    (Env.granting (1000 + 4 * minute) (1001 + 4 * minute) (fun _ => okResponse []))
    "r" "s" "c" ["a"]

/-- A cache with a free mutex that holds the scores of instance type `a`, stored at
time 1000. -/
def warmCache : PlacementScoreCache :=
  { mu := false,
    data := { cacheKey := "r-s-a", timestamp := 1000, scores := [("a", [("1", 100)])] },
    ttl := 15 * minute }

/-- Twelve instance types. -/
def twelveInstances : List String :=
  ["a", "b", "c", "d", "e", "f", "g", "h", "i", "j", "k", "l"]

/-- Requests answered with two rate-limit responses and then a successful one. -/
def twiceLimited (j : Nat) : HttpResult :=
  if j < 2 then statusResponse 429 "429 Too Many Requests"
  else okResponse [⟨"a", "1", "Medium"⟩]

/-- Requests of which the first is answered successfully and the later ones with
status 500. -/
def secondFails (j : Nat) : HttpResult :=
  if j = 0 then okResponse [⟨"a", "1", "High"⟩]
  else statusResponse 500 "500 Internal Server Error"

/-- The text `yaml.Marshal` gives for a ranking whose patterns need no quoting: the
levels in increasing order, each followed by its patterns as a block sequence indented
by four spaces; the empty ranking is a pair of braces. -/
def yamlRanking (ranking : GoMap Int (List String)) : String :=
  if ranking.isEmpty then "\x7b\x7d\n"
  else
    String.join (((ranking.map Prod.fst).insertionSort (fun a b => a ≤ b)).map (fun level =>
      toString level ++ ":\n" ++
        String.join ((ranking.get level []).map (fun p => "    - " ++ p ++ "\n"))))

/-- An environment with the default settings, the client at hand and no failure of a
store request. -/
def ClusterEnv.healthy : ClusterEnv :=
  { clientset := none,
    clusterAutoscalerCmName := "cluster-autoscaler-priority-expander",
    clusterAutoscalerCmNamespace := "kube-system",
    marshal := fun ranking => Except.ok (yamlRanking ranking),
    getFault := none, createFault := none, updateFault := none }

/-- The pool `general` of guaranteed capacity with the signal values `main` gives it. -/
def generalPool : Nodepool :=
  { Name := "general", Discount := Float64.ofDec 5 10, EvictionRate := Float64.ofDec 2 10,
    PlacementScore := 45, Version := 2, PoolType := "Regular" }

/-- A store that already holds the ranking of the map with the pool `general` alone. -/
def publishedStore : Store :=
  some { Name := "cluster-autoscaler-priority-expander", Namespace := "kube-system",
         Data := some [("priorities", "50:\n    - .*general.*\n")] }

/-- The resource `updateConfigMap` creates for the serialized ranking `yaml`. -/
def createdConfigMap (env : ClusterEnv) (yaml : String) : ConfigMap :=
  { Name := env.clusterAutoscalerCmName, Namespace := env.clusterAutoscalerCmNamespace,
    Data := some [("priorities", yaml)] }

/-- The environment `ClusterEnv.healthy` with a read request that times out. -/
def ClusterEnv.readTimesOut : ClusterEnv :=
  { ClusterEnv.healthy with getFault := some (ApiError.other "timeout") }

/-- A store whose resource holds no data fields: its `Data` is the nil map. -/
def bareStore : Store :=
  some { Name := "cluster-autoscaler-priority-expander", Namespace := "kube-system",
         Data := none }

/-! ## Rankings as a whole, and the node pools of `calculate_priorities_test.go` -/

/-- All patterns of a ranking, level by level. -/
def allPatterns (ranking : GoMap Int (List String)) : List String :=
  (ranking.map Prod.snd).flatten

/-- Two records with the same signal values. -/
def sameSignals (r1 r2 : Nodepool) : Prop :=
  r1.Discount = r2.Discount ∧ r1.EvictionRate = r2.EvictionRate ∧
    r1.PlacementScore = r2.PlacementScore ∧ r1.Version = r2.Version

/-- The node pools of `TestCalculatePriority`, in one iteration order. -/
def testNodePools : NodepoolMap :=
  [("general", ⟨"general", Float64.ofDec 5 10, Float64.ofDec 2 10, 0, 2, ""⟩),
   ("spotf_v2", ⟨"spotf", Float64.ofDec 4 10, Float64.ofDec 5 100, 0, 2, ""⟩),
   ("spotd_v2", ⟨"spotd", Float64.ofDec 6 10, Float64.ofDec 2 10, 0, 2, ""⟩),
   ("spotc_v2", ⟨"spotc", Float64.ofDec 5 10, Float64.ofDec 2 10, 0, 2, ""⟩),
   ("spota_v2", ⟨"spota", Float64.ofDec 9 10, Float64.ofDec 15 100, 0, 2, ""⟩),
   ("spotb_v2", ⟨"spotb", Float64.ofDec 9 10, Float64.ofDec 5 100, 0, 2, ""⟩),
   ("spote_v2", ⟨"spote", Float64.ofDec 9 10, Float64.ofDec 3 10, 0, 2, ""⟩),
   ("spotg_v2", ⟨"spotg", Float64.ofDec 9 10, Float64.ofDec 3 10, 0, 2, ""⟩)]

/-! ## One map ranged over in two orders -/

/-- Two pools whose levels differ (1 and 2), in one iteration order. -/
def twoLevelPools : NodepoolMap :=
  [("a", record "a" (Float64.ofInt 0) (Float64.ofInt 1) 0 1),
   ("b", record "b" (Float64.ofInt 0) (Float64.ofInt 1) 0 2)]

/-- Two pools that share level 1, in one iteration order. -/
def sharedLevelPools : NodepoolMap :=
  [("a", record "a" (Float64.ofInt 0) (Float64.ofInt 1) 0 1),
   ("b", record "b" (Float64.ofInt 0) (Float64.ofInt 1) 0 1)]

/-! ## Theorems -/

/-! ### binary64 rounding -/

namespace Float64

theorem ilog2Aux_eq (fuel n : Nat) (h : n ≤ fuel) : ilog2Aux fuel n = Nat.log2 n := by
  induction fuel generalizing n with
  | zero =>
    have h0 : n = 0 := by omega
    subst h0
    simp [ilog2Aux, Nat.log2_zero]
  | succ f ih =>
    rw [ilog2Aux, Nat.log2]
    by_cases h2 : n < 2
    · have : ¬ (n ≥ 2) := by omega
      simp [h2, this]
    · have : n ≥ 2 := by omega
      simp [h2, this]
      exact ih _ (by omega)

theorem ilog2_eq (n : Nat) : ilog2 n = Nat.log2 n := ilog2Aux_eq n n (Nat.le_refl n)

theorem ilog2_lt_of_lt {n K : Nat} (h : n < 2 ^ K) (hn : n ≠ 0) : ilog2 n < K := by
  rw [ilog2_eq]; exact (Nat.log2_lt hn).2 h

theorem pow_ilog2_le {n : Nat} (hn : n ≠ 0) : 2 ^ ilog2 n ≤ n := by
  rw [ilog2_eq]; exact Nat.log2_self_le hn

theorem lt_pow_ilog2 (n : Nat) : n < 2 ^ (ilog2 n + 1) := by
  rw [ilog2_eq]; exact Nat.lt_log2_self

theorem ilog2_mono {m n : Nat} (h : m ≤ n) : ilog2 m ≤ ilog2 n := by
  by_cases hm : m = 0
  · subst hm; simp [ilog2, ilog2Aux]
  · have hn : n ≠ 0 := by omega
    rw [ilog2_eq, ilog2_eq]
    exact (Nat.le_log2 hn).2 (le_trans (Nat.log2_self_le hm) h)

theorem rneNat_ge (a b : Nat) : a / b ≤ rneNat a b := by
  unfold rneNat; split_ifs <;> omega

theorem rneNat_le (a b : Nat) : rneNat a b ≤ a / b + 1 := by
  unfold rneNat; split_ifs <;> omega

theorem rneNat_err_hi (a b : Nat) (hb : 0 < b) : 2 * (rneNat a b * b) ≤ 2 * a + b := by
  have h1 := Nat.div_add_mod' a b
  have h2 := Nat.mod_lt a hb
  unfold rneNat
  split_ifs
  · generalize a / b * b = t at *; omega
  · rw [Nat.add_mul]; generalize a / b * b = t at *; omega
  · generalize a / b * b = t at *; omega
  · rw [Nat.add_mul]; generalize a / b * b = t at *; omega

theorem rneNat_err_lo (a b : Nat) (hb : 0 < b) : 2 * a ≤ 2 * (rneNat a b * b) + b := by
  have h1 := Nat.div_add_mod' a b
  have h2 := Nat.mod_lt a hb
  unfold rneNat
  split_ifs
  · generalize a / b * b = t at *; omega
  · rw [Nat.add_mul]; generalize a / b * b = t at *; omega
  · generalize a / b * b = t at *; omega
  · rw [Nat.add_mul]; generalize a / b * b = t at *; omega

theorem rneNat_le_of_le {a b N : Nat} (hb : 0 < b) (h : a ≤ N * b) : rneNat a b ≤ N := by
  rcases Nat.lt_or_ge a (N * b) with hlt | hge
  · have : a / b < N := (Nat.div_lt_iff_lt_mul hb).2 hlt
    have := rneNat_le a b
    omega
  · have ha : a = N * b := le_antisymm h hge
    subst ha
    simp [rneNat, Nat.mul_mod_left, Nat.mul_div_cancel _ hb, hb]

theorem rneNat_ge_of_ge {a b N : Nat} (hb : 0 < b) (h : N * b ≤ a) : N ≤ rneNat a b :=
  le_trans ((Nat.le_div_iff_mul_le hb).2 h) (rneNat_ge a b)

theorem div_le_div_of_cross {a b a' b' : Nat} (hb : 0 < b) (hb' : 0 < b')
    (h : a * b' ≤ a' * b) : a / b ≤ a' / b' := by
  rw [Nat.le_div_iff_mul_le hb']
  have h1 : a / b * b ≤ a := Nat.div_mul_le_self a b
  have h2 : a / b * b' * b ≤ a' * b := by
    calc a / b * b' * b = a / b * b * b' := by ring
      _ ≤ a * b' := Nat.mul_le_mul_right _ h1
      _ ≤ a' * b := h
  exact Nat.le_of_mul_le_mul_right h2 hb

theorem rneNat_mono {a b a' b' : Nat} (hb : 0 < b) (hb' : 0 < b')
    (h : a * b' ≤ a' * b) : rneNat a b ≤ rneNat a' b' := by
  have hq := div_le_div_of_cross hb hb' h
  rcases Nat.lt_or_ge (a / b) (a' / b') with hlt | hge
  · have h1 := rneNat_le a b
    have h2 := rneNat_ge a' b'
    omega
  · have heq : a / b = a' / b' := le_antisymm hq hge
    have e1 := Nat.div_add_mod a b
    have e2 := Nat.div_add_mod a' b'
    have m1 := Nat.mod_lt a hb
    have m2 := Nat.mod_lt a' hb'
    -- remainders compare like the fractions
    have hr : (a % b) * b' ≤ (a' % b') * b := by
      have : (b * (a / b) + a % b) * b' ≤ (b' * (a' / b') + a' % b') * b := by
        rw [e1, e2]; exact h
      rw [heq] at this
      nlinarith
    unfold rneNat
    rw [heq]
    by_cases c1 : 2 * (a % b) < b
    · simp only [c1, if_true]
      split_ifs <;> omega
    · by_cases c2 : b < 2 * (a % b)
      · have c2' : b' < 2 * (a' % b') := by
          by_contra hc
          push_neg at hc
          nlinarith
        have c1' : ¬ 2 * (a' % b') < b' := by omega
        simp only [c1, c2, c1', c2', if_true, if_false, le_refl]
      · have hbe : b = 2 * (a % b) := by omega
        have c1' : ¬ 2 * (a' % b') < b' := by
          intro hc
          nlinarith
        simp only [c1, c2, c1', if_false]
        split_ifs <;> omega

end Float64

namespace Float64

theorem spacingExp_le {q K : Nat} (h : q < 2 ^ K) : spacingExp q ≤ K - 53 := by
  unfold spacingExp
  by_cases hq : q = 0
  · subst hq; simp [ilog2, ilog2Aux]
  · have := ilog2_lt_of_lt h hq
    omega

theorem lt_pow_spacingExp (q : Nat) : q < 2 ^ (spacingExp q + 53) := by
  have h := lt_pow_ilog2 q
  have hle : ilog2 q + 1 ≤ spacingExp q + 53 := by unfold spacingExp; omega
  exact lt_of_lt_of_le h (Nat.pow_le_pow_right (by norm_num) hle)

theorem spacingExp_mono {m n : Nat} (h : m ≤ n) : spacingExp m ≤ spacingExp n := by
  have := ilog2_mono h
  unfold spacingExp; omega

theorem roundMag_le {a b K : Nat} (hb : 0 < b) (h : a ≤ 2 ^ K * b) : roundMag a b ≤ 2 ^ K := by
  have hs : spacingExp (a / b) ≤ K := by
    rcases Nat.lt_or_ge (a / b) (2 ^ K) with hlt | hge
    · have := spacingExp_le hlt; omega
    · have hle : a / b ≤ 2 ^ K := by
        have := (Nat.div_le_iff_le_mul_add_pred hb).2 (by
          calc a ≤ 2 ^ K * b := h
            _ = b * 2 ^ K := Nat.mul_comm _ _
            _ ≤ b * 2 ^ K + (b - 1) := Nat.le_add_right _ _)
        exact this
      have heq : a / b = 2 ^ K := le_antisymm hle hge
      rw [heq]
      unfold spacingExp
      rw [ilog2_eq, Nat.log2_two_pow]; omega
  unfold roundMag
  have hpos : 0 < b * 2 ^ spacingExp (a / b) := Nat.mul_pos hb (Nat.pos_pow_of_pos _ (by norm_num))
  have hle : a ≤ 2 ^ (K - spacingExp (a / b)) * (b * 2 ^ spacingExp (a / b)) := by
    calc a ≤ 2 ^ K * b := h
      _ = 2 ^ (K - spacingExp (a / b) + spacingExp (a / b)) * b := by rw [Nat.sub_add_cancel hs]
      _ = 2 ^ (K - spacingExp (a / b)) * (b * 2 ^ spacingExp (a / b)) := by rw [Nat.pow_add]; ring
  calc rneNat a (b * 2 ^ spacingExp (a / b)) * 2 ^ spacingExp (a / b)
      ≤ 2 ^ (K - spacingExp (a / b)) * 2 ^ spacingExp (a / b) :=
        Nat.mul_le_mul_right _ (rneNat_le_of_le hpos hle)
    _ = 2 ^ K := by rw [← Nat.pow_add, Nat.sub_add_cancel hs]

theorem roundMag_err_hi (a b : Nat) (hb : 0 < b) :
    2 * (roundMag a b * b) ≤ 2 * a + b * 2 ^ spacingExp (a / b) := by
  have hpos : 0 < b * 2 ^ spacingExp (a / b) := Nat.mul_pos hb (Nat.pos_pow_of_pos _ (by norm_num))
  have := rneNat_err_hi a _ hpos
  unfold roundMag
  calc 2 * (rneNat a (b * 2 ^ spacingExp (a / b)) * 2 ^ spacingExp (a / b) * b)
      = 2 * (rneNat a (b * 2 ^ spacingExp (a / b)) * (b * 2 ^ spacingExp (a / b))) := by ring
    _ ≤ _ := this

theorem roundMag_err_lo (a b : Nat) (hb : 0 < b) :
    2 * a ≤ 2 * (roundMag a b * b) + b * 2 ^ spacingExp (a / b) := by
  have hpos : 0 < b * 2 ^ spacingExp (a / b) := Nat.mul_pos hb (Nat.pos_pow_of_pos _ (by norm_num))
  have := rneNat_err_lo a _ hpos
  unfold roundMag
  calc 2 * a ≤ 2 * (rneNat a (b * 2 ^ spacingExp (a / b)) * (b * 2 ^ spacingExp (a / b)))
        + b * 2 ^ spacingExp (a / b) := this
    _ = _ := by ring

theorem roundMag_mono {a b a' b' : Nat} (hb : 0 < b) (hb' : 0 < b')
    (h : a * b' ≤ a' * b) : roundMag a b ≤ roundMag a' b' := by
  have hq := div_le_div_of_cross hb hb' h
  have hs := spacingExp_mono hq
  rcases Nat.lt_or_ge (spacingExp (a / b)) (spacingExp (a' / b')) with hlt | hge
  · -- different binades: a power of two lies between the two magnitudes
    have hlow : 2 ^ (spacingExp (a' / b') + 52) ≤ roundMag a' b' := by
      have hil : ilog2 (a' / b') = spacingExp (a' / b') + 52 := by
        unfold spacingExp at hlt ⊢; omega
      have hne : a' / b' ≠ 0 := by
        intro h0
        rw [h0] at hil
        simp [ilog2, ilog2Aux] at hil
      have h1 : 2 ^ (spacingExp (a' / b') + 52) ≤ a' / b' := by
        rw [← hil]; exact pow_ilog2_le hne
      have h2 : 2 ^ (spacingExp (a' / b') + 52) * b' ≤ a' := (Nat.le_div_iff_mul_le hb').1 h1
      have hpos : 0 < b' * 2 ^ spacingExp (a' / b') :=
        Nat.mul_pos hb' (Nat.pos_pow_of_pos _ (by norm_num))
      have h3 : 2 ^ 52 * (b' * 2 ^ spacingExp (a' / b')) ≤ a' := by
        calc 2 ^ 52 * (b' * 2 ^ spacingExp (a' / b'))
            = 2 ^ (spacingExp (a' / b') + 52) * b' := by rw [Nat.pow_add]; ring
          _ ≤ a' := h2
      have h4 := rneNat_ge_of_ge hpos h3
      unfold roundMag
      calc 2 ^ (spacingExp (a' / b') + 52) = 2 ^ 52 * 2 ^ spacingExp (a' / b') := by
            rw [Nat.pow_add]; ring
        _ ≤ _ := Nat.mul_le_mul_right _ h4
    have hhigh : roundMag a b ≤ 2 ^ (spacingExp (a / b) + 53) := by
      apply roundMag_le hb
      have h1 := lt_pow_spacingExp (a / b)
      have h2 : a < 2 ^ (spacingExp (a / b) + 53) * b := (Nat.div_lt_iff_lt_mul hb).1 h1
      exact Nat.le_of_lt h2
    calc roundMag a b ≤ 2 ^ (spacingExp (a / b) + 53) := hhigh
      _ ≤ 2 ^ (spacingExp (a' / b') + 52) := Nat.pow_le_pow_right (by norm_num) (by omega)
      _ ≤ roundMag a' b' := hlow
  · have heq : spacingExp (a / b) = spacingExp (a' / b') := le_antisymm hs hge
    unfold roundMag
    rw [heq]
    apply Nat.mul_le_mul_right
    have hp : 0 < 2 ^ spacingExp (a' / b') := Nat.pos_pow_of_pos _ (by norm_num)
    apply rneNat_mono (Nat.mul_pos hb hp) (Nat.mul_pos hb' hp)
    calc a * (b' * 2 ^ spacingExp (a' / b')) = a * b' * 2 ^ spacingExp (a' / b') := by ring
      _ ≤ a' * b * 2 ^ spacingExp (a' / b') := Nat.mul_le_mul_right _ h
      _ = a' * (b * 2 ^ spacingExp (a' / b')) := by ring

end Float64

namespace Float64

theorem spacingExp_div_le {a b K : Nat} (h : a ≤ 2 ^ K * b) : spacingExp (a / b) ≤ K - 52 := by
  have h1 : a / b ≤ 2 ^ K := Nat.div_le_of_le_mul (by rw [Nat.mul_comm]; exact h)
  have h2 : a / b < 2 ^ (K + 1) :=
    lt_of_le_of_lt h1 (Nat.pow_lt_pow_right (by norm_num) (Nat.lt_succ_self K))
  have := spacingExp_le h2
  omega

theorem rneNat_mul_right (c d : Nat) (hd : 0 < d) : rneNat (c * d) d = c := by
  simp [rneNat, Nat.mul_mod_left, Nat.mul_div_cancel _ hd, hd]

/-- Multiples of the spacing are representable: they round to themselves. -/
theorem roundMag_exact {n : Nat} (h : 2 ^ spacingExp n ∣ n) : roundMag n 1 = n := by
  obtain ⟨c, hc⟩ := h
  unfold roundMag
  simp only [Nat.div_one, Nat.one_mul]
  have hp : 0 < 2 ^ spacingExp n := Nat.pos_pow_of_pos _ (by norm_num)
  generalize 2 ^ spacingExp n = d at hc hp
  subst hc
  rw [Nat.mul_comm d c, rneNat_mul_right c d hp]

theorem round_false_eq {a b K : Nat} (hb : 0 < b) (h : a ≤ 2 ^ K * b) (hK : K < 2098) :
    round false a b = fin ((roundMag a b : Nat) : Int) := by
  have h1 := roundMag_le hb h
  have h2 : 2 ^ K < overflowUnits :=
    Nat.pow_lt_pow_right (by norm_num) hK
  unfold round
  have : ¬ overflowUnits ≤ roundMag a b := by omega
  simp [this]

/-- Integers below `2^53` convert exactly. -/
theorem ofInt_natCast {n : Nat} (h : n < 2 ^ 53) : ofInt (n : Int) = fin ((n * unitsPerOne : Nat) : Int) := by
  have hex : roundMag (n * unitsPerOne) 1 = n * unitsPerOne := by
    apply roundMag_exact
    have hlt : n * unitsPerOne < 2 ^ (53 + 1074) := by
      rw [Nat.pow_add]
      exact Nat.mul_lt_mul_of_lt_of_le h (Nat.le_refl _) (Nat.pos_pow_of_pos _ (by norm_num))
    have hs := spacingExp_le hlt
    have hdvd : 2 ^ spacingExp (n * unitsPerOne) ∣ unitsPerOne :=
      Nat.pow_dvd_pow 2 (by omega)
    exact Dvd.dvd.mul_left hdvd n
  have hle : n * unitsPerOne ≤ 2 ^ (53 + 1074) * 1 := by
    rw [Nat.mul_one, Nat.pow_add]
    exact Nat.mul_le_mul_right _ (Nat.le_of_lt h)
  unfold ofInt
  have hneg : decide ((n : Int) < 0) = false := by simp
  rw [hneg, Int.natAbs_ofNat, round_false_eq Nat.one_pos hle (by norm_num), hex]

theorem unitsPerOne_pos : 0 < unitsPerOne := Nat.pos_pow_of_pos _ (by norm_num)

theorem pow_units (j : Nat) : 2 ^ (j + 1074) = 2 ^ j * unitsPerOne := by
  rw [Nat.pow_add]; rfl

theorem roundMag_le_units {a b j : Nat} (hb : 0 < b) (h : a ≤ 2 ^ j * unitsPerOne * b) :
    roundMag a b ≤ 2 ^ j * unitsPerOne := by
  rw [← pow_units] at h ⊢
  exact roundMag_le hb h

theorem round_units {a b j : Nat} (hb : 0 < b) (h : a ≤ 2 ^ j * unitsPerOne * b)
    (hj : j < 1024) : round false a b = fin ((roundMag a b : Nat) : Int) := by
  rw [← pow_units] at h
  exact round_false_eq hb h (by omega)

theorem le_units_mono {x i j : Nat} (hij : i ≤ j) (h : x ≤ 2 ^ i * unitsPerOne) :
    x ≤ 2 ^ j * unitsPerOne :=
  le_trans h (Nat.mul_le_mul_right _ (Nat.pow_le_pow_right (by norm_num) hij))

theorem add_bound {x y j : Nat} (hx : x ≤ 2 ^ j * unitsPerOne) (hy : y ≤ 2 ^ j * unitsPerOne) :
    x + y ≤ 2 ^ (j + 1) * unitsPerOne * 1 := by
  have e : 2 ^ (j + 1) * unitsPerOne * 1 = 2 ^ j * unitsPerOne + 2 ^ j * unitsPerOne := by
    rw [Nat.pow_succ]; ring
  rw [e]
  exact Nat.add_le_add hx hy

theorem addMag_le {x y j : Nat} (hx : x ≤ 2 ^ j * unitsPerOne) (hy : y ≤ 2 ^ j * unitsPerOne) :
    addMag x y ≤ 2 ^ (j + 1) * unitsPerOne :=
  roundMag_le_units Nat.one_pos (add_bound hx hy)

theorem add_fin {x y j : Nat} (hx : x ≤ 2 ^ j * unitsPerOne) (hy : y ≤ 2 ^ j * unitsPerOne)
    (hj : j + 1 < 1024) : add (fin (x : Int)) (fin (y : Int)) = fin ((addMag x y : Nat) : Int) := by
  show ofQuot ((x : Int) + (y : Int)) 1 = _
  unfold ofQuot
  have hneg : decide ((x : Int) + (y : Int) < 0) = false := by
    simp; omega
  have hab : ((x : Int) + (y : Int)).natAbs = x + y := by omega
  rw [hneg, hab]
  exact round_units Nat.one_pos (add_bound hx hy) hj

theorem subMag_le {x y j : Nat} (hx : x ≤ 2 ^ j * unitsPerOne) :
    subMag x y ≤ 2 ^ j * unitsPerOne := by
  apply roundMag_le_units Nat.one_pos
  omega

theorem sub_fin {x y j : Nat} (h : y ≤ x) (hx : x ≤ 2 ^ j * unitsPerOne) (hj : j < 1024) :
    sub (fin (x : Int)) (fin (y : Int)) = fin ((subMag x y : Nat) : Int) := by
  show ofQuot ((x : Int) + -(y : Int)) 1 = _
  unfold ofQuot
  have hneg : decide ((x : Int) + -(y : Int) < 0) = false := by
    simp; omega
  have hab : ((x : Int) + -(y : Int)).natAbs = x - y := by omega
  rw [hneg, hab]
  exact round_units Nat.one_pos (by omega) hj

theorem mul_bound {x y i j : Nat} (hx : x ≤ 2 ^ i * unitsPerOne) (hy : y ≤ 2 ^ j * unitsPerOne) :
    x * y ≤ 2 ^ (i + j) * unitsPerOne * unitsPerOne := by
  calc x * y ≤ 2 ^ i * unitsPerOne * (2 ^ j * unitsPerOne) := Nat.mul_le_mul hx hy
    _ = 2 ^ (i + j) * unitsPerOne * unitsPerOne := by rw [Nat.pow_add]; ring

theorem mulMag_le {x y i j : Nat} (hx : x ≤ 2 ^ i * unitsPerOne) (hy : y ≤ 2 ^ j * unitsPerOne) :
    mulMag x y ≤ 2 ^ (i + j) * unitsPerOne :=
  roundMag_le_units unitsPerOne_pos (mul_bound hx hy)

theorem mul_fin {x y i j : Nat} (hx : x ≤ 2 ^ i * unitsPerOne) (hy : y ≤ 2 ^ j * unitsPerOne)
    (hij : i + j < 1024) : mul (fin (x : Int)) (fin (y : Int)) = fin ((mulMag x y : Nat) : Int) := by
  show ofQuot ((x : Int) * (y : Int)) unitsPerOne = _
  unfold ofQuot
  have hneg : decide ((x : Int) * (y : Int) < 0) = false := by
    simp; positivity
  have hab : ((x : Int) * (y : Int)).natAbs = x * y := by
    rw [Int.natAbs_mul, Int.natAbs_ofNat, Int.natAbs_ofNat]
  rw [hneg, hab]
  exact round_units unitsPerOne_pos (mul_bound hx hy) hij

theorem div_bound {x y j : Nat} (h : x ≤ 2 ^ j * y) :
    x * unitsPerOne ≤ 2 ^ j * unitsPerOne * y := by
  calc x * unitsPerOne ≤ 2 ^ j * y * unitsPerOne := Nat.mul_le_mul_right _ h
    _ = 2 ^ j * unitsPerOne * y := by ring

theorem divMag_le {x y j : Nat} (hy : 0 < y) (h : x ≤ 2 ^ j * y) :
    divMag x y ≤ 2 ^ j * unitsPerOne :=
  roundMag_le_units hy (div_bound h)

theorem div_fin {x y j : Nat} (hy : 0 < y) (h : x ≤ 2 ^ j * y) (hj : j < 1024) :
    div (fin (x : Int)) (fin (y : Int)) = fin ((divMag x y : Nat) : Int) := by
  have hy0 : ¬ ((y : Int) = 0) := by omega
  show (if (y : Int) = 0 then (if (x : Int) = 0 then nan else inf (decide ((x : Int) < 0)))
    else round (decide ((x : Int) < 0) != decide ((y : Int) < 0))
      ((x : Int).natAbs * unitsPerOne) (y : Int).natAbs) = _
  rw [if_neg hy0]
  have h1 : decide ((x : Int) < 0) = false := by simp
  have h2 : decide ((y : Int) < 0) = false := by simp
  rw [h1, h2, Int.natAbs_ofNat, Int.natAbs_ofNat]
  exact round_units hy (div_bound h) hj

theorem decMag_le {a b : Nat} (hb : 0 < b) (h : a ≤ b) : decMag a b ≤ 2 ^ 0 * unitsPerOne :=
  roundMag_le_units hb (div_bound (by simpa using h))

theorem ofDec_fin {a b : Nat} (hb : 0 < b) (h : a ≤ b) :
    ofDec a b = fin ((decMag a b : Nat) : Int) :=
  round_units hb (div_bound (j := 0) (by simpa using h)) (by norm_num)

theorem toInt_natCast {n : Nat} (h : n / unitsPerOne < 2 ^ 63) :
    toInt (fin (n : Int)) = ((n / unitsPerOne : Nat) : Int) := by
  have h1 : Int.tdiv (n : Int) (unitsPerOne : Int) = ((n / unitsPerOne : Nat) : Int) := by
    rw [Int.tdiv_eq_ediv (Int.ofNat_nonneg _) (Int.ofNat_nonneg _)]; norm_cast
  have h2 : -(2 : Int) ^ 63 ≤ ((n / unitsPerOne : Nat) : Int) := by
    have : (0 : Int) ≤ ((n / unitsPerOne : Nat) : Int) := Int.ofNat_nonneg _
    omega
  have h3 : ((n / unitsPerOne : Nat) : Int) < (2 : Int) ^ 63 := by exact_mod_cast h
  simp only [toInt]
  rw [h1, if_pos ⟨h2, h3⟩]

end Float64

theorem priority_eq_scaledSum (name ty : String) (d e p v : Nat) (ver : Int)
    (hd : d ≤ unitsPerOne) (he : e ≤ unitsPerOne) (hp : p ≤ 100) (hv : v ≤ 10)
    (hver : min 10 ver = (v : Int)) :
    priority ⟨name, Float64.fin d, Float64.fin e, (p : Int), ver, ty⟩
        = ((scaledSum d e p v / unitsPerOne : Nat) : Int) ∧
      scaledSum d e p v ≤ 2 ^ 10 * unitsPerOne := by
  have hU := Float64.unitsPerOne_pos
  have hU0 : unitsPerOne ≤ 2 ^ 0 * unitsPerOne := by simp
  have hd0 : d ≤ 2 ^ 0 * unitsPerOne := by simpa using hd
  have c02 := Float64.ofDec_fin (a := 2) (b := 10) (by norm_num) (by norm_num)
  have c01 := Float64.ofDec_fin (a := 1) (b := 10) (by norm_num) (by norm_num)
  have c06 := Float64.ofDec_fin (a := 6) (b := 10) (by norm_num) (by norm_num)
  have c02le := Float64.decMag_le (a := 2) (b := 10) (by norm_num) (by norm_num)
  have c01le := Float64.decMag_le (a := 1) (b := 10) (by norm_num) (by norm_num)
  have c06le := Float64.decMag_le (a := 6) (b := 10) (by norm_num) (by norm_num)
  have one : Float64.ofInt 1 = Float64.fin ((unitsPerOne : Nat) : Int) := by
    have := Float64.ofInt_natCast (n := 1) (by norm_num)
    simpa using this
  have ten : Float64.ofInt 10 = Float64.fin ((10 * unitsPerOne : Nat) : Int) :=
    Float64.ofInt_natCast (n := 10) (by norm_num)
  have hundred : Float64.ofInt 100 = Float64.fin ((100 * unitsPerOne : Nat) : Int) :=
    Float64.ofInt_natCast (n := 100) (by norm_num)
  have pint : Float64.ofInt (p : Int) = Float64.fin ((p * unitsPerOne : Nat) : Int) :=
    Float64.ofInt_natCast (lt_of_le_of_lt hp (by norm_num))
  have vint : Float64.ofInt (v : Int) = Float64.fin ((v * unitsPerOne : Nat) : Int) :=
    Float64.ofInt_natCast (lt_of_le_of_lt hv (by norm_num))
  have h100 : 100 * unitsPerOne ≤ 2 ^ 7 * unitsPerOne :=
    Nat.mul_le_mul_right _ (by norm_num)
  -- bounds of the intermediate values
  have t1le := Float64.subMag_le (y := e) hU0
  have ale := Float64.mulMag_le t1le c02le
  have dfle := Float64.mulMag_le hd0 c01le
  have pdb : p * unitsPerOne ≤ 2 ^ 0 * (100 * unitsPerOne) := by
    rw [Nat.pow_zero, Nat.one_mul]; exact Nat.mul_le_mul_right _ hp
  have vdb : v * unitsPerOne ≤ 2 ^ 0 * (10 * unitsPerOne) := by
    rw [Nat.pow_zero, Nat.one_mul]; exact Nat.mul_le_mul_right _ hv
  have hU100 : 0 < 100 * unitsPerOne := by omega
  have hU10 : 0 < 10 * unitsPerOne := by omega
  have pdle := Float64.divMag_le hU100 pdb
  have vdle := Float64.divMag_le hU10 vdb
  have pfle := Float64.mulMag_le pdle c06le
  have vfle := Float64.mulMag_le vdle c01le
  have s1le := Float64.addMag_le ale dfle
  have s2le := Float64.addMag_le s1le (Float64.le_units_mono (j := 1) (by norm_num) vfle)
  have s3le := Float64.addMag_le s2le (Float64.le_units_mono (j := 2) (by norm_num) pfle)
  have xle := Float64.mulMag_le s3le h100
  have hdiv : scaledSum d e p v / unitsPerOne < 2 ^ 63 := by
    have h1 : scaledSum d e p v / unitsPerOne ≤ 2 ^ 10 :=
      Nat.div_le_of_le_mul (by rw [Nat.mul_comm]; exact xle)
    exact lt_of_le_of_lt h1 (by norm_num)
  refine ⟨?_, xle⟩
  rw [← Float64.toInt_natCast hdiv]
  unfold priority
  simp only [hver]
  rw [one, ten, hundred, pint, vint, c02, c01, c06,
    Float64.sub_fin he hU0 (by norm_num),
    Float64.mul_fin t1le c02le (by norm_num),
    Float64.mul_fin hd0 c01le (by norm_num),
    Float64.div_fin hU100 pdb (by norm_num),
    Float64.div_fin hU10 vdb (by norm_num),
    Float64.mul_fin pdle c06le (by norm_num),
    Float64.mul_fin vdle c01le (by norm_num),
    Float64.add_fin ale dfle (by norm_num),
    Float64.add_fin s1le (Float64.le_units_mono (j := 1) (by norm_num) vfle) (by norm_num),
    Float64.add_fin s2le (Float64.le_units_mono (j := 2) (by norm_num) pfle) (by norm_num),
    Float64.mul_fin s3le h100 (by norm_num)]
  rfl

namespace Float64

theorem unitsPerOne_cast_pos : (0 : ℚ) < (unitsPerOne : ℚ) := by
  exact_mod_cast unitsPerOne_pos

theorem unitsPerOne_cast : (unitsPerOne : ℚ) = 2 ^ 1022 * 2 ^ 52 := by
  have : unitsPerOne = 2 ^ 1022 * 2 ^ 52 := by rw [← Nat.pow_add]; rfl
  rw [this]; simp only [Nat.cast_mul, Nat.cast_pow, Nat.cast_ofNat]

/-- Rounding error of one operation: at most `2^(j-53)` when the exact result is at
most `2^j`. -/
theorem roundMag_val_err {a b j : Nat} (hb : 0 < b) (h : a ≤ 2 ^ j * unitsPerOne * b) :
    |((roundMag a b : Nat) : ℚ) / unitsPerOne - ((a : ℚ) / b) / unitsPerOne|
      ≤ 2 ^ j / 2 ^ 53 := by
  have hs : spacingExp (a / b) ≤ j + 1022 := by
    rw [← pow_units] at h
    have := spacingExp_div_le h
    omega
  have h1 := roundMag_err_hi a b hb
  have h2 := roundMag_err_lo a b hb
  have hbq : (0 : ℚ) < (b : ℚ) := by exact_mod_cast hb
  have q1 : (2 : ℚ) * ((roundMag a b : ℚ) * b) ≤ 2 * a + b * 2 ^ spacingExp (a / b) := by
    exact_mod_cast h1
  have q2 : (2 : ℚ) * a ≤ 2 * ((roundMag a b : ℚ) * b) + b * 2 ^ spacingExp (a / b) := by
    exact_mod_cast h2
  have hpow : (2 : ℚ) ^ spacingExp (a / b) ≤ 2 ^ j * 2 ^ 1022 := by
    rw [← pow_add]
    exact pow_le_pow_right₀ (by norm_num) hs
  have hU := unitsPerOne_cast_pos
  have key : |(roundMag a b : ℚ) - (a : ℚ) / b| ≤ 2 ^ j * 2 ^ 1022 / 2 := by
    rw [abs_le]
    constructor
    · rw [neg_le_sub_iff_le_add, div_le_iff₀ hbq]
      nlinarith
    · rw [sub_le_iff_le_add, ← sub_le_iff_le_add', le_div_iff₀ hbq]
      nlinarith
  have e : ((roundMag a b : Nat) : ℚ) / unitsPerOne - ((a : ℚ) / b) / unitsPerOne
      = ((roundMag a b : ℚ) - (a : ℚ) / b) / unitsPerOne := by ring
  rw [e, abs_div, abs_of_pos hU, div_le_iff₀ hU]
  calc |(roundMag a b : ℚ) - (a : ℚ) / b| ≤ 2 ^ j * 2 ^ 1022 / 2 := key
    _ = 2 ^ j / 2 ^ 53 * unitsPerOne := by
      rw [unitsPerOne_cast]
      have h53 : (2 : ℚ) ^ 53 = 2 * 2 ^ 52 := by norm_num
      rw [h53]
      field_simp
      ring

end Float64

namespace Float64

theorem val_nonneg (x : Nat) : (0 : ℚ) ≤ (x : ℚ) / unitsPerOne :=
  div_nonneg (Nat.cast_nonneg x) (le_of_lt unitsPerOne_cast_pos)

theorem val_le {x j : Nat} (h : x ≤ 2 ^ j * unitsPerOne) : (x : ℚ) / unitsPerOne ≤ 2 ^ j := by
  rw [div_le_iff₀ unitsPerOne_cast_pos]
  exact_mod_cast h

theorem addMag_err {x y j : Nat} (hx : x ≤ 2 ^ j * unitsPerOne) (hy : y ≤ 2 ^ j * unitsPerOne) :
    |((addMag x y : Nat) : ℚ) / unitsPerOne - ((x : ℚ) / unitsPerOne + (y : ℚ) / unitsPerOne)|
      ≤ 2 ^ (j + 1) / 2 ^ 53 := by
  have h := roundMag_val_err Nat.one_pos (add_bound hx hy)
  have e : (((x + y : Nat) : ℚ) / ((1 : Nat) : ℚ)) / unitsPerOne
      = (x : ℚ) / unitsPerOne + (y : ℚ) / unitsPerOne := by
    push_cast; ring
  rw [e] at h
  exact h

theorem subMag_err {x y j : Nat} (hyx : y ≤ x) (hx : x ≤ 2 ^ j * unitsPerOne) :
    |((subMag x y : Nat) : ℚ) / unitsPerOne - ((x : ℚ) / unitsPerOne - (y : ℚ) / unitsPerOne)|
      ≤ 2 ^ j / 2 ^ 53 := by
  have hb : x - y ≤ 2 ^ j * unitsPerOne * 1 := by omega
  have h := roundMag_val_err Nat.one_pos hb
  have e : (((x - y : Nat) : ℚ) / ((1 : Nat) : ℚ)) / unitsPerOne
      = (x : ℚ) / unitsPerOne - (y : ℚ) / unitsPerOne := by
    rw [Nat.cast_sub hyx]; push_cast; ring
  rw [e] at h
  exact h

theorem mulMag_err {x y i j : Nat} (hx : x ≤ 2 ^ i * unitsPerOne)
    (hy : y ≤ 2 ^ j * unitsPerOne) :
    |((mulMag x y : Nat) : ℚ) / unitsPerOne - ((x : ℚ) / unitsPerOne) * ((y : ℚ) / unitsPerOne)|
      ≤ 2 ^ (i + j) / 2 ^ 53 := by
  have h := roundMag_val_err unitsPerOne_pos (mul_bound hx hy)
  have hU := unitsPerOne_cast_pos
  have e : (((x * y : Nat) : ℚ) / (unitsPerOne : ℚ)) / unitsPerOne
      = ((x : ℚ) / unitsPerOne) * ((y : ℚ) / unitsPerOne) := by
    push_cast; field_simp
  rw [e] at h
  exact h

theorem divMag_err {x y j : Nat} (hy : 0 < y) (hxy : x ≤ 2 ^ j * y) :
    |((divMag x y : Nat) : ℚ) / unitsPerOne - (x : ℚ) / y| ≤ 2 ^ j / 2 ^ 53 := by
  have h := roundMag_val_err hy (div_bound hxy)
  have hU := unitsPerOne_cast_pos
  have hyq : (0 : ℚ) < (y : ℚ) := by exact_mod_cast hy
  have e : (((x * unitsPerOne : Nat) : ℚ) / (y : ℚ)) / unitsPerOne = (x : ℚ) / y := by
    push_cast; field_simp; ring
  rw [e] at h
  exact h

theorem mul_err_le {t g ε : ℚ} (ht0 : 0 ≤ t) (ht1 : t ≤ 1) (hg : |g| ≤ ε) : |t * g| ≤ ε := by
  rw [abs_mul, abs_of_nonneg ht0]
  calc t * |g| ≤ 1 * ε := mul_le_mul ht1 hg (abs_nonneg g) zero_le_one
    _ = ε := one_mul ε

end Float64

theorem score_err_core {E D P V T1 C2 C1 C6 A DF PD PF VD VF S1 S2 S3 X u : ℚ}
    (hu : 0 ≤ u)
    (hT1 : |T1 - (1 - E)| ≤ u) (hT1a : 0 ≤ T1) (hT1b : T1 ≤ 1)
    (hC2 : |C2 - 2 / 10| ≤ u) (hC1 : |C1 - 1 / 10| ≤ u) (hC6 : |C6 - 6 / 10| ≤ u)
    (hA : |A - T1 * C2| ≤ u)
    (hDa : 0 ≤ D) (hDb : D ≤ 1) (hDF : |DF - D * C1| ≤ u)
    (hPD : |PD - P| ≤ u) (hPDa : 0 ≤ PD) (hPDb : PD ≤ 1) (hPF : |PF - PD * C6| ≤ u)
    (hVD : |VD - V| ≤ u) (hVDa : 0 ≤ VD) (hVDb : VD ≤ 1) (hVF : |VF - VD * C1| ≤ u)
    (hS1 : |S1 - (A + DF)| ≤ 2 * u) (hS2 : |S2 - (S1 + VF)| ≤ 4 * u)
    (hS3 : |S3 - (S2 + PF)| ≤ 8 * u) (hX : |X - S3 * 100| ≤ 1024 * u) :
    |X - 100 * ((1 - E) * (2 / 10) + D * (1 / 10) + P * (6 / 10) + V * (1 / 10))|
      ≤ 4096 * u := by
  have P1 := Float64.mul_err_le hT1a hT1b hC2
  have P2 := Float64.mul_err_le hDa hDb hC1
  have P3 := Float64.mul_err_le hPDa hPDb hC6
  have P4 := Float64.mul_err_le hVDa hVDb hC1
  rw [abs_le] at *
  constructor <;> linarith [hT1.1, hT1.2, hC2.1, hC2.2, hC1.1, hC1.2, hC6.1, hC6.2, hA.1, hA.2,
    hDF.1, hDF.2, hPD.1, hPD.2, hPF.1, hPF.2, hVD.1, hVD.2, hVF.1, hVF.2, hS1.1, hS1.2,
    hS2.1, hS2.2, hS3.1, hS3.2, hX.1, hX.2, P1.1, P1.2, P2.1, P2.2, P3.1, P3.2, P4.1, P4.2]


theorem scaledSum_err (d e p v : Nat)
    (hd : d ≤ unitsPerOne) (he : e ≤ unitsPerOne) (hp : p ≤ 100) (hv : v ≤ 10) :
    |((scaledSum d e p v : Nat) : ℚ) / unitsPerOne -
      100 * ((1 - (e : ℚ) / unitsPerOne) * (2 / 10) + (d : ℚ) / unitsPerOne * (1 / 10)
        + ((p : ℚ) / 100) * (6 / 10) + ((v : ℚ) / 10) * (1 / 10))| ≤ 1 / 2 ^ 41 := by
  have hU := Float64.unitsPerOne_pos
  have hUq := Float64.unitsPerOne_cast_pos
  have hU0 : unitsPerOne ≤ 2 ^ 0 * unitsPerOne := by simp
  have hd0 : d ≤ 2 ^ 0 * unitsPerOne := by simpa using hd
  have c02le := Float64.decMag_le (a := 2) (b := 10) (by norm_num) (by norm_num)
  have c01le := Float64.decMag_le (a := 1) (b := 10) (by norm_num) (by norm_num)
  have c06le := Float64.decMag_le (a := 6) (b := 10) (by norm_num) (by norm_num)
  have h100 : 100 * unitsPerOne ≤ 2 ^ 7 * unitsPerOne :=
    Nat.mul_le_mul_right _ (by norm_num)
  have t1le := Float64.subMag_le (y := e) hU0
  have ale := Float64.mulMag_le t1le c02le
  have dfle := Float64.mulMag_le hd0 c01le
  have pdb : p * unitsPerOne ≤ 2 ^ 0 * (100 * unitsPerOne) := by
    rw [Nat.pow_zero, Nat.one_mul]; exact Nat.mul_le_mul_right _ hp
  have vdb : v * unitsPerOne ≤ 2 ^ 0 * (10 * unitsPerOne) := by
    rw [Nat.pow_zero, Nat.one_mul]; exact Nat.mul_le_mul_right _ hv
  have hU100 : 0 < 100 * unitsPerOne := by omega
  have hU10 : 0 < 10 * unitsPerOne := by omega
  have pdle := Float64.divMag_le hU100 pdb
  have vdle := Float64.divMag_le hU10 vdb
  have pfle := Float64.mulMag_le pdle c06le
  have vfle := Float64.mulMag_le vdle c01le
  have s1le := Float64.addMag_le ale dfle
  have vfle1 := Float64.le_units_mono (j := 1) (by norm_num) vfle
  have s2le := Float64.addMag_le s1le vfle1
  have pfle2 := Float64.le_units_mono (j := 2) (by norm_num) pfle
  have s3le := Float64.addMag_le s2le pfle2
  have e100 : ((100 * unitsPerOne : Nat) : ℚ) / unitsPerOne = 100 := by
    push_cast; field_simp
  have eU : ((unitsPerOne : Nat) : ℚ) / unitsPerOne = 1 := div_self (ne_of_gt hUq)
  have ep : ((p * unitsPerOne : Nat) : ℚ) / ((100 * unitsPerOne : Nat) : ℚ) = (p : ℚ) / 100 := by
    push_cast; field_simp; ring
  have ev : ((v * unitsPerOne : Nat) : ℚ) / ((10 * unitsPerOne : Nat) : ℚ) = (v : ℚ) / 10 := by
    push_cast; field_simp; ring
  -- rounding errors of the individual operations
  have E1 := Float64.subMag_err he hU0
  rw [eU] at E1
  have Ec02 : |((Float64.decMag 2 10 : Nat) : ℚ) / unitsPerOne - 2 / 10| ≤ 2 ^ 0 / 2 ^ 53 := by
    have := Float64.divMag_err (x := 2) (y := 10) (j := 0) (by norm_num) (by norm_num)
    simpa [Float64.divMag, Float64.decMag] using this
  have Ec01 : |((Float64.decMag 1 10 : Nat) : ℚ) / unitsPerOne - 1 / 10| ≤ 2 ^ 0 / 2 ^ 53 := by
    have := Float64.divMag_err (x := 1) (y := 10) (j := 0) (by norm_num) (by norm_num)
    simpa [Float64.divMag, Float64.decMag] using this
  have Ec06 : |((Float64.decMag 6 10 : Nat) : ℚ) / unitsPerOne - 6 / 10| ≤ 2 ^ 0 / 2 ^ 53 := by
    have := Float64.divMag_err (x := 6) (y := 10) (j := 0) (by norm_num) (by norm_num)
    simpa [Float64.divMag, Float64.decMag] using this
  have Ea := Float64.mulMag_err t1le c02le
  have Edf := Float64.mulMag_err hd0 c01le
  have Epd := Float64.divMag_err hU100 pdb
  rw [ep] at Epd
  have Evd := Float64.divMag_err hU10 vdb
  rw [ev] at Evd
  have Epf := Float64.mulMag_err pdle c06le
  have Evf := Float64.mulMag_err vdle c01le
  have Es1 := Float64.addMag_err ale dfle
  have Es2 := Float64.addMag_err s1le vfle1
  have Es3 := Float64.addMag_err s2le pfle2
  have Ex := Float64.mulMag_err s3le h100
  rw [e100] at Ex
  have hu : (0 : ℚ) ≤ 1 / 2 ^ 53 := by positivity
  have key := score_err_core (u := 1 / 2 ^ 53) hu
    (E1.trans (by norm_num)) (Float64.val_nonneg _) (by simpa using Float64.val_le t1le)
    (Ec02.trans (by norm_num)) (Ec01.trans (by norm_num)) (Ec06.trans (by norm_num))
    (Ea.trans (by norm_num))
    (Float64.val_nonneg d) (by simpa using Float64.val_le hd0) (Edf.trans (by norm_num))
    (Epd.trans (by norm_num)) (Float64.val_nonneg _) (by simpa using Float64.val_le pdle)
    (Epf.trans (by norm_num))
    (Evd.trans (by norm_num)) (Float64.val_nonneg _) (by simpa using Float64.val_le vdle)
    (Evf.trans (by norm_num))
    (Es1.trans (by norm_num)) (Es2.trans (by norm_num)) (Es3.trans (by norm_num))
    (Ex.trans (by norm_num))
  refine le_trans ?_ (le_of_eq (by norm_num : (4096 : ℚ) * (1 / 2 ^ 53) = 1 / 2 ^ 41))
  exact key

namespace Float64

theorem mulMag_mono_left {x x' : Nat} (y : Nat) (h : x ≤ x') : mulMag x y ≤ mulMag x' y :=
  roundMag_mono unitsPerOne_pos unitsPerOne_pos
    (Nat.mul_le_mul_right _ (Nat.mul_le_mul_right _ h))

theorem addMag_mono_right (x : Nat) {y y' : Nat} (h : y ≤ y') : addMag x y ≤ addMag x y' :=
  roundMag_mono Nat.one_pos Nat.one_pos (by omega)

theorem divMag_mono_left {x x' y : Nat} (hy : 0 < y) (h : x ≤ x') : divMag x y ≤ divMag x' y :=
  roundMag_mono hy hy (Nat.mul_le_mul_right _ (Nat.mul_le_mul_right _ h))

end Float64

theorem scaledSum_mono (d e v : Nat) {p p' : Nat} (h : p ≤ p') :
    scaledSum d e p v ≤ scaledSum d e p' v := by
  unfold scaledSum
  apply Float64.mulMag_mono_left
  apply Float64.addMag_mono_right
  apply Float64.mulMag_mono_left
  apply Float64.divMag_mono_left (Nat.mul_pos (by norm_num) Float64.unitsPerOne_pos)
  exact Nat.mul_le_mul_right _ h

theorem inUnitInterval_cases {x : Float64} (h : x.inUnitInterval = true) :
    ∃ n : Nat, n ≤ unitsPerOne ∧ x = Float64.fin (n : Int) := by
  cases x with
  | fin n =>
    simp only [Float64.inUnitInterval, decide_eq_true_eq] at h
    obtain ⟨m, rfl⟩ := Int.eq_ofNat_of_zero_le h.1
    exact ⟨m, by exact_mod_cast h.2, rfl⟩
  | inf s => simp [Float64.inUnitInterval] at h
  | nan => simp [Float64.inUnitInterval] at h

/-- On a record within the documented bounds, `priority` is the integer part of
`scaledSum`. -/
theorem priority_of_inBounds (r : Nodepool) (h : r.inBounds = true) :
    ∃ d e p v : Nat, d ≤ unitsPerOne ∧ e ≤ unitsPerOne ∧ p ≤ 100 ∧ v ≤ 10 ∧
      r.Discount = Float64.fin (d : Int) ∧ r.EvictionRate = Float64.fin (e : Int) ∧
      r.PlacementScore = (p : Int) ∧ min 10 r.Version = (v : Int) ∧
      priority r = ((scaledSum d e p v / unitsPerOne : Nat) : Int) := by
  obtain ⟨name, disc, ev, ps, ver, ty⟩ := r
  simp only [Nodepool.inBounds, Bool.and_eq_true, decide_eq_true_eq] at h
  obtain ⟨⟨⟨hdisc, hev⟩, hps0, hps1⟩, hver⟩ := h
  obtain ⟨d, hd, rfl⟩ := inUnitInterval_cases hdisc
  obtain ⟨e, he, rfl⟩ := inUnitInterval_cases hev
  obtain ⟨p, rfl⟩ := Int.eq_ofNat_of_zero_le hps0
  have hmin : 0 ≤ min 10 ver := le_min (by norm_num) hver
  obtain ⟨v, hv⟩ := Int.eq_ofNat_of_zero_le hmin
  have hp : p ≤ 100 := by exact_mod_cast hps1
  have hv10 : v ≤ 10 := by
    have : min 10 ver ≤ 10 := min_le_left _ _
    rw [hv] at this
    exact_mod_cast this
  exact ⟨d, e, p, v, hd, he, hp, hv10, rfl, rfl, rfl, hv,
    (priority_eq_scaledSum name ty d e p v ver hd he hp hv10 hv).1⟩

theorem priority_mono_placement (r1 r2 : Nodepool)
    (hDiscount : r1.Discount = r2.Discount) (hEviction : r1.EvictionRate = r2.EvictionRate)
    (hVersion : r1.Version = r2.Version)
    (h1 : r1.inBounds = true) (h2 : r2.inBounds = true)
    (hle : r1.PlacementScore ≤ r2.PlacementScore) : priority r1 ≤ priority r2 := by
  obtain ⟨d, e, p, v, -, -, -, -, hd, he, hp, hv, hpr⟩ := priority_of_inBounds r1 h1
  obtain ⟨d', e', p', v', -, -, -, -, hd', he', hp', hv', hpr'⟩ := priority_of_inBounds r2 h2
  rw [hDiscount, hd'] at hd
  rw [hEviction, he'] at he
  rw [hVersion, hv'] at hv
  have ed : d' = d := by exact_mod_cast Float64.fin.inj hd
  have ee : e' = e := by exact_mod_cast Float64.fin.inj he
  have ev : v' = v := by exact_mod_cast hv
  have hpp : p ≤ p' := by
    rw [hp, hp'] at hle
    exact_mod_cast hle
  subst ed ee ev
  rw [hpr, hpr']
  exact_mod_cast Nat.div_le_div_right (scaledSum_mono d' e' v' hpp)

theorem priority_near_specPriority (r : Nodepool) (h : r.inBounds = true) :
    |priority r - specPriority r| ≤ 1 := by
  obtain ⟨d, e, p, v, hd, he, hp, hv, hD, hE, hP, hV, hpr⟩ := priority_of_inBounds r h
  have herr := scaledSum_err d e p v hd he hp hv
  have hfl : priority r = Int.floor (((scaledSum d e p v : Nat) : ℚ) / (unitsPerOne : ℚ)) := by
    rw [hpr, Rat.floor_natCast_div_natCast]
    rfl
  have hspec : specPriority r = Int.floor ((100 : ℚ) * ((1 - (e : ℚ) / unitsPerOne) * (2 / 10)
      + (d : ℚ) / unitsPerOne * (1 / 10) + ((p : ℚ) / 100) * (6 / 10)
      + ((v : ℚ) / 10) * (1 / 10))) := by
    unfold specPriority
    rw [hD, hE, hP, min_comm, hV]
    simp only [Float64.toRat, Int.cast_natCast]
  rw [hfl, hspec]
  rw [abs_le] at herr
  have hsmall : (1 : ℚ) / 2 ^ 41 ≤ 1 := by norm_num
  rw [abs_le]
  constructor
  · have h1 : (100 : ℚ) * ((1 - (e : ℚ) / unitsPerOne) * (2 / 10)
        + (d : ℚ) / unitsPerOne * (1 / 10) + ((p : ℚ) / 100) * (6 / 10)
        + ((v : ℚ) / 10) * (1 / 10)) - 1 ≤ ((scaledSum d e p v : Nat) : ℚ) / unitsPerOne := by
      linarith [herr.1]
    have h2 := Int.floor_le_floor h1
    rw [Int.floor_sub_one] at h2
    omega
  · have h1 : ((scaledSum d e p v : Nat) : ℚ) / unitsPerOne ≤
        (100 : ℚ) * ((1 - (e : ℚ) / unitsPerOne) * (2 / 10)
        + (d : ℚ) / unitsPerOne * (1 / 10) + ((p : ℚ) / 100) * (6 / 10)
        + ((v : ℚ) / 10) * (1 / 10)) + 1 := by
      linarith [herr.2]
    have h2 := Int.floor_le_floor h1
    rw [Int.floor_add_one] at h2
    omega

/-! ### Go maps -/

namespace GoMap

variable {K V : Type} [DecidableEq K]

theorem get_set_same (m : GoMap K V) (k : K) (v z : V) : (m.set k v).get k z = v := by
  induction m with
  | nil => simp [set, get]
  | cons e rest ih =>
    by_cases h : e.1 = k
    · simp [set, get, h]
    · simp [set, get, h, ih]

theorem get_set_ne (m : GoMap K V) {k k' : K} (h : k' ≠ k) (v z : V) :
    (m.set k v).get k' z = m.get k' z := by
  induction m with
  | nil => simp [set, get, Ne.symm h]
  | cons e rest ih =>
    by_cases h1 : e.1 = k
    · have h2 : ¬ e.1 = k' := by rw [h1]; exact Ne.symm h
      simp [set, get, h1, h2, Ne.symm h]
    · by_cases h2 : e.1 = k'
      · simp [set, get, h1, h2, h]
      · simp [set, get, h1, h2, ih]

end GoMap

/-! ### Priority scorer -/

theorem calculatePriorityStep_mem_new (m : GoMap Int (List String)) (r : Nodepool) :
    pattern r.Name ∈ (calculatePriorityStep m r).get (priority r) [] := by
  unfold calculatePriorityStep
  rw [GoMap.get_set_same]
  exact List.mem_append_right _ (List.mem_singleton_self _)

theorem calculatePriorityStep_mem_old (m : GoMap Int (List String)) (r : Nodepool)
    {x : String} {k : Int} (h : x ∈ m.get k []) : x ∈ (calculatePriorityStep m r).get k [] := by
  unfold calculatePriorityStep
  by_cases hk : k = priority r
  · rw [hk] at h ⊢
    rw [GoMap.get_set_same]
    exact List.mem_append_left _ h
  · rw [GoMap.get_set_ne _ hk]
    exact h

theorem calculatePriority_foldl_mem_old (l : NodepoolMap) (m : GoMap Int (List String))
    {x : String} {k : Int} (h : x ∈ m.get k []) :
    x ∈ (l.foldl (fun priorityMap entry => calculatePriorityStep priorityMap entry.2) m).get k [] := by
  induction l generalizing m with
  | nil => exact h
  | cons e rest ih => exact ih _ (calculatePriorityStep_mem_old m e.2 h)

/-- Every record of the map has its pattern at the level `priority` computes for it. -/
theorem calculatePriority_mem (nodePools : NodepoolMap) (key : String) (r : Nodepool)
    (h : (key, r) ∈ nodePools) :
    pattern r.Name ∈ (calculatePriority nodePools).get (priority r) [] := by
  unfold calculatePriority
  generalize ([] : GoMap Int (List String)) = m
  induction nodePools generalizing m with
  | nil => simp at h
  | cons e rest ih =>
    rcases List.mem_cons.1 h with heq | hmem
    · subst heq
      exact calculatePriority_foldl_mem_old rest _ (calculatePriorityStep_mem_new m r)
    · exact ih hmem _

theorem priority_congr (r r' : Nodepool) (hd : r.Discount = r'.Discount)
    (he : r.EvictionRate = r'.EvictionRate) (hp : r.PlacementScore = r'.PlacementScore)
    (hv : min 10 r.Version = min 10 r'.Version) : priority r = priority r' := by
  unfold priority
  rw [hd, he, hp, hv]

/-- Name and capacity kind do not enter the score. -/
theorem priority_fields (name ty name' ty' : String) (d e : Float64) (p v : Int) :
    priority ⟨name, d, e, p, v, ty⟩ = priority ⟨name', d, e, p, v, ty'⟩ := by
  unfold priority
  rfl

set_option maxRecDepth 100000 in
theorem priority_example_eval :
    priority ⟨"", Float64.ofDec 5 10, Float64.ofDec 2 10, 50, 2, ""⟩ = 53 := by
  decide

set_option maxRecDepth 100000 in
theorem scaledSum_family_eval :
    ∀ v : Nat, v < 11 →
      scaledSum 0 unitsPerOne 0 v / unitsPerOne = if v = 7 then 6 else v := by
  decide

theorem priority_family (name ty : String) (v : Int) (h0 : 0 ≤ v) (h10 : v ≤ 10) :
    priority ⟨name, Float64.ofInt 0, Float64.ofInt 1, 0, v, ty⟩ = if v = 7 then 6 else v := by
  obtain ⟨n, rfl⟩ := Int.eq_ofNat_of_zero_le h0
  have hn : n ≤ 10 := by exact_mod_cast h10
  have zero : Float64.ofInt 0 = Float64.fin 0 := by
    have := Float64.ofInt_natCast (n := 0) (by norm_num)
    simpa using this
  have one : Float64.ofInt 1 = Float64.fin ((unitsPerOne : Nat) : Int) := by
    have := Float64.ofInt_natCast (n := 1) (by norm_num)
    simpa using this
  have hmin : min 10 (n : Int) = (n : Int) := min_eq_right h10
  have key := (priority_eq_scaledSum name ty 0 unitsPerOne 0 n (n : Int) (Nat.zero_le _)
    (Nat.le_refl _) (by norm_num) hn hmin).1
  rw [zero, one]
  have hz : ((0 : Nat) : Int) = 0 := rfl
  rw [hz] at key
  rw [key, scaledSum_family_eval n (by omega)]
  by_cases h7 : n = 7
  · subst h7; rfl
  · have : ¬ ((n : Int) = 7) := by exact_mod_cast h7
    simp [h7, this]

/-! ### Safety invariant checker -/

theorem maxPriority_foldl_spec (l : GoMap Int (List String)) (init : Int) :
    let m := l.foldl (fun maxPriority entry =>
      if entry.1 > maxPriority then entry.1 else maxPriority) init
    init ≤ m ∧ (∀ k ∈ l.map Prod.fst, k ≤ m) ∧ (m = init ∨ m ∈ l.map Prod.fst) := by
  induction l generalizing init with
  | nil => simp
  | cons e rest ih =>
    simp only [List.foldl_cons, List.map_cons, List.mem_cons]
    by_cases h : e.1 > init
    · simp only [h, if_true]
      obtain ⟨h1, h2, h3⟩ := ih e.1
      refine ⟨by omega, ?_, ?_⟩
      · intro k hk
        rcases hk with rfl | hk
        · exact h1
        · exact h2 k hk
      · rcases h3 with h3 | h3
        · right; left; exact h3
        · right; right; exact h3
    · simp only [h, if_false]
      obtain ⟨h1, h2, h3⟩ := ih init
      refine ⟨h1, ?_, ?_⟩
      · intro k hk
        rcases hk with rfl | hk
        · omega
        · exact h2 k hk
      · rcases h3 with h3 | h3
        · left; exact h3
        · right; right; exact h3

theorem maxPriority_eq (priorities : GoMap Int (List String)) (maxLevel : Int)
    (hmem : maxLevel ∈ priorities.map Prod.fst)
    (hmax : ∀ k ∈ priorities.map Prod.fst, k ≤ maxLevel) (hnonneg : 0 ≤ maxLevel) :
    maxPriority priorities = maxLevel := by
  obtain ⟨h1, h2, h3⟩ := maxPriority_foldl_spec priorities 0
  have hge : maxLevel ≤ maxPriority priorities := h2 maxLevel hmem
  have hle : maxPriority priorities ≤ maxLevel := by
    rcases h3 with h3 | h3
    · unfold maxPriority; rw [h3]; exact hnonneg
    · exact hmax _ h3
  exact le_antisymm hle hge

theorem regularNodepoolNames_foldl_mem (l : NodepoolMap) (init : List String) (x : String) :
    x ∈ l.foldl (fun names entry =>
        if entry.2.PoolType = "Regular" then names ++ [pattern (trimSpace entry.2.Name)]
        else names) init ↔
      x ∈ init ∨ ∃ entry ∈ l, entry.2.PoolType = "Regular" ∧
        x = pattern (trimSpace entry.2.Name) := by
  induction l generalizing init with
  | nil => simp
  | cons e rest ih =>
    simp only [List.foldl_cons, List.mem_cons]
    rw [ih]
    by_cases h : e.2.PoolType = "Regular"
    · simp only [h, if_true, List.mem_append, List.mem_singleton]
      constructor
      · rintro ((h1 | h1) | ⟨entry, hmem, hty, hx⟩)
        · left; exact h1
        · right; exact ⟨e, Or.inl rfl, h, h1⟩
        · right; exact ⟨entry, Or.inr hmem, hty, hx⟩
      · rintro (h1 | ⟨entry, hmem | hmem, hty, hx⟩)
        · left; left; exact h1
        · left; right; rw [hx, hmem]
        · right; exact ⟨entry, hmem, hty, hx⟩
    · simp only [h, if_false]
      constructor
      · rintro (h1 | ⟨entry, hmem, hty, hx⟩)
        · left; exact h1
        · right; exact ⟨entry, Or.inr hmem, hty, hx⟩
      · rintro (h1 | ⟨entry, hmem | hmem, hty, hx⟩)
        · left; exact h1
        · exfalso; rw [hmem] at hty; exact h hty
        · right; exact ⟨entry, hmem, hty, hx⟩

theorem mem_regularNodepoolNames (nodePools : NodepoolMap) (x : String) :
    x ∈ regularNodepoolNames nodePools ↔
      ∃ entry ∈ nodePools, entry.2.PoolType = "Regular" ∧
        x = pattern (trimSpace entry.2.Name) := by
  unfold regularNodepoolNames
  rw [regularNodepoolNames_foldl_mem]
  simp

theorem checkSpotIsSafe_eq_false_iff (nodePools : NodepoolMap)
    (priorities : GoMap Int (List String)) :
    checkSpotIsSafe nodePools priorities = false ↔
      ∃ entry ∈ nodePools, entry.2.PoolType = "Regular" ∧
        pattern (trimSpace entry.2.Name) ∈ priorities.get (maxPriority priorities) [] := by
  have key : (priorities.get (maxPriority priorities) []).any (fun pattern =>
      (regularNodepoolNames nodePools).any (fun defaultName => pattern = defaultName)) = true ↔
      ∃ entry ∈ nodePools, entry.2.PoolType = "Regular" ∧
        pattern (trimSpace entry.2.Name) ∈ priorities.get (maxPriority priorities) [] := by
    rw [List.any_eq_true]
    constructor
    · rintro ⟨x, hx, hy⟩
      rw [List.any_eq_true] at hy
      obtain ⟨y, hy, hxy⟩ := hy
      have hxy' : x = y := of_decide_eq_true hxy
      subst hxy'
      obtain ⟨entry, hmem, hty, rfl⟩ := (mem_regularNodepoolNames nodePools x).1 hy
      exact ⟨entry, hmem, hty, hx⟩
    · rintro ⟨entry, hmem, hty, hx⟩
      refine ⟨_, hx, ?_⟩
      rw [List.any_eq_true]
      exact ⟨_, (mem_regularNodepoolNames nodePools _).2 ⟨entry, hmem, hty, rfl⟩,
        decide_eq_true rfl⟩
  unfold checkSpotIsSafe
  simp only []
  split_ifs with h
  · exact ⟨fun _ => key.1 h, fun _ => rfl⟩
  · exact ⟨fun hf => False.elim hf, fun hex => absurd (key.2 hex) h⟩

/-! ### Claims on the priority scorer and the safety checker -/

set_option maxRecDepth 100000 in
/-- C1, counterexample: the record with placement score 0, eviction rate 1.0, discount 0
and version 7 is filed at level 6, while the formula of the specification gives
`floor(100 * (7 / 10) * 0.1) = 7`; level 7 does not hold its pattern. -/
theorem C1_counterexample :
    specPriority (record "p" (Float64.ofInt 0) (Float64.ofInt 1) 0 7) = 7 ∧
      calculatePriority [("p", record "p" (Float64.ofInt 0) (Float64.ofInt 1) 0 7)]
        = [(6, [".*p.*"])] ∧
      ¬ pattern "p" ∈ (calculatePriority
          [("p", record "p" (Float64.ofInt 0) (Float64.ofInt 1) 0 7)]).get
        (specPriority (record "p" (Float64.ofInt 0) (Float64.ofInt 1) 0 7)) [] := by
  have one : Float64.ofInt 1 = Float64.fin ((unitsPerOne : Nat) : Int) := by
    have := Float64.ofInt_natCast (n := 1) (by norm_num)
    simpa using this
  have zero : Float64.ofInt 0 = Float64.fin 0 := by
    have := Float64.ofInt_natCast (n := 0) (by norm_num)
    simpa using this
  have hspec : specPriority (record "p" (Float64.ofInt 0) (Float64.ofInt 1) 0 7) = 7 := by
    have hU : (unitsPerOne : ℚ) ≠ 0 := ne_of_gt Float64.unitsPerOne_cast_pos
    unfold specPriority record
    simp only [one, zero, Float64.toRat, Int.cast_natCast, Int.cast_zero, zero_div, div_self hU]
    norm_num
  have hcalc : calculatePriority [("p", record "p" (Float64.ofInt 0) (Float64.ofInt 1) 0 7)]
      = [(6, [".*p.*"])] := by
    have hp := priority_family "p" "Spot" 7 (by norm_num) (by norm_num)
    simp only [calculatePriority, calculatePriorityStep, List.foldl_cons, List.foldl_nil,
      GoMap.get, GoMap.set, List.nil_append, record, hp]
    decide
  refine ⟨hspec, hcalc, ?_⟩
  rw [hspec, hcalc]
  decide

/-- C1, amended: every record of a node-pool map has its pattern `".*" + Name + ".*"` at
the level `priority` computes in `float64` arithmetic with truncation; for a record
within the documented bounds this level is within 1 of the exact
`floor(100 * ((1 - e) * 0.2 + d * 0.1 + (p / 100) * 0.6 + (min(v, 10) / 10) * 0.1))`;
the record with discount 0.5, eviction rate 0.2, placement score 50 and version 2 is at
level 53; and a record with placement score 0, eviction rate 1.0, discount 0 and version
`0 ≤ v ≤ 10` is at level `v`, except that version 7 is at level 6. -/
theorem C1_calculatePriority_level (nodePools : NodepoolMap) (key : String) (r : Nodepool)
    (hmem : (key, r) ∈ nodePools) :
    pattern r.Name ∈ (calculatePriority nodePools).get (priority r) [] ∧
      (r.inBounds = true → |priority r - specPriority r| ≤ 1) ∧
      (r.Discount = Float64.ofDec 5 10 → r.EvictionRate = Float64.ofDec 2 10 →
        r.PlacementScore = 50 → r.Version = 2 → priority r = 53) ∧
      (r.Discount = Float64.ofInt 0 → r.EvictionRate = Float64.ofInt 1 →
        r.PlacementScore = 0 → 0 ≤ r.Version → r.Version ≤ 10 →
        priority r = if r.Version = 7 then 6 else r.Version) := by
  refine ⟨calculatePriority_mem nodePools key r hmem, priority_near_specPriority r, ?_, ?_⟩
  · obtain ⟨name, d, e, p, v, ty⟩ := r
    intro hd he hp hv
    simp only at hd he hp hv
    rw [hd, he, hp, hv, priority_fields name ty "" ""]
    exact priority_example_eval
  · obtain ⟨name, d, e, p, v, ty⟩ := r
    intro hd he hp h0 h10
    simp only at hd he hp h0 h10 ⊢
    rw [hd, he, hp]
    exact priority_family name ty v h0 h10

set_option maxRecDepth 100000 in
/-- C1, witness: the theorem at the map holding the record of the specification's
example, and at a record of the boundary family with version 3. -/
theorem C1_calculatePriority_level_witness :
    pattern "a" ∈ (calculatePriority
        [("a", record "a" (Float64.ofDec 5 10) (Float64.ofDec 2 10) 50 2)]).get 53 [] ∧
      |priority (record "a" (Float64.ofDec 5 10) (Float64.ofDec 2 10) 50 2)
        - specPriority (record "a" (Float64.ofDec 5 10) (Float64.ofDec 2 10) 50 2)| ≤ 1 ∧
      priority (record "b" (Float64.ofInt 0) (Float64.ofInt 1) 0 3) = 3 := by
  have h := C1_calculatePriority_level
    [("a", record "a" (Float64.ofDec 5 10) (Float64.ofDec 2 10) 50 2)] "a"
    (record "a" (Float64.ofDec 5 10) (Float64.ofDec 2 10) 50 2) (List.mem_singleton_self _)
  have h53 := h.2.2.1 rfl rfl rfl rfl
  have hb := (C1_calculatePriority_level
    [("b", record "b" (Float64.ofInt 0) (Float64.ofInt 1) 0 3)] "b"
    (record "b" (Float64.ofInt 0) (Float64.ofInt 1) 0 3) (List.mem_singleton_self _)).2.2.2
    rfl rfl rfl (by decide) (by decide)
  refine ⟨?_, h.2.1 (by decide), hb⟩
  have h1 := h.1
  rw [h53] at h1
  exact h1

set_option maxRecDepth 100000 in
/-- C2, counterexample: two records agree on name, discount (`5e17`), eviction rate and
version, and have the placement scores 0 and `9e18`. The first is filed at level
`5000000000000000000`; for the second the score leaves the range of `int`, the
conversion gives `-9223372036854775808`, and the record is filed at that lower level. -/
theorem C2_counterexample :
    (0 : Int) ≤ 9000000000000000000 ∧
      calculatePriority
          [("a", record "a" (Float64.ofInt 500000000000000000) (Float64.ofDec 2 10) 0 2)]
        = [(5000000000000000000, [".*a.*"])] ∧
      calculatePriority
          [("a", record "a" (Float64.ofInt 500000000000000000) (Float64.ofDec 2 10)
            9000000000000000000 2)]
        = [(-9223372036854775808, [".*a.*"])] ∧
      priority (record "a" (Float64.ofInt 500000000000000000) (Float64.ofDec 2 10)
          9000000000000000000 2)
        < priority (record "a" (Float64.ofInt 500000000000000000) (Float64.ofDec 2 10) 0 2) :=
  ⟨by decide, by decide, by decide, by decide⟩

/-- C2, amended: for two records within the documented bounds (discount and eviction
rate in [0,1], placement score in [0,100], version 0 or more) that agree on name,
discount, eviction rate and version, the level of the record with the larger placement
score is at least the level of the other one. -/
theorem C2_placement_monotone (r1 r2 : Nodepool) (_hName : r1.Name = r2.Name)
    (hDiscount : r1.Discount = r2.Discount) (hEviction : r1.EvictionRate = r2.EvictionRate)
    (hVersion : r1.Version = r2.Version)
    (h1 : r1.inBounds = true) (h2 : r2.inBounds = true)
    (hle : r1.PlacementScore ≤ r2.PlacementScore) :
    priority r1 ≤ priority r2 ∧
      pattern r2.Name ∈ (calculatePriority [(r2.Name, r2)]).get (priority r2) [] ∧
      pattern r1.Name ∈ (calculatePriority [(r1.Name, r1)]).get (priority r1) [] :=
  ⟨priority_mono_placement r1 r2 hDiscount hEviction hVersion h1 h2 hle,
    calculatePriority_mem _ _ _ (List.mem_singleton_self _),
    calculatePriority_mem _ _ _ (List.mem_singleton_self _)⟩

set_option maxRecDepth 100000 in
/-- C2, witness: placement scores 25 and 50 with discount 0.5, eviction rate 0.2,
version 2. -/
theorem C2_placement_monotone_witness :
    priority (record "a" (Float64.ofDec 5 10) (Float64.ofDec 2 10) 25 2)
      ≤ priority (record "a" (Float64.ofDec 5 10) (Float64.ofDec 2 10) 50 2) :=
  (C2_placement_monotone (record "a" (Float64.ofDec 5 10) (Float64.ofDec 2 10) 25 2)
    (record "a" (Float64.ofDec 5 10) (Float64.ofDec 2 10) 50 2) rfl rfl rfl rfl
    (by decide) (by decide) (by decide)).1

/-- C3: the level of a record with any version of 10 or more (1000, say) is the level
of the same record with version 10, and so is the ranking of the one-record map. -/
theorem C3_version_saturation (r : Nodepool) (key : String) (v : Int) (hv : 10 ≤ v) :
    priority { r with Version := v } = priority { r with Version := 10 } ∧
      calculatePriority [(key, { r with Version := v })]
        = calculatePriority [(key, { r with Version := 10 })] := by
  have h : priority { r with Version := v } = priority { r with Version := 10 } := by
    unfold priority
    simp only [min_eq_left hv, min_self]
  refine ⟨h, ?_⟩
  simp only [calculatePriority, calculatePriorityStep, List.foldl_cons, List.foldl_nil, h]

/-- C3, witness: version 1000 against version 10. -/
theorem C3_version_saturation_witness :
    priority { record "a" (Float64.ofDec 5 10) (Float64.ofDec 2 10) 50 2 with Version := 1000 }
      = priority { record "a" (Float64.ofDec 5 10) (Float64.ofDec 2 10) 50 2 with Version := 10 } :=
  (C3_version_saturation (record "a" (Float64.ofDec 5 10) (Float64.ofDec 2 10) 50 2) "a" 1000
    (by decide)).1

set_option maxRecDepth 100000 in
/-- C4, counterexample: the pool named `" a"` is of type `Regular` and its pattern
`".* a.*"` is the only pattern of the highest level 50 of the ranking computed from the
map, yet `checkSpotIsSafe` returns true: it compares with the pattern of the trimmed
name. -/
theorem C4_counterexample :
    calculatePriority
        [(" a", ⟨" a", Float64.ofDec 5 10, Float64.ofDec 2 10, 45, 2, "Regular"⟩)]
        = [(50, [".* a.*"])] ∧
      ¬ (checkSpotIsSafe
          [(" a", ⟨" a", Float64.ofDec 5 10, Float64.ofDec 2 10, 45, 2, "Regular"⟩)]
          [(50, [".* a.*"])] = false ↔
        ∃ entry ∈ ([(" a", ⟨" a", Float64.ofDec 5 10, Float64.ofDec 2 10, 45, 2, "Regular"⟩)] :
            NodepoolMap),
          entry.2.PoolType = "Regular" ∧
            pattern entry.2.Name ∈ GoMap.get [((50 : Int), [".* a.*"])] 50 []) := by
  refine ⟨by decide, ?_⟩
  intro h
  have hsafe : checkSpotIsSafe
      [(" a", ⟨" a", Float64.ofDec 5 10, Float64.ofDec 2 10, 45, 2, "Regular"⟩)]
      [(50, [".* a.*"])] = true := by decide
  rw [hsafe] at h
  have hex := h.2 ⟨_, List.mem_singleton_self _, rfl, by decide⟩
  exact Bool.noConfusion hex

/-- C4, amended: for a ranking whose highest level `maxLevel` is not negative,
`checkSpotIsSafe` returns false exactly when some record of type `Regular` has the
pattern of its trimmed name, `".*" + TrimSpace(Name) + ".*"`, in `ranking[maxLevel]`,
and true otherwise. -/
theorem C4_checkSpotIsSafe (nodePools : NodepoolMap) (priorities : GoMap Int (List String))
    (maxLevel : Int) (hmem : maxLevel ∈ priorities.map Prod.fst)
    (hmax : ∀ k ∈ priorities.map Prod.fst, k ≤ maxLevel) (hnonneg : 0 ≤ maxLevel) :
    (checkSpotIsSafe nodePools priorities = false ↔
      ∃ entry ∈ nodePools, entry.2.PoolType = "Regular" ∧
        pattern (trimSpace entry.2.Name) ∈ priorities.get maxLevel []) ∧
    (checkSpotIsSafe nodePools priorities = true ↔
      ¬ ∃ entry ∈ nodePools, entry.2.PoolType = "Regular" ∧
        pattern (trimSpace entry.2.Name) ∈ priorities.get maxLevel []) := by
  have h := checkSpotIsSafe_eq_false_iff nodePools priorities
  rw [maxPriority_eq priorities maxLevel hmem hmax hnonneg] at h
  refine ⟨h, ?_⟩
  rw [← h]
  cases checkSpotIsSafe nodePools priorities <;> simp

/-- C4, witness: a `Regular` pool at the highest level 50 above a spot pool at level 20. -/
theorem C4_checkSpotIsSafe_witness :
    checkSpotIsSafe
        [("general", ⟨"general", Float64.fin 0, Float64.fin 0, 45, 2, "Regular"⟩),
          ("spota", ⟨"spota", Float64.fin 0, Float64.fin 0, 0, 2, "Spot"⟩)]
        [(50, [".*general.*"]), (20, [".*spota.*"])] = false ↔
      ∃ entry ∈ ([("general", ⟨"general", Float64.fin 0, Float64.fin 0, 45, 2, "Regular"⟩),
          ("spota", ⟨"spota", Float64.fin 0, Float64.fin 0, 0, 2, "Spot"⟩)] : NodepoolMap),
        entry.2.PoolType = "Regular" ∧
          pattern (trimSpace entry.2.Name) ∈
            GoMap.get [((50 : Int), [".*general.*"]), (20, [".*spota.*"])] 50 [] :=
  (C4_checkSpotIsSafe _ [(50, [".*general.*"]), (20, [".*spota.*"])] 50 (by decide) (by decide)
    (by decide)).1

/-! ### Placement-score fetcher: chunking -/

theorem slice_length (instances : List String) (i stop : Nat) :
    (slice instances i stop).length = min (stop - i) (instances.length - i) := by
  unfold slice
  rw [List.length_take, List.length_drop]

theorem slice_chunkEnd_length (instances : List String) (i : Nat) :
    (slice instances i (chunkEnd instances i)).length = min 5 (instances.length - i) := by
  rw [slice_length]
  unfold chunkEnd
  split_ifs <;> omega

theorem chunksFrom_length (instances : List String) (fuel i : Nat)
    (h : (instances.length - i + 4) / 5 < fuel) :
    (chunksFrom instances fuel i).length = (instances.length - i + 4) / 5 := by
  induction fuel generalizing i with
  | zero => omega
  | succ fuel ih =>
    unfold chunksFrom
    split_ifs with hi
    · rw [List.length_cons, ih (i + 5) (by omega)]
      omega
    · rw [List.length_nil]
      omega

theorem chunksFrom_flatten (instances : List String) (fuel i : Nat)
    (h : (instances.length - i + 4) / 5 < fuel) :
    (chunksFrom instances fuel i).flatten = instances.drop i := by
  induction fuel generalizing i with
  | zero => omega
  | succ fuel ih =>
    unfold chunksFrom
    split_ifs with hi
    · rw [List.flatten_cons, ih (i + 5) (by omega)]
      unfold slice chunkEnd
      split_ifs with hstop
      · -- last chunk
        have h1 : instances.drop (i + 5) = [] := List.drop_eq_nil_of_le (by omega)
        rw [h1, List.append_nil]
        exact List.take_of_length_le (by rw [List.length_drop])
      · have h5 : i + 5 - i = 5 := by omega
        rw [h5, ← List.drop_drop, List.take_append_drop]
    · exact (List.drop_eq_nil_of_le (by omega)).symm

theorem chunksFrom_length_le (instances : List String) (fuel i : Nat) :
    ∀ c ∈ chunksFrom instances fuel i, c.length ≤ 5 := by
  induction fuel generalizing i with
  | zero => intro c hc; simp [chunksFrom] at hc
  | succ fuel ih =>
    intro c hc
    unfold chunksFrom at hc
    split_ifs at hc with hi
    · rcases List.mem_cons.1 hc with rfl | hc
      · rw [slice_chunkEnd_length]; omega
      · exact ih _ c hc
    · simp at hc

theorem chunksFrom_full (instances : List String) (fuel i : Nat)
    (h : (instances.length - i + 4) / 5 < fuel) :
    ∀ j, j + 1 < (chunksFrom instances fuel i).length →
      ((chunksFrom instances fuel i).getD j []).length = 5 := by
  induction fuel generalizing i with
  | zero => omega
  | succ fuel ih =>
    intro j hj
    have hlen := chunksFrom_length instances (fuel + 1) i h
    rw [hlen] at hj
    unfold chunksFrom
    split_ifs with hi
    · cases j with
      | zero =>
        rw [List.getD_cons_zero, slice_chunkEnd_length]
        omega
      | succ j =>
        rw [List.getD_cons_succ]
        apply ih (i + 5) (by omega)
        rw [chunksFrom_length instances fuel (i + 5) (by omega)]
        omega
    · omega

theorem sentChunks_append (t1 t2 : List Event) :
    sentChunks (t1 ++ t2) = sentChunks t1 ++ sentChunks t2 := by
  unfold sentChunks
  rw [List.filterMap_append]

theorem sentChunks_map_send (cs : List (List String)) :
    sentChunks (cs.map Event.send) = cs := by
  induction cs with
  | nil => rfl
  | cons c rest ih =>
    unfold sentChunks at ih ⊢
    simp only [List.map_cons, List.filterMap_cons, ih]

theorem processChunk_success (env : Env) (chunk : List String) (k : Nat) (result : ScoreMap)
    (trace : List Event) (resp : Response) (parsed : List placementScore)
    (hreq : env.newRequest = none) (hsend : env.send k = HttpResult.response resp)
    (hst : resp.StatusCode < 400) (hbody : resp.body = Except.ok parsed) :
    processChunk env chunk k result trace
      = (Except.ok (k + 1, accumulate result parsed), trace ++ [Event.send chunk]) := by
  have h429 : ¬ resp.StatusCode = 429 := by omega
  have h400 : ¬ resp.StatusCode ≥ 400 := by omega
  simp [processChunk, retryLoop, hreq, hsend, h429, h400, hbody]

/-- The loop ends with a value and sends one request per chunk when every request is
answered successfully. -/
theorem chunkLoop_success (env : Env) (instances : List String)
    (hreq : env.newRequest = none)
    (hsend : ∀ j, ∃ resp parsed, env.send j = HttpResult.response resp ∧
      resp.StatusCode < 400 ∧ resp.body = Except.ok parsed)
    (fuel i k : Nat) (result : ScoreMap) (trace : List Event)
    (h : (instances.length - i + 4) / 5 < fuel) :
    ∃ result', chunkLoop env instances fuel i k result trace
      = (Outcome.value result', trace ++ (chunksFrom instances fuel i).map Event.send) := by
  induction fuel generalizing i k result trace with
  | zero => omega
  | succ fuel ih =>
    unfold chunkLoop chunksFrom
    split_ifs with hi
    · obtain ⟨resp, parsed, hs, hst, hb⟩ := hsend k
      rw [processChunk_success env _ k result trace resp parsed hreq hs hst hb]
      obtain ⟨result', hr⟩ := ih (i + 5) (k + 1) (accumulate result parsed)
        (trace ++ [Event.send (slice instances i (chunkEnd instances i))]) (by omega)
      refine ⟨result', ?_⟩
      simp only [hr, List.map_cons, List.append_assoc, List.singleton_append]
    · exact ⟨result, by simp⟩

/-! ### Placement-score fetcher: retries -/

/-- The response that decides a chunk when the attempts are answered by `r1`, by `r2` if
a second request is sent, and by `r3` if a third one is sent: the first one that is not a
rate-limit response, or else the third. -/
theorem retryLoop_three (env : Env) (chunk : List String) (k : Nat) (trace : List Event)
    (r1 r2 r3 : Response) (hreq : env.newRequest = none)
    (h1 : env.send k = HttpResult.response r1)
    (h2 : r1.StatusCode = 429 → env.send (k + 1) = HttpResult.response r2)
    (h3 : r1.StatusCode = 429 → r2.StatusCode = 429 →
      env.send (k + 2) = HttpResult.response r3) :
    retryLoop env chunk 3 k minute none trace =
      if r1.StatusCode ≠ 429 then
        (RetryExit.exited (some r1), k + 1, trace ++ [Event.send chunk])
      else if r2.StatusCode ≠ 429 then
        (RetryExit.exited (some r2), k + 2,
          trace ++ [Event.send chunk, Event.sleep minute, Event.send chunk])
      else if r3.StatusCode ≠ 429 then
        (RetryExit.exited (some r3), k + 3,
          trace ++ [Event.send chunk, Event.sleep minute, Event.send chunk,
            Event.sleep (minute * 4), Event.send chunk])
      else
        (RetryExit.exited (some r3), k + 3,
          trace ++ [Event.send chunk, Event.sleep minute, Event.send chunk,
            Event.sleep (minute * 4), Event.send chunk, Event.sleep (minute * 4 * 4)]) := by
  by_cases c1 : r1.StatusCode = 429
  · by_cases c2 : r2.StatusCode = 429
    · by_cases c3 : r3.StatusCode = 429
      · simp [retryLoop, hreq, h1, h2 c1, h3 c1 c2, c1, c2, c3]
      · simp [retryLoop, hreq, h1, h2 c1, h3 c1 c2, c1, c2, c3]
    · simp [retryLoop, hreq, h1, h2 c1, c1, c2]
  · simp [retryLoop, hreq, h1, c1]

theorem retryLoop_exited (env : Env) (chunk : List String) (remaining k : Nat) (d : Int)
    (last : Option Response) (trace : List Event) (resp : Response) (k' : Nat)
    (trace' : List Event)
    (h : retryLoop env chunk remaining k d last trace = (RetryExit.exited (some resp), k', trace')) :
    last = some resp ∨ ∃ j, env.send j = HttpResult.response resp := by
  induction remaining generalizing k d last trace with
  | zero =>
    simp only [retryLoop, Prod.mk.injEq, RetryExit.exited.injEq] at h
    exact Or.inl h.1
  | succ n ih =>
    unfold retryLoop at h
    cases hreq : env.newRequest with
    | some err => simp [hreq] at h
    | none =>
      cases hs : env.send k with
      | failed err => simp [hreq, hs] at h
      | response r =>
        simp only [hreq, hs] at h
        split_ifs at h with c
        · rcases ih _ _ _ _ h with h' | h'
          · right
            exact ⟨k, by rw [hs]; exact congrArg HttpResult.response (Option.some.inj h')⟩
          · exact Or.inr h'
        · simp only [Prod.mk.injEq, RetryExit.exited.injEq, Option.some.injEq] at h
          right
          exact ⟨k, by rw [hs, h.1]⟩

theorem processChunk_ok (env : Env) (chunk : List String) (k : Nat) (result : ScoreMap)
    (trace : List Event) (k' : Nat) (result' : ScoreMap) (trace' : List Event)
    (h : processChunk env chunk k result trace = (Except.ok (k', result'), trace')) :
    ∃ j resp parsed, env.send j = HttpResult.response resp ∧ resp.StatusCode < 400 ∧
      resp.body = Except.ok parsed ∧ result' = accumulate result parsed := by
  unfold processChunk at h
  rcases hr : retryLoop env chunk 3 k minute none trace with ⟨exit, k1, tr1⟩
  rw [hr] at h
  cases exit with
  | failed err => simp at h
  | exited resp =>
    cases resp with
    | none => simp at h
    | some resp =>
      simp only at h
      split_ifs at h with hst
      · simp at h
      · cases hb : resp.body with
        | error err => simp [hb] at h
        | ok parsed =>
          simp only [hb, Prod.mk.injEq, Except.ok.injEq] at h
          rcases retryLoop_exited env chunk 3 k minute none trace resp k1 tr1 hr with h' | ⟨j, hj⟩
          · simp at h'
          · exact ⟨j, resp, parsed, hj, by omega, hb, h.1.2.symm⟩

/-- An early exit of `processChunk` is an error or a panic. -/
theorem processChunk_error (env : Env) (chunk : List String) (k : Nat) (result : ScoreMap)
    (trace : List Event) (out : Outcome ScoreMap) (trace' : List Event)
    (h : processChunk env chunk k result trace = (Except.error out, trace')) :
    (∃ err, out = Outcome.error err) ∨ out = Outcome.panicked := by
  unfold processChunk at h
  rcases hr : retryLoop env chunk 3 k minute none trace with ⟨exit, k1, tr1⟩
  rw [hr] at h
  cases exit with
  | failed err =>
    simp only [Prod.mk.injEq, Except.error.injEq] at h
    exact Or.inl ⟨_, h.1.symm⟩
  | exited resp =>
    cases resp with
    | none =>
      simp only [Prod.mk.injEq, Except.error.injEq] at h
      exact Or.inr h.1.symm
    | some resp =>
      simp only at h
      split_ifs at h with hst
      · simp only [Prod.mk.injEq, Except.error.injEq] at h
        exact Or.inl ⟨_, h.1.symm⟩
      · cases hb : resp.body with
        | error err =>
          simp only [hb, Prod.mk.injEq, Except.error.injEq] at h
          exact Or.inl ⟨_, h.1.symm⟩
        | ok parsed => simp [hb] at h

/-- A loop that ends with a value has combined one successfully answered and decoded
response per chunk. -/
theorem chunkLoop_value (env : Env) (instances : List String) (fuel i k : Nat)
    (result : ScoreMap) (trace : List Event) (result' : ScoreMap) (trace' : List Event)
    (h : chunkLoop env instances fuel i k result trace = (Outcome.value result', trace')) :
    ∃ payloads : List (List placementScore),
      result' = payloads.foldl accumulate result ∧
      payloads.length = (instances.length - i + 4) / 5 ∧
      ∀ parsed ∈ payloads, ∃ j resp, env.send j = HttpResult.response resp ∧
        resp.StatusCode < 400 ∧ resp.body = Except.ok parsed := by
  induction fuel generalizing i k result trace with
  | zero => simp [chunkLoop] at h
  | succ fuel ih =>
    unfold chunkLoop at h
    split_ifs at h with hi
    · rcases hp : processChunk env (slice instances i (chunkEnd instances i)) k result trace
        with ⟨step, tr1⟩
      rw [hp] at h
      cases step with
      | error out =>
        simp only [Prod.mk.injEq] at h
        rcases processChunk_error env _ k result trace out tr1 hp with ⟨err, he⟩ | he
        · rw [he] at h; exact Outcome.noConfusion h.1
        · rw [he] at h; exact Outcome.noConfusion h.1
      | ok next =>
        obtain ⟨k1, r1⟩ := next
        simp only at h
        obtain ⟨j, resp, parsed, hj, hst, hb, hr1⟩ := processChunk_ok env _ k result trace k1 r1 tr1 hp
        obtain ⟨payloads, hres, hlen, hall⟩ := ih (i + 5) k1 r1 tr1 h
        refine ⟨parsed :: payloads, ?_, ?_, ?_⟩
        · rw [List.foldl_cons, ← hr1]; exact hres
        · rw [List.length_cons, hlen]; omega
        · intro p hp'
          rcases List.mem_cons.1 hp' with rfl | hp'
          · exact ⟨j, resp, hj, hst, hb⟩
          · exact hall p hp'
    · simp only [Prod.mk.injEq, Outcome.value.injEq] at h
      refine ⟨[], ?_, ?_, ?_⟩
      · simp [h.1]
      · simp; omega
      · simp

/-! ### Placement-score fetcher: the call as a whole -/

theorem retryLoop_exited_some (env : Env) (chunk : List String) (remaining k : Nat) (d : Int)
    (last : Option Response) (trace : List Event) (k' : Nat) (trace' : List Event)
    (hpos : 0 < remaining ∨ last ≠ none) :
    retryLoop env chunk remaining k d last trace ≠ (RetryExit.exited none, k', trace') := by
  induction remaining generalizing k d last trace with
  | zero =>
    rcases hpos with h | h
    · omega
    · intro heq
      simp only [retryLoop, Prod.mk.injEq, RetryExit.exited.injEq] at heq
      exact h heq.1
  | succ n ih =>
    unfold retryLoop
    cases env.newRequest with
    | some err => simp
    | none =>
      cases env.send k with
      | failed err => simp
      | response r =>
        simp only
        split_ifs with c
        · exact ih _ _ _ _ (Or.inr (by simp))
        · simp

theorem processChunk_no_panic (env : Env) (chunk : List String) (k : Nat) (result : ScoreMap)
    (trace : List Event) (trace' : List Event) :
    processChunk env chunk k result trace ≠ (Except.error Outcome.panicked, trace') := by
  unfold processChunk
  rcases hr : retryLoop env chunk 3 k minute none trace with ⟨exit, k1, tr1⟩
  cases exit with
  | failed err => simp
  | exited resp =>
    cases resp with
    | none => exact absurd hr (retryLoop_exited_some env chunk 3 k minute none trace k1 tr1
        (Or.inl (by norm_num)))
    | some resp =>
      simp only
      split_ifs with hst
      · simp
      · cases resp.body with
        | error err => simp
        | ok parsed => simp

/-- The loop bound of the model is never used up, and the loop returns: it yields a value
or an error. -/
theorem chunkLoop_fuel (env : Env) (instances : List String) (fuel i k : Nat)
    (result : ScoreMap) (trace : List Event) (h : (instances.length - i + 4) / 5 < fuel) :
    (∃ v, (chunkLoop env instances fuel i k result trace).1 = Outcome.value v) ∨
      (∃ err, (chunkLoop env instances fuel i k result trace).1 = Outcome.error err) := by
  induction fuel generalizing i k result trace with
  | zero => omega
  | succ fuel ih =>
    unfold chunkLoop
    split_ifs with hi
    · rcases hp : processChunk env (slice instances i (chunkEnd instances i)) k result trace
        with ⟨step, tr1⟩
      cases step with
      | error out =>
        rcases processChunk_error env _ k result trace out tr1 hp with ⟨err, he⟩ | he
        · exact Or.inr ⟨err, he⟩
        · rw [he] at hp
          exact absurd hp (processChunk_no_panic env _ k result trace tr1)
      | ok next =>
        obtain ⟨k1, r1⟩ := next
        exact ih (i + 5) k1 r1 tr1 (by omega)
    · exact Or.inl ⟨result, rfl⟩

/-- A call on a locked cache never returns. -/
theorem getPlacementScores_locked (cache : PlacementScoreCache) (env : Env)
    (region subscriptionId clientID : String) (instances : List String)
    (hmu : cache.mu = true) :
    getPlacementScores cache env region subscriptionId clientID instances
      = { outcome := Outcome.blocked, cache := cache, trace := [] } := by
  unfold getPlacementScores
  simp [hmu]

/-- A cache hit: the held scores are returned, nothing but the mutex is touched, and the
mutex stays locked. -/
theorem getPlacementScores_hit (cache : PlacementScoreCache) (env : Env)
    (region subscriptionId clientID : String) (instances : List String)
    (hmu : cache.mu = false)
    (hkey : cache.data.cacheKey = cacheKeyOf region subscriptionId instances)
    (hfresh : since env.now cache.data.timestamp < cache.ttl) :
    getPlacementScores cache env region subscriptionId clientID instances
      = { outcome := Outcome.value cache.data.scores, cache := { cache with mu := true },
          trace := [Event.lock] } := by
  unfold getPlacementScores
  unfold cacheKeyOf at hkey
  simp [hmu, hkey, hfresh]

theorem retryLoop_trace (env : Env) (chunk : List String) (remaining k : Nat) (d : Int)
    (last : Option Response) (trace : List Event) :
    ∃ rest, (retryLoop env chunk remaining k d last trace).2.2 = trace ++ rest := by
  induction remaining generalizing k d last trace with
  | zero => exact ⟨[], by simp [retryLoop]⟩
  | succ n ih =>
    unfold retryLoop
    cases env.newRequest with
    | some err => exact ⟨[], by simp⟩
    | none =>
      cases env.send k with
      | failed err => exact ⟨_, rfl⟩
      | response r =>
        simp only
        split_ifs with c
        · obtain ⟨rest, hr⟩ := ih (k + 1) (d * 4) (some r)
            (trace ++ [Event.send chunk, Event.sleep d])
          exact ⟨[Event.send chunk, Event.sleep d] ++ rest, by rw [hr, List.append_assoc]⟩
        · exact ⟨_, rfl⟩

theorem processChunk_trace (env : Env) (chunk : List String) (k : Nat) (result : ScoreMap)
    (trace : List Event) :
    ∃ rest, (processChunk env chunk k result trace).2 = trace ++ rest := by
  obtain ⟨rest, hr⟩ := retryLoop_trace env chunk 3 k minute none trace
  unfold processChunk
  rcases hl : retryLoop env chunk 3 k minute none trace with ⟨exit, k1, tr1⟩
  rw [hl] at hr
  simp only at hr
  refine ⟨rest, ?_⟩
  cases exit with
  | failed err => exact hr
  | exited resp =>
    cases resp with
    | none => exact hr
    | some resp =>
      simp only
      split_ifs with hst
      · exact hr
      · cases resp.body with
        | error err => exact hr
        | ok parsed => exact hr

theorem chunkLoop_trace (env : Env) (instances : List String) (fuel i k : Nat)
    (result : ScoreMap) (trace : List Event) :
    ∃ rest, (chunkLoop env instances fuel i k result trace).2 = trace ++ rest := by
  induction fuel generalizing i k result trace with
  | zero => exact ⟨[], by simp [chunkLoop]⟩
  | succ fuel ih =>
    unfold chunkLoop
    split_ifs with hi
    · obtain ⟨rest, hr⟩ := processChunk_trace env (slice instances i (chunkEnd instances i)) k
        result trace
      rcases hp : processChunk env (slice instances i (chunkEnd instances i)) k result trace
        with ⟨step, tr1⟩
      rw [hp] at hr
      simp only at hr
      cases step with
      | error out => exact ⟨rest, hr⟩
      | ok next =>
        obtain ⟨k1, r1⟩ := next
        obtain ⟨rest', hr'⟩ := ih (i + 5) k1 r1 tr1
        refine ⟨rest ++ rest', ?_⟩
        show (chunkLoop env instances fuel (i + 5) k1 r1 tr1).2 = trace ++ (rest ++ rest')
        rw [hr', hr, List.append_assoc]
    · exact ⟨[], by simp⟩

/-- What a call does from a cache whose mutex is free and whose entry does not answer
the query: it asks for a credential, and it ends with the mutex free, either with an
error and the cache as it was, or with a value that is the new entry, stored under the
key of the query with the time of storing. -/
theorem getPlacementScores_miss (cache : PlacementScoreCache) (env : Env)
    (region subscriptionId clientID : String) (instances : List String)
    (hmu : cache.mu = false)
    (hmiss : ¬ (cache.data.cacheKey = cacheKeyOf region subscriptionId instances ∧
      since env.now cache.data.timestamp < cache.ttl)) :
    (∃ rest, (getPlacementScores cache env region subscriptionId clientID instances).trace
        = [Event.lock, Event.unlock, Event.newCredential] ++ rest) ∧
      ((∃ err, (getPlacementScores cache env region subscriptionId clientID instances).outcome
            = Outcome.error err ∧
          (getPlacementScores cache env region subscriptionId clientID instances).cache = cache) ∨
        (∃ result, (getPlacementScores cache env region subscriptionId clientID instances).outcome
            = Outcome.value result ∧
          (getPlacementScores cache env region subscriptionId clientID instances).cache
            = { cache with data := { cacheKey := cacheKeyOf region subscriptionId instances,
                                     timestamp := env.storeTime, scores := result } })) := by
  unfold getPlacementScores
  unfold cacheKeyOf at hmiss ⊢
  simp only [hmu, Bool.false_eq_true, if_false, hmiss]
  cases hc : env.newCredential with
  | some err => exact ⟨⟨[], rfl⟩, Or.inl ⟨_, rfl, rfl⟩⟩
  | none =>
    cases ht : env.getToken with
    | error err => exact ⟨⟨[Event.getToken], rfl⟩, Or.inl ⟨_, rfl, rfl⟩⟩
    | ok token =>
      simp only
      have hfuel := chunkLoop_fuel env (sortStrings instances)
        ((sortStrings instances).length + 1) 0 0 []
        [Event.lock, Event.unlock, Event.newCredential, Event.getToken] (by omega)
      obtain ⟨rest, htr⟩ := chunkLoop_trace env (sortStrings instances)
        ((sortStrings instances).length + 1) 0 0 []
        [Event.lock, Event.unlock, Event.newCredential, Event.getToken]
      rcases hl : chunkLoop env (sortStrings instances) ((sortStrings instances).length + 1) 0 0 []
        [Event.lock, Event.unlock, Event.newCredential, Event.getToken] with ⟨out, tr⟩
      rw [hl] at hfuel htr
      simp only at hfuel htr
      rcases hfuel with ⟨v, hv⟩ | ⟨err, he⟩
      · subst hv
        refine ⟨⟨[Event.getToken] ++ rest ++ [Event.lock, Event.unlock], ?_⟩,
          Or.inr ⟨v, rfl, rfl⟩⟩
        simp [htr]
      · subst he
        exact ⟨⟨[Event.getToken] ++ rest, by simp [htr]⟩, Or.inl ⟨_, rfl, rfl⟩⟩

/-! ### Claims on the placement-score cache and fetcher -/

theorem sortStrings_perm {l l' : List String} (h : l.Perm l') :
    sortStrings l = sortStrings l' :=
  List.eq_of_perm_of_sorted
    ((List.perm_insertionSort _ l).trans (h.trans (List.perm_insertionSort _ l').symm))
    (List.sorted_insertionSort _ l) (List.sorted_insertionSort _ l')

/-- Any permutation of an instance list gives the same cache key. -/
theorem cacheKeyOf_perm (region subscriptionId : String) {l l' : List String}
    (h : l.Perm l') : cacheKeyOf region subscriptionId l = cacheKeyOf region subscriptionId l' := by
  unfold cacheKeyOf
  rw [sortStrings_perm h]

theorem sortStrings_length (l : List String) : (sortStrings l).length = l.length :=
  (List.perm_insertionSort _ l).length_eq

/-- C5, failing input: from the initial cache a first call fetches and stores the scores,
a second call with the same query two minutes later is answered from the cache without
any request, and a third call with the same query, still within the 15 minutes, never
returns: the second call left the mutex locked. -/
theorem C5_third_call_blocks :
    firstCall.outcome = Outcome.value [("a", [("1", 100)])] ∧
      firstCall.cache.data = { cacheKey := "r-s-a", timestamp := 1000,
                               scores := [("a", [("1", 100)])] } ∧
      secondCall.outcome = Outcome.value [("a", [("1", 100)])] ∧
      secondCall.trace = [Event.lock] ∧
      thirdCall.outcome = Outcome.blocked ∧ thirdCall.trace = [] :=
  ⟨by decide, by decide, by decide, by decide, by decide, by decide⟩

/-- C6, failing input: a call answered from the cache returns with the mutex locked,
while a call that fetches returns with the mutex free. -/
theorem C6_hit_leaves_mutex_locked :
    (getPlacementScores warmCache
        (Env.granting (1000 + minute) (1001 + minute) (fun _ => okResponse []))
        "r" "s" "c" ["a"]).outcome = Outcome.value [("a", [("1", 100)])] ∧
      (getPlacementScores warmCache
        (Env.granting (1000 + minute) (1001 + minute) (fun _ => okResponse []))
        "r" "s" "c" ["a"]).cache.mu = true ∧
      (getPlacementScores warmCache
        (Env.granting (1000 + 16 * minute) (1001 + 16 * minute) (fun _ => okResponse []))
        "r" "s" "c" ["a"]).cache.mu = false :=
  ⟨by decide, by decide, by decide⟩

/-- C7, counterexample: a miss for 12 instance types whose first request is answered
with status 500 (no rate-limit response at all) issues one request, not 3. -/
theorem C7_counterexample :
    sentChunks (getPlacementScores placementCache
        (Env.granting 0 1000 (fun _ => statusResponse 500 "500 Internal Server Error"))
        "r" "s" "c" twelveInstances).trace = [["a", "b", "c", "d", "e"]] ∧
      (getPlacementScores placementCache
        (Env.granting 0 1000 (fun _ => statusResponse 500 "500 Internal Server Error"))
        "r" "s" "c" twelveInstances).outcome
        = Outcome.error "API error: 500 Internal Server Error" ∧
      (twelveInstances.length + 4) / 5 = 3 :=
  ⟨by decide!, by decide!, by decide⟩

/-- C7, amended: on a cache miss on which the credential and the token are granted and
every request is built and answered with a successful, decodable response,
`getPlacementScores` issues exactly `ceil(n / 5)` requests, one per consecutive chunk of
the sorted list: the chunks concatenated give the sorted list, every chunk has at most
5 instance types and every chunk but the last has exactly 5. -/
theorem C7_chunking (cache : PlacementScoreCache) (env : Env)
    (region subscriptionId clientID : String) (instances : List String)
    (hmu : cache.mu = false)
    (hmiss : ¬ (cache.data.cacheKey = cacheKeyOf region subscriptionId instances ∧
      since env.now cache.data.timestamp < cache.ttl))
    (hcred : env.newCredential = none) (htoken : ∃ token, env.getToken = Except.ok token)
    (hreq : env.newRequest = none)
    (hsend : ∀ j, ∃ resp parsed, env.send j = HttpResult.response resp ∧
      resp.StatusCode < 400 ∧ resp.body = Except.ok parsed) :
    (sentChunks (getPlacementScores cache env region subscriptionId clientID instances).trace).length
        = (instances.length + 4) / 5 ∧
      (sentChunks (getPlacementScores cache env region subscriptionId clientID instances).trace).flatten
        = sortStrings instances ∧
      (∀ chunk ∈ sentChunks
          (getPlacementScores cache env region subscriptionId clientID instances).trace,
        chunk.length ≤ 5) ∧
      (∀ j, j + 1 < (sentChunks
          (getPlacementScores cache env region subscriptionId clientID instances).trace).length →
        ((sentChunks (getPlacementScores cache env region subscriptionId clientID instances).trace).getD
          j []).length = 5) := by
  obtain ⟨token, htoken⟩ := htoken
  have hfuel : ((sortStrings instances).length - 0 + 4) / 5 < (sortStrings instances).length + 1 := by
    omega
  obtain ⟨result', hl⟩ := chunkLoop_success env (sortStrings instances) hreq hsend
    ((sortStrings instances).length + 1) 0 0 []
    [Event.lock, Event.unlock, Event.newCredential, Event.getToken] hfuel
  have htrace : sentChunks
      (getPlacementScores cache env region subscriptionId clientID instances).trace
      = chunksFrom (sortStrings instances) ((sortStrings instances).length + 1) 0 := by
    unfold getPlacementScores
    unfold cacheKeyOf at hmiss
    simp only [hmu, Bool.false_eq_true, if_false, hmiss, hcred, htoken, hl]
    rw [sentChunks_append, sentChunks_append, sentChunks_map_send]
    simp [sentChunks]
  rw [htrace]
  refine ⟨?_, ?_, chunksFrom_length_le _ _ _, chunksFrom_full _ _ _ hfuel⟩
  · rw [chunksFrom_length _ _ _ hfuel, sortStrings_length]
    simp
  · rw [chunksFrom_flatten _ _ _ hfuel]
    simp

/-- C7, witness: 12 instance types give 3 requests. -/
theorem C7_chunking_witness :
    (sentChunks (getPlacementScores placementCache
        (Env.granting 0 1000 (fun _ => okResponse [])) "r" "s" "c" twelveInstances).trace).length
      = (twelveInstances.length + 4) / 5 :=
  (C7_chunking placementCache (Env.granting 0 1000 (fun _ => okResponse []))
    "r" "s" "c" twelveInstances rfl
    (fun h => absurd h.2 (by decide)) rfl ⟨"token", rfl⟩ rfl
    (fun _ => ⟨_, [], rfl, by decide, rfl⟩)).1

/-- C8, counterexample: the one request of the chunk is answered with status 200, a
successful status, and a body that is not a score payload. The fetch fails with a
decoding error all the same. -/
theorem C8_counterexample :
    statusResponse 200 "200 OK"
        = HttpResult.response
            { StatusCode := 200, Status := "200 OK", body := Except.error "EOF" } ∧
      (getPlacementScores placementCache
          (Env.granting 0 1000 (fun _ => statusResponse 200 "200 OK")) "r" "s" "c" ["a"]).outcome
        = Outcome.error "failed to decode response: EOF" ∧
      sentChunks (getPlacementScores placementCache
          (Env.granting 0 1000 (fun _ => statusResponse 200 "200 OK")) "r" "s" "c" ["a"]).trace
        = [["a"]] :=
  ⟨rfl, by decide, by decide⟩

/-- C8, amended: when every request for one chunk is built and answered, by the response
`r1`, by `r2` if a second request is sent and by `r3` if a third one is sent, the chunk is
sent at most 3 times, again only after a rate-limit response (429); the wait is 1 minute
after the first rate-limit response, 4 minutes after the second and 16 minutes after the
third; the fetch fails with an error when the last response, the third rate-limit
response included, has a status code of 400 or more; a last response with a status code
below 400 lets the fetch go on if its body decodes, and fails the fetch with a decoding
error if it does not. -/
theorem C8_retry_policy (env : Env) (chunk : List String) (k : Nat) (result : ScoreMap)
    (trace : List Event) (r1 r2 r3 : Response) (hreq : env.newRequest = none)
    (h1 : env.send k = HttpResult.response r1)
    (h2 : r1.StatusCode = 429 → env.send (k + 1) = HttpResult.response r2)
    (h3 : r1.StatusCode = 429 → r2.StatusCode = 429 →
      env.send (k + 2) = HttpResult.response r3) :
    (processChunk env chunk k result trace).2 = trace ++
        (if r1.StatusCode ≠ 429 then [Event.send chunk]
         else if r2.StatusCode ≠ 429 then
           [Event.send chunk, Event.sleep minute, Event.send chunk]
         else if r3.StatusCode ≠ 429 then
           [Event.send chunk, Event.sleep minute, Event.send chunk,
             Event.sleep (4 * minute), Event.send chunk]
         else
           [Event.send chunk, Event.sleep minute, Event.send chunk,
             Event.sleep (4 * minute), Event.send chunk, Event.sleep (16 * minute)]) ∧
      (sentChunks (processChunk env chunk k result []).2).length ≤ 3 ∧
      (∀ last, last = (if r1.StatusCode ≠ 429 then r1 else if r2.StatusCode ≠ 429 then r2 else r3) →
        (last.StatusCode ≥ 400 →
          (processChunk env chunk k result trace).1
            = Except.error (Outcome.error ("API error: " ++ last.Status)) ∧
          ∀ (instances : List String) (fuel i : Nat), i < instances.length →
            chunk = slice instances i (chunkEnd instances i) →
            (chunkLoop env instances (fuel + 1) i k result trace).1
              = Outcome.error ("API error: " ++ last.Status)) ∧
        (last.StatusCode < 400 → ∀ parsed, last.body = Except.ok parsed →
          ∃ k', (processChunk env chunk k result trace).1
            = Except.ok (k', accumulate result parsed)) ∧
        (last.StatusCode < 400 → ∀ err, last.body = Except.error err →
          (processChunk env chunk k result trace).1
            = Except.error (Outcome.error ("failed to decode response: " ++ err)) ∧
          ∀ (instances : List String) (fuel i : Nat), i < instances.length →
            chunk = slice instances i (chunkEnd instances i) →
            (chunkLoop env instances (fuel + 1) i k result trace).1
              = Outcome.error ("failed to decode response: " ++ err))) := by
  have hm4 : minute * 4 = 4 * minute := by ring
  have hm16 : minute * 4 * 4 = 16 * minute := by ring
  have hloop := fun tr => retryLoop_three env chunk k tr r1 r2 r3 hreq h1 h2 h3
  rw [hm16, hm4] at hloop
  have key : ∀ tr, processChunk env chunk k result tr =
      (if r1.StatusCode ≠ 429 then
        (if r1.StatusCode ≥ 400 then Except.error (Outcome.error ("API error: " ++ r1.Status))
         else match r1.body with
          | Except.error err => Except.error (Outcome.error ("failed to decode response: " ++ err))
          | Except.ok parsed => Except.ok (k + 1, accumulate result parsed),
         tr ++ [Event.send chunk])
      else if r2.StatusCode ≠ 429 then
        (if r2.StatusCode ≥ 400 then Except.error (Outcome.error ("API error: " ++ r2.Status))
         else match r2.body with
          | Except.error err => Except.error (Outcome.error ("failed to decode response: " ++ err))
          | Except.ok parsed => Except.ok (k + 2, accumulate result parsed),
         tr ++ [Event.send chunk, Event.sleep minute, Event.send chunk])
      else if r3.StatusCode ≠ 429 then
        (if r3.StatusCode ≥ 400 then Except.error (Outcome.error ("API error: " ++ r3.Status))
         else match r3.body with
          | Except.error err => Except.error (Outcome.error ("failed to decode response: " ++ err))
          | Except.ok parsed => Except.ok (k + 3, accumulate result parsed),
         tr ++ [Event.send chunk, Event.sleep minute, Event.send chunk,
             Event.sleep (4 * minute), Event.send chunk])
      else
        (Except.error (Outcome.error ("API error: " ++ r3.Status)),
         tr ++ [Event.send chunk, Event.sleep minute, Event.send chunk,
             Event.sleep (4 * minute), Event.send chunk, Event.sleep (16 * minute)])) := by
    intro tr
    unfold processChunk
    rw [hloop tr]
    by_cases c1 : r1.StatusCode = 429
    · by_cases c2 : r2.StatusCode = 429
      · by_cases c3 : r3.StatusCode = 429
        · simp [c1, c2, c3]
        · simp only [c1, c2, c3, ne_eq, not_true_eq_false, not_false_eq_true, if_true, if_false]
          split_ifs
          · rfl
          · cases r3.body <;> rfl
      · simp only [c1, c2, ne_eq, not_true_eq_false, not_false_eq_true, if_true, if_false]
        split_ifs
        · rfl
        · cases r2.body <;> rfl
    · simp only [c1, ne_eq, not_false_eq_true, if_true]
      split_ifs
      · rfl
      · cases r1.body <;> rfl
  have hchunks : ∀ (msg : String),
      (processChunk env chunk k result trace).1 = Except.error (Outcome.error msg) →
      ∀ (instances : List String) (fuel i : Nat), i < instances.length →
        chunk = slice instances i (chunkEnd instances i) →
        (chunkLoop env instances (fuel + 1) i k result trace).1 = Outcome.error msg := by
    intro msg hp instances fuel i hi hchunk
    unfold chunkLoop
    rw [if_pos hi, ← hchunk]
    rcases hpc : processChunk env chunk k result trace with ⟨step, tr1⟩
    rw [hpc] at hp
    simp only at hp
    rw [hp]
  refine ⟨?_, ?_, ?_⟩
  · rw [key trace]
    split_ifs <;> rfl
  · rw [key []]
    split_ifs <;> simp [sentChunks]
  · intro last hlast
    subst hlast
    have h400 : ∀ r : Response, r.StatusCode < 400 → ¬ r.StatusCode ≥ 400 := fun r h => by omega
    have hfail : (if r1.StatusCode ≠ 429 then r1 else if r2.StatusCode ≠ 429 then r2
          else r3).StatusCode ≥ 400 →
        (processChunk env chunk k result trace).1
          = Except.error (Outcome.error ("API error: " ++
              (if r1.StatusCode ≠ 429 then r1 else if r2.StatusCode ≠ 429 then r2
                else r3).Status)) := by
      intro hst
      rw [key trace]
      by_cases c1 : r1.StatusCode = 429
      · by_cases c2 : r2.StatusCode = 429
        · by_cases c3 : r3.StatusCode = 429
          · simp [c1, c2, c3]
          · simp only [c1, c2, c3, ne_eq, not_true_eq_false, not_false_eq_true, if_true,
              if_false] at hst ⊢
            simp [hst]
        · simp only [c1, c2, ne_eq, not_true_eq_false, not_false_eq_true, if_true,
            if_false] at hst ⊢
          simp [hst]
      · simp only [c1, ne_eq, not_false_eq_true, if_true] at hst ⊢
        simp [hst]
    have hdecode : (if r1.StatusCode ≠ 429 then r1 else if r2.StatusCode ≠ 429 then r2
          else r3).StatusCode < 400 → ∀ err,
        (if r1.StatusCode ≠ 429 then r1 else if r2.StatusCode ≠ 429 then r2
          else r3).body = Except.error err →
        (processChunk env chunk k result trace).1
          = Except.error (Outcome.error ("failed to decode response: " ++ err)) := by
      intro hst err hbody
      rw [key trace]
      by_cases c1 : r1.StatusCode = 429
      · by_cases c2 : r2.StatusCode = 429
        · by_cases c3 : r3.StatusCode = 429
          · simp only [c1, c2, c3, ne_eq, not_true_eq_false, if_false] at hst
            omega
          · simp only [c1, c2, c3, ne_eq, not_true_eq_false, not_false_eq_true, if_true,
              if_false] at hst hbody ⊢
            simp [h400 r3 hst, hbody]
        · simp only [c1, c2, ne_eq, not_true_eq_false, not_false_eq_true, if_true,
            if_false] at hst hbody ⊢
          simp [h400 r2 hst, hbody]
      · simp only [c1, ne_eq, not_false_eq_true, if_true] at hst hbody ⊢
        simp [h400 r1 hst, hbody]
    refine ⟨fun hst => ⟨hfail hst, hchunks _ (hfail hst)⟩, ?_,
      fun hst err hbody => ⟨hdecode hst err hbody, hchunks _ (hdecode hst err hbody)⟩⟩
    · intro hst parsed hbody
      rw [key trace]
      by_cases c1 : r1.StatusCode = 429
      · by_cases c2 : r2.StatusCode = 429
        · by_cases c3 : r3.StatusCode = 429
          · simp only [c1, c2, c3, ne_eq, not_true_eq_false, if_false] at hst
            omega
          · simp only [c1, c2, c3, ne_eq, not_true_eq_false, not_false_eq_true, if_true,
              if_false] at hst hbody ⊢
            exact ⟨k + 3, by simp [h400 r3 hst, hbody]⟩
        · simp only [c1, c2, ne_eq, not_true_eq_false, not_false_eq_true, if_true,
            if_false] at hst hbody ⊢
          exact ⟨k + 2, by simp [h400 r2 hst, hbody]⟩
      · simp only [c1, ne_eq, not_false_eq_true, if_true] at hst hbody ⊢
        exact ⟨k + 1, by simp [h400 r1 hst, hbody]⟩

/-- C8, witness: two rate-limit responses and then a successful one: three requests,
waits of 1 and 4 minutes, and the fetch goes on. -/
theorem C8_retry_policy_witness :
    (processChunk (Env.granting 0 1000 twiceLimited) ["a"] 0 [] []).2
      = [Event.send ["a"], Event.sleep minute, Event.send ["a"], Event.sleep (4 * minute),
          Event.send ["a"]] :=
  (C8_retry_policy (Env.granting 0 1000 twiceLimited) ["a"] 0 [] []
    { StatusCode := 429, Status := "429 Too Many Requests", body := Except.error "EOF" }
    { StatusCode := 429, Status := "429 Too Many Requests", body := Except.error "EOF" }
    { StatusCode := 200, Status := "200 OK", body := Except.ok [⟨"a", "1", "Medium"⟩] }
    rfl rfl (fun _ => rfl) (fun _ _ => rfl)).1

/-- C9: a call that returns an error leaves the cache exactly as it was, and a call
that changes the cache entry has returned a value: the combination, in order, of one
successfully answered and decoded response per chunk, stored under the key of the query
with the time of storing. -/
theorem C9_no_partial_cache (cache : PlacementScoreCache) (env : Env)
    (region subscriptionId clientID : String) (instances : List String) :
    (∀ err, (getPlacementScores cache env region subscriptionId clientID instances).outcome
        = Outcome.error err →
      (getPlacementScores cache env region subscriptionId clientID instances).cache = cache) ∧
    ((getPlacementScores cache env region subscriptionId clientID instances).cache.data
        ≠ cache.data →
      ∃ payloads : List (List placementScore),
        (getPlacementScores cache env region subscriptionId clientID instances).outcome
          = Outcome.value (payloads.foldl accumulate []) ∧
        (getPlacementScores cache env region subscriptionId clientID instances).cache.data
          = { cacheKey := cacheKeyOf region subscriptionId instances,
              timestamp := env.storeTime, scores := payloads.foldl accumulate [] } ∧
        payloads.length = (instances.length + 4) / 5 ∧
        ∀ parsed ∈ payloads, ∃ j resp, env.send j = HttpResult.response resp ∧
          resp.StatusCode < 400 ∧ resp.body = Except.ok parsed) := by
  unfold getPlacementScores cacheKeyOf
  cases hmu : cache.mu with
  | true => simp
  | false =>
    simp only [Bool.false_eq_true, if_false]
    split_ifs with hhit
    · simp
    · cases hc : env.newCredential with
      | some err => simp
      | none =>
        cases ht : env.getToken with
        | error err => simp
        | ok token =>
          simp only
          rcases hl : chunkLoop env (sortStrings instances) ((sortStrings instances).length + 1)
            0 0 [] [Event.lock, Event.unlock, Event.newCredential, Event.getToken] with ⟨out, tr⟩
          cases out with
          | value v =>
            obtain ⟨payloads, hres, hlen, hall⟩ := chunkLoop_value env _ _ _ _ _ _ _ _ hl
            refine ⟨by simp, fun _ => ⟨payloads, ?_, ?_, ?_, hall⟩⟩
            · simp [hres]
            · simp [hres]
            · rw [hlen, sortStrings_length]; simp
          | error err => simp
          | blocked => simp
          | panicked => simp
          | outOfFuel => simp

/-- C9, witness: the second of two chunks is answered with status 500 after the first
one succeeded; the call returns the error and the warm cache is untouched. -/
theorem C9_no_partial_cache_witness :
    (getPlacementScores warmCache (Env.granting (1000 + 16 * minute) 0 secondFails)
        "r" "s" "c" twelveInstances).cache = warmCache :=
  (C9_no_partial_cache warmCache (Env.granting (1000 + 16 * minute) 0 secondFails)
    "r" "s" "c" twelveInstances).1 "API error: 500 Internal Server Error" (by decide!)

/-! ### Claims on the reconciler -/

set_option maxRecDepth 100000 in
/-- C10, counterexample: when the store already holds the serialized ranking, two calls
in succession with the same input perform no write at all. -/
theorem C10_counterexample :
    (updateConfigMap publishedStore ClusterEnv.healthy [("general", generalPool)]).outcome
        = UpdateOutcome.ok ∧
      (updateConfigMap publishedStore ClusterEnv.healthy [("general", generalPool)]).writes = [] ∧
      (updateConfigMap
        (updateConfigMap publishedStore ClusterEnv.healthy [("general", generalPool)]).store
        ClusterEnv.healthy [("general", generalPool)]).writes = [] :=
  ⟨by decide, by decide, by decide⟩

theorem storedPriorities_set (cm : ConfigMap) (data : GoMap String String) (yaml : String) :
    storedPriorities { cm with Data := some (data.set "priorities" yaml) } = yaml := by
  unfold storedPriorities
  simp only
  exact GoMap.get_set_same data "priorities" yaml ""

/-- A call that returns nil leaves a resource whose `priorities` field is the
serialized ranking, after at most one write, and after none exactly when the read found
that value. -/
theorem updateConfigMap_ok (store : Store) (env : ClusterEnv) (nodePools : NodepoolMap)
    (h : (updateConfigMap store env nodePools).outcome = UpdateOutcome.ok) :
    ∃ cm yaml, (updateConfigMap store env nodePools).store = some cm ∧
      env.marshal (calculatePriority nodePools) = Except.ok yaml ∧
      storedPriorities cm = yaml ∧
      (updateConfigMap store env nodePools).writes.length ≤ 1 ∧
      ((updateConfigMap store env nodePools).writes = [] ↔
        ∃ cm0, apiGet store env = Except.ok cm0 ∧ storedPriorities cm0 = yaml) := by
  unfold updateConfigMap at h ⊢
  cases hcl : env.clientset with
  | some err => simp [hcl] at h
  | none =>
    simp only [hcl] at h ⊢
    cases hm : env.marshal (calculatePriority nodePools) with
    | error err => simp [hm] at h
    | ok yaml =>
      simp only [hm] at h ⊢
      cases hg : apiGet store env with
      | error err =>
        simp only [hg] at h ⊢
        cases hcr : apiCreate store env
            { Name := env.clusterAutoscalerCmName, Namespace := env.clusterAutoscalerCmNamespace,
              Data := some [("priorities", yaml)] } with
        | error err2 => simp [hcr] at h
        | ok newStore =>
          simp only [hcr]
          have hstore : newStore = some (ConfigMap.mk env.clusterAutoscalerCmName
              env.clusterAutoscalerCmNamespace (some [("priorities", yaml)])) := by
            unfold apiCreate at hcr
            cases hf : env.createFault with
            | some e => simp [hf] at hcr
            | none =>
              cases hs : store with
              | some c => simp [hf, hs] at hcr
              | none =>
                simp only [hf, hs, Except.ok.injEq] at hcr
                exact hcr.symm
          refine ⟨_, yaml, hstore, rfl, ?_, by simp, ?_⟩
          · simp [storedPriorities, GoMap.get]
          · simp
      | ok cm0 =>
        simp only [hg] at h ⊢
        have hstore0 : store = some cm0 := by
          unfold apiGet at hg
          cases hf : env.getFault with
          | some e => simp [hf] at hg
          | none =>
            cases hs : store with
            | none => simp [hf, hs] at hg
            | some c =>
              simp only [hf, hs, Except.ok.injEq] at hg
              rw [hg]
        split_ifs at h ⊢ with heq
        · exact ⟨cm0, yaml, hstore0, rfl, heq.symm, by simp, by simp [heq.symm]⟩
        · cases hd : cm0.Data with
          | none => simp [hd] at h
          | some data =>
            simp only [hd] at h ⊢
            cases hu : apiUpdate store env
                { cm0 with Data := some (data.set "priorities" yaml) } with
            | error err2 => simp [hu] at h
            | ok newStore =>
              simp only [hu]
              have hstore : newStore = some { cm0 with Data := some (data.set "priorities" yaml) } := by
                unfold apiUpdate at hu
                cases hf : env.updateFault with
                | some e => simp [hf] at hu
                | none =>
                  cases hs : store with
                  | none => simp [hf, hs] at hu
                  | some c =>
                    simp only [hf, hs, Except.ok.injEq] at hu
                    exact hu.symm
              refine ⟨_, yaml, hstore, rfl, storedPriorities_set cm0 data yaml, by simp, ?_⟩
              simp only [List.cons_ne_nil, false_iff, not_exists, not_and]
              intro c hc
              simp only [Except.ok.injEq] at hc
              rw [← hc]
              exact fun hh => heq hh.symm

/-! ### The ranking as a whole -/

namespace GoMap

variable {K V : Type} [DecidableEq K]

theorem keys_set (m : GoMap K V) (k : K) (v : V) :
    (m.set k v).map Prod.fst = if k ∈ m.map Prod.fst then m.map Prod.fst
      else m.map Prod.fst ++ [k] := by
  induction m with
  | nil => simp [set]
  | cons e rest ih =>
    by_cases h : e.1 = k
    · simp [set, h]
    · have hne : ¬ k = e.1 := fun hk => h hk.symm
      simp only [set, h, if_false, List.map_cons, ih, List.mem_cons, hne, false_or]
      split_ifs <;> simp

theorem nodup_keys_set (m : GoMap K V) (k : K) (v : V) (h : (m.map Prod.fst).Nodup) :
    ((m.set k v).map Prod.fst).Nodup := by
  rw [keys_set]
  split_ifs with hk
  · exact h
  · exact List.Nodup.append h (List.nodup_singleton k) (by
      intro a ha hb
      rw [List.mem_singleton] at hb
      exact hk (hb ▸ ha))

theorem mem_set (m : GoMap K V) (k : K) (v : V) (e : K × V) (h : e ∈ m.set k v) :
    e = (k, v) ∨ e ∈ m := by
  induction m with
  | nil =>
    simp only [set, List.mem_singleton] at h
    exact Or.inl h
  | cons a rest ih =>
    by_cases ha : a.1 = k
    · simp only [set, ha, if_true, List.mem_cons] at h
      rcases h with h | h
      · exact Or.inl h
      · exact Or.inr (List.mem_cons_of_mem _ h)
    · simp only [set, ha, if_false, List.mem_cons] at h
      rcases h with h | h
      · exact Or.inr (h ▸ List.mem_cons_self _ _)
      · rcases ih h with h' | h'
        · exact Or.inl h'
        · exact Or.inr (List.mem_cons_of_mem _ h')

theorem hasKey_set_ne (m : GoMap K V) {k k' : K} (h : k' ≠ k) (v : V) :
    (m.set k v).hasKey k' = m.hasKey k' := by
  induction m with
  | nil => simp [set, hasKey, Ne.symm h]
  | cons e rest ih =>
    by_cases he : e.1 = k
    · simp [set, hasKey, he, Ne.symm h]
    · simp only [set, he, if_false, hasKey, ih]

end GoMap

/-- Appending a pattern to its level adds the pattern, and nothing else, to the
patterns of the ranking. -/
theorem allPatterns_set_append (m : GoMap Int (List String)) (k : Int) (x : String) :
    (allPatterns (m.set k (m.get k [] ++ [x]))).Perm (allPatterns m ++ [x]) := by
  unfold allPatterns
  induction m with
  | nil => simp [GoMap.set, GoMap.get]
  | cons e rest ih =>
    by_cases h : e.1 = k
    · simp only [GoMap.set, GoMap.get, h, if_true, List.map_cons, List.flatten_cons,
        List.append_assoc]
      exact List.Perm.append_left _ List.perm_append_comm
    · simp only [GoMap.set, GoMap.get, h, if_false, List.map_cons, List.flatten_cons,
        List.append_assoc]
      exact List.Perm.append_left _ ih

theorem calculatePriority_foldl_patterns (l : NodepoolMap) (m : GoMap Int (List String)) :
    (allPatterns (l.foldl (fun priorityMap entry => calculatePriorityStep priorityMap entry.2) m)).Perm
      (allPatterns m ++ l.map (fun entry => pattern entry.2.Name)) := by
  induction l generalizing m with
  | nil => simp
  | cons e rest ih =>
    simp only [List.foldl_cons, List.map_cons]
    refine (ih _).trans ?_
    have h := allPatterns_set_append m (priority e.2) (pattern e.2.Name)
    have h' : (allPatterns (calculatePriorityStep m e.2) ++
        rest.map (fun entry => pattern entry.2.Name)).Perm
        ((allPatterns m ++ [pattern e.2.Name]) ++ rest.map (fun entry => pattern entry.2.Name)) :=
      List.Perm.append_right _ h
    simpa [List.append_assoc] using h'

theorem calculatePriority_foldl_nodup (l : NodepoolMap) (m : GoMap Int (List String))
    (h : (m.map Prod.fst).Nodup) :
    ((l.foldl (fun priorityMap entry => calculatePriorityStep priorityMap entry.2) m).map
      Prod.fst).Nodup := by
  induction l generalizing m with
  | nil => exact h
  | cons e rest ih => exact ih _ (GoMap.nodup_keys_set m _ _ h)

theorem calculatePriority_foldl_nonempty (l : NodepoolMap) (m : GoMap Int (List String))
    (h : ∀ e ∈ m, e.2 ≠ []) :
    ∀ e ∈ l.foldl (fun priorityMap entry => calculatePriorityStep priorityMap entry.2) m,
      e.2 ≠ [] := by
  induction l generalizing m with
  | nil => exact h
  | cons a rest ih =>
    apply ih
    intro e he
    rcases GoMap.mem_set m _ _ e he with heq | hmem
    · rw [heq]
      simp
    · exact h e hmem

/-! ### One map ranged over in two orders -/

namespace GoMap

variable {K V : Type} [DecidableEq K]

theorem set_of_not_mem (m : GoMap K V) (k : K) (v : V) (h : k ∉ m.map Prod.fst) :
    m.set k v = m ++ [(k, v)] := by
  induction m with
  | nil => rfl
  | cons e rest ih =>
    simp only [List.map_cons, List.mem_cons, not_or] at h
    have hne : ¬ e.1 = k := fun hk => h.1 hk.symm
    simp only [set, hne, if_false, ih h.2, List.cons_append]

theorem get_of_not_mem (m : GoMap K V) (k : K) (z : V) (h : k ∉ m.map Prod.fst) :
    m.get k z = z := by
  induction m with
  | nil => rfl
  | cons e rest ih =>
    simp only [List.map_cons, List.mem_cons, not_or] at h
    have hne : ¬ e.1 = k := fun hk => h.1 hk.symm
    simp only [get, hne, if_false, ih h.2]

theorem get_of_mem (m : GoMap K V) (k : K) (v z : V) (hn : (m.map Prod.fst).Nodup)
    (h : (k, v) ∈ m) : m.get k z = v := by
  induction m with
  | nil => simp at h
  | cons e rest ih =>
    simp only [List.map_cons, List.nodup_cons] at hn
    rcases List.mem_cons.1 h with heq | hmem
    · rw [← heq]
      simp [get]
    · have hne : ¬ e.1 = k := by
        intro hk
        apply hn.1
        rw [hk]
        exact List.mem_map_of_mem Prod.fst hmem
      simp only [get, hne, if_false]
      exact ih hn.2 hmem

/-- On maps without a repeated key, the index expression does not depend on the order
in which the entries are listed. -/
theorem get_perm {m1 m2 : GoMap K V} (hn : (m1.map Prod.fst).Nodup) (hp : m1.Perm m2)
    (k : K) (z : V) : m1.get k z = m2.get k z := by
  have hn2 : (m2.map Prod.fst).Nodup := (hp.map Prod.fst).nodup_iff.1 hn
  by_cases hk : k ∈ m1.map Prod.fst
  · obtain ⟨e, he, hek⟩ := List.mem_map.1 hk
    have he1 : (k, e.2) ∈ m1 := by
      rw [← hek]
      exact he
    rw [get_of_mem m1 k e.2 z hn he1, get_of_mem m2 k e.2 z hn2 (hp.mem_iff.1 he1)]
  · have hk2 : k ∉ m2.map Prod.fst := fun h => hk ((hp.map Prod.fst).mem_iff.2 h)
    rw [get_of_not_mem m1 k z hk, get_of_not_mem m2 k z hk2]

end GoMap

/-- When the levels of the records are pairwise different, each record opens a level of
its own. -/
theorem calculatePriority_foldl_distinct (l : NodepoolMap) (m : GoMap Int (List String))
    (hn : (m.map Prod.fst ++ l.map (fun entry => priority entry.2)).Nodup) :
    l.foldl (fun priorityMap entry => calculatePriorityStep priorityMap entry.2) m
      = m ++ l.map (fun entry => (priority entry.2, [pattern entry.2.Name])) := by
  induction l generalizing m with
  | nil => simp
  | cons e rest ih =>
    have hnot : priority e.2 ∉ m.map Prod.fst := by
      intro hmem
      have hd := (List.nodup_append.1 hn).2.2
      exact hd hmem (List.mem_cons_self _ _)
    have hstep : calculatePriorityStep m e.2 = m ++ [(priority e.2, [pattern e.2.Name])] := by
      unfold calculatePriorityStep
      rw [GoMap.get_of_not_mem m _ _ hnot, GoMap.set_of_not_mem m _ _ hnot]
      rfl
    rw [List.foldl_cons, hstep, ih]
    · simp
    · simpa [List.append_assoc] using hn

theorem calculatePriority_distinct (nodePools : NodepoolMap)
    (hn : (nodePools.map (fun entry => priority entry.2)).Nodup) :
    calculatePriority nodePools
      = nodePools.map (fun entry => (priority entry.2, [pattern entry.2.Name])) := by
  unfold calculatePriority
  rw [calculatePriority_foldl_distinct nodePools [] (by simpa using hn)]
  rfl

/-- When the levels of the records are pairwise different, ranging over the map in
another order gives the same ranking, its levels listed in another order. -/
theorem calculatePriority_perm {nodePools1 nodePools2 : NodepoolMap}
    (hp : nodePools1.Perm nodePools2)
    (hn : (nodePools1.map (fun entry => priority entry.2)).Nodup) :
    (calculatePriority nodePools1).Perm (calculatePriority nodePools2) := by
  have hn2 : (nodePools2.map (fun entry => priority entry.2)).Nodup :=
    (hp.map _).nodup_iff.1 hn
  rw [calculatePriority_distinct nodePools1 hn, calculatePriority_distinct nodePools2 hn2]
  exact hp.map _

/-- The text `yamlRanking` is the same for every order in which the levels of a ranking
are listed. -/
theorem yamlRanking_perm {m1 m2 : GoMap Int (List String)} (hn : (m1.map Prod.fst).Nodup)
    (hp : m1.Perm m2) : yamlRanking m1 = yamlRanking m2 := by
  have hempty : m1.isEmpty = m2.isEmpty := by
    cases m1 with
    | nil => rw [hp.nil_eq]
    | cons a t =>
      cases m2 with
      | nil => exact absurd hp.symm.nil_eq (List.cons_ne_nil _ _).symm
      | cons b u => rfl
  have hkeys : (m1.map Prod.fst).insertionSort (fun a b => a ≤ b)
      = (m2.map Prod.fst).insertionSort (fun a b => a ≤ b) :=
    List.eq_of_perm_of_sorted
      ((List.perm_insertionSort _ _).trans ((hp.map Prod.fst).trans
        (List.perm_insertionSort _ _).symm))
      (List.sorted_insertionSort _ _) (List.sorted_insertionSort _ _)
  have hget : ∀ level, GoMap.get m1 level [] = GoMap.get m2 level [] :=
    fun level => GoMap.get_perm hn hp level []
  unfold yamlRanking
  rw [hempty, hkeys]
  simp only [hget]

theorem calculatePriority_twoLevelPools :
    calculatePriority twoLevelPools = [(1, [".*a.*"]), (2, [".*b.*"])] ∧
      calculatePriority twoLevelPools.reverse = [(2, [".*b.*"]), (1, [".*a.*"])] := by
  have h1 := priority_family "a" "Spot" 1 (by norm_num) (by norm_num)
  have h2 := priority_family "b" "Spot" 2 (by norm_num) (by norm_num)
  constructor
  · simp only [twoLevelPools, calculatePriority, calculatePriorityStep, List.foldl_cons,
      List.foldl_nil, record, h1, h2]
    decide
  · simp only [twoLevelPools, List.reverse_cons, List.reverse_nil, List.nil_append,
      List.singleton_append, calculatePriority, calculatePriorityStep, List.foldl_cons,
      List.foldl_nil, record, h1, h2]
    decide

theorem calculatePriority_sharedLevelPools :
    calculatePriority sharedLevelPools = [(1, [".*a.*", ".*b.*"])] ∧
      calculatePriority sharedLevelPools.reverse = [(1, [".*b.*", ".*a.*"])] := by
  have h1 := priority_family "a" "Spot" 1 (by norm_num) (by norm_num)
  have h2 := priority_family "b" "Spot" 1 (by norm_num) (by norm_num)
  constructor
  · simp only [sharedLevelPools, calculatePriority, calculatePriorityStep, List.foldl_cons,
      List.foldl_nil, record, h1, h2]
    decide
  · simp only [sharedLevelPools, List.reverse_cons, List.reverse_nil, List.nil_append,
      List.singleton_append, calculatePriority, calculatePriorityStep, List.foldl_cons,
      List.foldl_nil, record, h1, h2]
    decide

/-- Two pools that share a level, ranged over in the order `a`, `b` by the first call and
in the order `b`, `a` by the second: the first call creates the resource with the
patterns in the first order, the second call serializes them in the other order, finds
the text different and submits an update, although the input is the same map. -/
theorem updateConfigMap_reordered_writes :
    (updateConfigMap none ClusterEnv.healthy sharedLevelPools).outcome = UpdateOutcome.ok ∧
      (updateConfigMap none ClusterEnv.healthy sharedLevelPools).store
        = some (createdConfigMap ClusterEnv.healthy "1:\n    - .*a.*\n    - .*b.*\n") ∧
      (updateConfigMap (updateConfigMap none ClusterEnv.healthy sharedLevelPools).store
          ClusterEnv.healthy sharedLevelPools.reverse).writes
        = [WriteEvent.update
            (createdConfigMap ClusterEnv.healthy "1:\n    - .*b.*\n    - .*a.*\n")] := by
  have hfirst : updateConfigMap none ClusterEnv.healthy sharedLevelPools
      = { outcome := UpdateOutcome.ok,
          store := some (createdConfigMap ClusterEnv.healthy "1:\n    - .*a.*\n    - .*b.*\n"),
          writes := [WriteEvent.create
            (createdConfigMap ClusterEnv.healthy "1:\n    - .*a.*\n    - .*b.*\n")] } := by
    unfold updateConfigMap
    rw [calculatePriority_sharedLevelPools.1]
    decide
  refine ⟨by rw [hfirst], by rw [hfirst], ?_⟩
  rw [hfirst]
  unfold updateConfigMap
  rw [calculatePriority_sharedLevelPools.2]
  decide

/-- C10, amended: the two calls get the same map, each ranging over it in an order of
its own, and the same serializer, whose text does not depend on the order in which the
levels of a ranking are listed. If no two records of the map are given the same level,
the first call returns nil and the read of the second call succeeds, then the second call
finds the stored `priorities` value textually equal to the serialized ranking, performs
no write and leaves the store as it is (returning nil if it has the client); the first
call performs at most one write, and none exactly when its read already found that
value. So the two calls perform at most one write in total. -/
theorem C10_second_call_writes_nothing (store : Store) (env1 env2 : ClusterEnv)
    (nodePools1 nodePools2 : NodepoolMap)
    (hsame : nodePools1.Perm nodePools2)
    (hlevels : (nodePools1.map (fun entry => priority entry.2)).Nodup)
    (hmarshal : env2.marshal = env1.marshal)
    (horder : ∀ m1 m2 : GoMap Int (List String), (m1.map Prod.fst).Nodup → m1.Perm m2 →
      env1.marshal m1 = env1.marshal m2)
    (hfirst : (updateConfigMap store env1 nodePools1).outcome = UpdateOutcome.ok)
    (hread : env2.getFault = none) :
    (updateConfigMap (updateConfigMap store env1 nodePools1).store env2 nodePools2).writes = [] ∧
      (updateConfigMap (updateConfigMap store env1 nodePools1).store env2 nodePools2).store
        = (updateConfigMap store env1 nodePools1).store ∧
      (env2.clientset = none →
        (updateConfigMap (updateConfigMap store env1 nodePools1).store env2 nodePools2).outcome
          = UpdateOutcome.ok) ∧
      (∃ cm yaml, (updateConfigMap store env1 nodePools1).store = some cm ∧
        env1.marshal (calculatePriority nodePools1) = Except.ok yaml ∧
        env2.marshal (calculatePriority nodePools2) = Except.ok yaml ∧
        storedPriorities cm = yaml) ∧
      (updateConfigMap store env1 nodePools1).writes.length ≤ 1 ∧
      ((updateConfigMap store env1 nodePools1).writes = [] ↔
        ∃ cm0 yaml, env1.marshal (calculatePriority nodePools1) = Except.ok yaml ∧
          apiGet store env1 = Except.ok cm0 ∧ storedPriorities cm0 = yaml) := by
  obtain ⟨cm, yaml, hstore, hyaml, hstored, hlen, hnone⟩ :=
    updateConfigMap_ok store env1 nodePools1 hfirst
  have hnodup : ((calculatePriority nodePools1).map Prod.fst).Nodup :=
    calculatePriority_foldl_nodup nodePools1 [] List.nodup_nil
  have hyaml2 : env2.marshal (calculatePriority nodePools2) = Except.ok yaml := by
    rw [hmarshal, ← horder _ _ hnodup (calculatePriority_perm hsame hlevels)]
    exact hyaml
  have hg : apiGet (some cm) env2 = Except.ok cm := by
    unfold apiGet
    simp [hread]
  have hsecond : (updateConfigMap (some cm) env2 nodePools2).writes = [] ∧
      (updateConfigMap (some cm) env2 nodePools2).store = some cm ∧
      (env2.clientset = none →
        (updateConfigMap (some cm) env2 nodePools2).outcome = UpdateOutcome.ok) := by
    unfold updateConfigMap
    cases hcl : env2.clientset with
    | some err => simp
    | none => simp only [hyaml2, hg, hstored, if_true, implies_true, and_self]
  rw [hstore]
  refine ⟨hsecond.1, hsecond.2.1, hsecond.2.2, ⟨cm, yaml, rfl, hyaml, hyaml2, hstored⟩, hlen, ?_⟩
  rw [hnone]
  constructor
  · rintro ⟨cm0, h1, h2⟩
    exact ⟨cm0, yaml, hyaml, h1, h2⟩
  · rintro ⟨cm0, yaml2, h1, h2, h3⟩
    rw [hyaml] at h1
    simp only [Except.ok.injEq] at h1
    exact ⟨cm0, h2, by rw [h3, h1]⟩

/-- C10, witness: two pools at the levels 1 and 2, ranged over in the order `a`, `b` by
the first call, which creates the resource on the empty store, and in the order `b`, `a`
by the second call, which writes nothing. -/
theorem C10_second_call_writes_nothing_witness :
    (updateConfigMap none ClusterEnv.healthy twoLevelPools).writes.length ≤ 1 ∧
      (updateConfigMap (updateConfigMap none ClusterEnv.healthy twoLevelPools).store
        ClusterEnv.healthy twoLevelPools.reverse).writes = [] :=
  have hfirst : (updateConfigMap none ClusterEnv.healthy twoLevelPools).outcome
      = UpdateOutcome.ok := by
    unfold updateConfigMap
    rw [calculatePriority_twoLevelPools.1]
    decide
  have hlevels : (twoLevelPools.map (fun entry => priority entry.2)).Nodup := by
    have h1 := priority_family "a" "Spot" 1 (by norm_num) (by norm_num)
    have h2 := priority_family "b" "Spot" 2 (by norm_num) (by norm_num)
    simp only [twoLevelPools, List.map_cons, List.map_nil, record, h1, h2]
    decide
  have h := C10_second_call_writes_nothing none ClusterEnv.healthy ClusterEnv.healthy
    twoLevelPools twoLevelPools.reverse (List.reverse_perm twoLevelPools).symm hlevels rfl
    (fun _ _ hn hp => congrArg Except.ok (yamlRanking_perm hn hp)) hfirst rfl
  ⟨h.2.2.2.2.1, h.1⟩

/-! ### Claims on the reconciler: errors and the update -/

/-- With the client at hand and the ranking serialized to `yaml`, a failed read of any
kind makes `updateConfigMap` submit one create request, and the call ends as the create
does. -/
theorem updateConfigMap_read_failed (store : Store) (env : ClusterEnv) (nodePools : NodepoolMap)
    (yaml : String) (e : ApiError) (hclient : env.clientset = none)
    (hyaml : env.marshal (calculatePriority nodePools) = Except.ok yaml)
    (hget : apiGet store env = Except.error e) :
    (updateConfigMap store env nodePools).writes
        = [WriteEvent.create (createdConfigMap env yaml)] ∧
      (∀ err, apiCreate store env (createdConfigMap env yaml) = Except.error err →
        (updateConfigMap store env nodePools).outcome = UpdateOutcome.apiError err) ∧
      (∀ s, apiCreate store env (createdConfigMap env yaml) = Except.ok s →
        (updateConfigMap store env nodePools).outcome = UpdateOutcome.ok) := by
  unfold updateConfigMap
  simp only [hclient, hyaml, hget]
  unfold createdConfigMap
  cases hc : apiCreate store env
      (ConfigMap.mk env.clusterAutoscalerCmName env.clusterAutoscalerCmNamespace
        (some [("priorities", yaml)])) with
  | error err => simp
  | ok s => simp

/-- With the client at hand and the ranking serialized to `yaml`, a resource read with a
different stored value and a non-nil `Data` makes `updateConfigMap` submit one update
request, for the resource read with `"priorities"` set to `yaml`, and the call ends as
the update does. -/
theorem updateConfigMap_read_differs (store : Store) (env : ClusterEnv)
    (nodePools : NodepoolMap) (yaml : String) (cm : ConfigMap) (data : GoMap String String)
    (hclient : env.clientset = none)
    (hyaml : env.marshal (calculatePriority nodePools) = Except.ok yaml)
    (hget : apiGet store env = Except.ok cm) (hne : yaml ≠ storedPriorities cm)
    (hdata : cm.Data = some data) :
    (updateConfigMap store env nodePools).writes
        = [WriteEvent.update (ConfigMap.mk cm.Name cm.Namespace
            (some (data.set "priorities" yaml)))] ∧
      (∀ err, apiUpdate store env (ConfigMap.mk cm.Name cm.Namespace
            (some (data.set "priorities" yaml))) = Except.error err →
        (updateConfigMap store env nodePools).outcome = UpdateOutcome.apiError err) ∧
      (∀ s, apiUpdate store env (ConfigMap.mk cm.Name cm.Namespace
            (some (data.set "priorities" yaml))) = Except.ok s →
        (updateConfigMap store env nodePools).outcome = UpdateOutcome.ok) := by
  unfold updateConfigMap
  simp only [hclient, hyaml, hget, if_neg hne, hdata]
  cases hc : apiUpdate store env (ConfigMap.mk cm.Name cm.Namespace
      (some (data.set "priorities" yaml))) with
  | error err => simp
  | ok s => simp

/-- A resource read with a different stored value and a nil `Data` makes
`updateConfigMap` panic before any write. -/
theorem updateConfigMap_read_nil_data (store : Store) (env : ClusterEnv)
    (nodePools : NodepoolMap) (yaml : String) (cm : ConfigMap)
    (hclient : env.clientset = none)
    (hyaml : env.marshal (calculatePriority nodePools) = Except.ok yaml)
    (hget : apiGet store env = Except.ok cm) (hne : yaml ≠ storedPriorities cm)
    (hdata : cm.Data = none) :
    (updateConfigMap store env nodePools).outcome = UpdateOutcome.panicked ∧
      (updateConfigMap store env nodePools).writes = [] := by
  unfold updateConfigMap
  simp only [hclient, hyaml, hget, if_neg hne, hdata]
  exact ⟨trivial, trivial⟩

/-- A resource read with the stored value equal to `yaml` ends the call with no write. -/
theorem updateConfigMap_read_equal (store : Store) (env : ClusterEnv)
    (nodePools : NodepoolMap) (yaml : String) (cm : ConfigMap)
    (hclient : env.clientset = none)
    (hyaml : env.marshal (calculatePriority nodePools) = Except.ok yaml)
    (hget : apiGet store env = Except.ok cm) (heq : yaml = storedPriorities cm) :
    (updateConfigMap store env nodePools).outcome = UpdateOutcome.ok ∧
      (updateConfigMap store env nodePools).writes = [] := by
  unfold updateConfigMap
  simp only [hclient, hyaml, hget, if_pos heq]
  exact ⟨trivial, trivial⟩

/-- C11, counterexample: the store holds the resource and the read fails with a timeout,
which does not report the resource as absent. `updateConfigMap` submits a create
request all the same, and the error it returns is the create's `AlreadyExists`, not the
error of the read. -/
theorem C11_counterexample :
    apiGet publishedStore ClusterEnv.readTimesOut = Except.error (ApiError.other "timeout") ∧
      (updateConfigMap publishedStore ClusterEnv.readTimesOut []).writes
        = [WriteEvent.create (createdConfigMap ClusterEnv.readTimesOut "\x7b\x7d\n")] ∧
      (updateConfigMap publishedStore ClusterEnv.readTimesOut []).outcome
        = UpdateOutcome.apiError ApiError.alreadyExists ∧
      (updateConfigMap none ClusterEnv.readTimesOut []).outcome = UpdateOutcome.ok :=
  ⟨rfl, by decide, by decide, by decide⟩

/-- C11, amended: with the client at hand and the ranking serialized, `updateConfigMap`
submits at most one write request. A failed read, whatever its error, is not returned:
one create request is submitted and the call returns the error of the create, unmodified,
or nil if the create succeeds. A resource read with a different stored value (and a
non-nil data map) gets one update request, and the call returns the error of the update,
unmodified, or nil. Every error of a store request the call returns is the error of
the one write it submitted. -/
theorem C11_write_errors_returned (store : Store) (env : ClusterEnv) (nodePools : NodepoolMap)
    (yaml : String) (hclient : env.clientset = none)
    (hyaml : env.marshal (calculatePriority nodePools) = Except.ok yaml) :
    (updateConfigMap store env nodePools).writes.length ≤ 1 ∧
      (∀ e, apiGet store env = Except.error e →
        (updateConfigMap store env nodePools).writes
            = [WriteEvent.create (createdConfigMap env yaml)] ∧
          (∀ err, apiCreate store env (createdConfigMap env yaml) = Except.error err →
            (updateConfigMap store env nodePools).outcome = UpdateOutcome.apiError err) ∧
          (∀ s, apiCreate store env (createdConfigMap env yaml) = Except.ok s →
            (updateConfigMap store env nodePools).outcome = UpdateOutcome.ok)) ∧
      (∀ cm data, apiGet store env = Except.ok cm → yaml ≠ storedPriorities cm →
        cm.Data = some data →
        (updateConfigMap store env nodePools).writes
            = [WriteEvent.update (ConfigMap.mk cm.Name cm.Namespace
                (some (data.set "priorities" yaml)))] ∧
          (∀ err, apiUpdate store env (ConfigMap.mk cm.Name cm.Namespace
                (some (data.set "priorities" yaml))) = Except.error err →
            (updateConfigMap store env nodePools).outcome = UpdateOutcome.apiError err) ∧
          (∀ s, apiUpdate store env (ConfigMap.mk cm.Name cm.Namespace
                (some (data.set "priorities" yaml))) = Except.ok s →
            (updateConfigMap store env nodePools).outcome = UpdateOutcome.ok)) ∧
      (∀ err, (updateConfigMap store env nodePools).outcome = UpdateOutcome.apiError err →
        ∃ cm, ((updateConfigMap store env nodePools).writes = [WriteEvent.create cm] ∧
            apiCreate store env cm = Except.error err) ∨
          ((updateConfigMap store env nodePools).writes = [WriteEvent.update cm] ∧
            apiUpdate store env cm = Except.error err)) := by
  refine ⟨?_, fun e hget => updateConfigMap_read_failed store env nodePools yaml e hclient hyaml hget,
    fun cm data hget hne hdata =>
      updateConfigMap_read_differs store env nodePools yaml cm data hclient hyaml hget hne hdata,
    ?_⟩
  · cases hget : apiGet store env with
    | error e =>
      rw [(updateConfigMap_read_failed store env nodePools yaml e hclient hyaml hget).1]
      exact Nat.le_refl _
    | ok cm =>
      by_cases heq : yaml = storedPriorities cm
      · rw [(updateConfigMap_read_equal store env nodePools yaml cm hclient hyaml hget heq).2]
        exact Nat.zero_le _
      · cases hdata : cm.Data with
        | none =>
          rw [(updateConfigMap_read_nil_data store env nodePools yaml cm hclient hyaml hget heq
            hdata).2]
          exact Nat.zero_le _
        | some data =>
          rw [(updateConfigMap_read_differs store env nodePools yaml cm data hclient hyaml hget
            heq hdata).1]
          exact Nat.le_refl _
  · intro err hout
    cases hget : apiGet store env with
    | error e =>
      obtain ⟨hw, herr, hok⟩ :=
        updateConfigMap_read_failed store env nodePools yaml e hclient hyaml hget
      refine ⟨createdConfigMap env yaml, Or.inl ⟨hw, ?_⟩⟩
      cases hc : apiCreate store env (createdConfigMap env yaml) with
      | error err2 =>
        have h2 := herr err2 hc
        rw [h2] at hout
        rw [UpdateOutcome.apiError.inj hout]
      | ok s =>
        have h2 := hok s hc
        rw [h2] at hout
        cases hout
    | ok cm =>
      by_cases heq : yaml = storedPriorities cm
      · have h2 := (updateConfigMap_read_equal store env nodePools yaml cm hclient hyaml hget
          heq).1
        rw [h2] at hout
        cases hout
      · cases hdata : cm.Data with
        | none =>
          have h2 := (updateConfigMap_read_nil_data store env nodePools yaml cm hclient hyaml
            hget heq hdata).1
          rw [h2] at hout
          cases hout
        | some data =>
          obtain ⟨hw, herr, hok⟩ := updateConfigMap_read_differs store env nodePools yaml cm
            data hclient hyaml hget heq hdata
          refine ⟨_, Or.inr ⟨hw, ?_⟩⟩
          cases hc : apiUpdate store env (ConfigMap.mk cm.Name cm.Namespace
              (some (data.set "priorities" yaml))) with
          | error err2 =>
            have h2 := herr err2 hc
            rw [h2] at hout
            rw [UpdateOutcome.apiError.inj hout]
          | ok s =>
            have h2 := hok s hc
            rw [h2] at hout
            cases hout

/-- C11, witness: the theorem at the store that holds the resource, with a read that
times out and a create that the store rejects. -/
theorem C11_write_errors_returned_witness :
    (updateConfigMap publishedStore ClusterEnv.readTimesOut []).writes.length ≤ 1 ∧
      (updateConfigMap publishedStore ClusterEnv.readTimesOut []).writes
        = [WriteEvent.create (createdConfigMap ClusterEnv.readTimesOut "\x7b\x7d\n")] ∧
      (updateConfigMap publishedStore ClusterEnv.readTimesOut []).outcome
        = UpdateOutcome.apiError ApiError.alreadyExists :=
  have h := C11_write_errors_returned publishedStore ClusterEnv.readTimesOut [] "\x7b\x7d\n"
    rfl rfl
  have hread := h.2.1 (ApiError.other "timeout") rfl
  ⟨h.1, hread.1, hread.2.1 ApiError.alreadyExists rfl⟩

/-- C12: the store holds a resource with no data fields, so the stored `"priorities"`
value (empty) differs from the serialized ranking. `updateConfigMap` reads the resource
and panics on the assignment into its nil `Data` map: no update is submitted. -/
theorem C12_no_data_fields_panics :
    apiGet bareStore ClusterEnv.healthy
        = Except.ok (ConfigMap.mk "cluster-autoscaler-priority-expander" "kube-system" none) ∧
      ClusterEnv.healthy.marshal (calculatePriority []) = Except.ok "\x7b\x7d\n" ∧
      storedPriorities
        (ConfigMap.mk "cluster-autoscaler-priority-expander" "kube-system" none) = "" ∧
      (updateConfigMap bareStore ClusterEnv.healthy []).outcome = UpdateOutcome.panicked ∧
      (updateConfigMap bareStore ClusterEnv.healthy []).writes = [] :=
  ⟨rfl, rfl, rfl, by decide, by decide⟩

/-- On a resource with data fields the update is as the specification says: the
resource submitted has the name and the namespace of the one read, `"priorities"` set to
the serialized ranking, and every other data field as read. -/
theorem updateConfigMap_update_frame (store : Store) (env : ClusterEnv)
    (nodePools : NodepoolMap) (yaml : String) (cm : ConfigMap) (data : GoMap String String)
    (hclient : env.clientset = none)
    (hyaml : env.marshal (calculatePriority nodePools) = Except.ok yaml)
    (hget : apiGet store env = Except.ok cm) (hne : yaml ≠ storedPriorities cm)
    (hdata : cm.Data = some data) :
    ∃ sent newData, (updateConfigMap store env nodePools).writes = [WriteEvent.update sent] ∧
      sent.Name = cm.Name ∧ sent.Namespace = cm.Namespace ∧ sent.Data = some newData ∧
      newData.get "priorities" "" = yaml ∧
      (∀ field, field ≠ "priorities" → newData.get field "" = data.get field "" ∧
        newData.hasKey field = data.hasKey field) ∧
      (updateConfigMap store env nodePools).outcome ≠ UpdateOutcome.panicked := by
  obtain ⟨hw, herr, hok⟩ :=
    updateConfigMap_read_differs store env nodePools yaml cm data hclient hyaml hget hne hdata
  refine ⟨_, data.set "priorities" yaml, hw, rfl, rfl, rfl, GoMap.get_set_same _ _ _ _,
    fun field hf => ⟨GoMap.get_set_ne _ hf _ _, ?_⟩, ?_⟩
  · exact GoMap.hasKey_set_ne _ hf _
  · cases hc : apiUpdate store env (ConfigMap.mk cm.Name cm.Namespace
        (some (data.set "priorities" yaml))) with
    | error err2 => rw [herr err2 hc]; exact fun h => UpdateOutcome.noConfusion h
    | ok s => rw [hok s hc]; exact fun h => UpdateOutcome.noConfusion h

/-! ### Claims on the ranking as a whole -/

/-- C13: for every node-pool map, the patterns of the ranking `calculatePriority`
returns, taken over all levels, are the patterns `".*" + Name + ".*"` of the records as
a multiset (one per record, built from the field `Name`, nothing else); the levels are
distinct keys and none has an empty pattern list; and two records of the map with
identical signal values have their patterns at one and the same level. -/
theorem C13_one_pattern_per_record (nodePools : NodepoolMap) :
    (allPatterns (calculatePriority nodePools)).Perm
        (nodePools.map (fun entry => pattern entry.2.Name)) ∧
      (∀ level ∈ calculatePriority nodePools, level.2 ≠ []) ∧
      ((calculatePriority nodePools).map Prod.fst).Nodup ∧
      (∀ key1 r1 key2 r2, (key1, r1) ∈ nodePools → (key2, r2) ∈ nodePools →
        sameSignals r1 r2 →
        ∃ level, pattern r1.Name ∈ (calculatePriority nodePools).get level [] ∧
          pattern r2.Name ∈ (calculatePriority nodePools).get level []) := by
  refine ⟨?_, ?_, ?_, ?_⟩
  · have h := calculatePriority_foldl_patterns nodePools []
    simpa [calculatePriority, allPatterns] using h
  · exact calculatePriority_foldl_nonempty nodePools [] (fun e he => absurd he (List.not_mem_nil e))
  · exact calculatePriority_foldl_nodup nodePools [] List.nodup_nil
  · intro key1 r1 key2 r2 h1 h2 hs
    refine ⟨priority r1, calculatePriority_mem nodePools key1 r1 h1, ?_⟩
    have hv : min 10 r1.Version = min 10 r2.Version := by rw [hs.2.2.2]
    rw [priority_congr r1 r2 hs.1 hs.2.1 hs.2.2.1 hv]
    exact calculatePriority_mem nodePools key2 r2 h2

/-- C13, witness: the eight records of `TestCalculatePriority`, keyed `spotf_v2` and so
on, yield the eight patterns of their names, and `general` and `spotc` share a level. -/
theorem C13_one_pattern_per_record_witness :
    (allPatterns (calculatePriority testNodePools)).Perm
        [".*general.*", ".*spotf.*", ".*spotd.*", ".*spotc.*", ".*spota.*", ".*spotb.*",
          ".*spote.*", ".*spotg.*"] ∧
      ∃ level, ".*general.*" ∈ (calculatePriority testNodePools).get level [] ∧
        ".*spotc.*" ∈ (calculatePriority testNodePools).get level [] :=
  have h := C13_one_pattern_per_record testNodePools
  ⟨h.1, h.2.2.2 "general" ⟨"general", Float64.ofDec 5 10, Float64.ofDec 2 10, 0, 2, ""⟩
    "spotc_v2" ⟨"spotc", Float64.ofDec 5 10, Float64.ofDec 2 10, 0, 2, ""⟩
    (List.Mem.head _)
    (List.Mem.tail _ (List.Mem.tail _ (List.Mem.tail _ (List.Mem.head _))))
    ⟨rfl, rfl, rfl, rfl⟩⟩

/-! ### Raising the version -/

/-- Raising the version of a record within the documented bounds by `k`, staying at 10 or
below, moves its level to within 1 of `k` levels higher. -/
theorem priority_version_raise (r : Nodepool) (k : Int) (hb : r.inBounds = true)
    (hk : 0 ≤ k) (hv : r.Version + k ≤ 10) :
    priority r + k - 1 ≤ priority { r with Version := r.Version + k } ∧
      priority { r with Version := r.Version + k } ≤ priority r + k + 1 := by
  obtain ⟨name, disc, ev, ps, ver, ty⟩ := r
  simp only [Nodepool.inBounds, Bool.and_eq_true, decide_eq_true_eq] at hb
  simp only at hv ⊢
  obtain ⟨⟨⟨hdisc, hev⟩, hps0, hps1⟩, hver⟩ := hb
  obtain ⟨d, hd, rfl⟩ := inUnitInterval_cases hdisc
  obtain ⟨e, he, rfl⟩ := inUnitInterval_cases hev
  obtain ⟨p, rfl⟩ := Int.eq_ofNat_of_zero_le hps0
  obtain ⟨n, rfl⟩ := Int.eq_ofNat_of_zero_le hver
  obtain ⟨m, rfl⟩ := Int.eq_ofNat_of_zero_le hk
  have hp : p ≤ 100 := by exact_mod_cast hps1
  have hnm : n + m ≤ 10 := by exact_mod_cast hv
  have hn : n ≤ 10 := by omega
  have hmin : min 10 (n : Int) = (n : Int) := min_eq_right (by exact_mod_cast hn)
  have hmin2 : min 10 ((n : Int) + (m : Int)) = ((n + m : Nat) : Int) := by
    rw [min_eq_right hv]
    push_cast
    rfl
  have h1 := (priority_eq_scaledSum name ty d e p n (n : Int) hd he hp hn hmin).1
  have h2 := (priority_eq_scaledSum name ty d e p (n + m) ((n : Int) + (m : Int)) hd he hp hnm
    hmin2).1
  rw [h1, h2]
  have herr1 := scaledSum_err d e p n hd he hp hn
  have herr2 := scaledSum_err d e p (n + m) hd he hp hnm
  rw [abs_le] at herr1 herr2
  have hfl1 : ((scaledSum d e p n / unitsPerOne : Nat) : Int)
      = Int.floor (((scaledSum d e p n : Nat) : ℚ) / (unitsPerOne : ℚ)) := by
    rw [Rat.floor_natCast_div_natCast]
    rfl
  have hfl2 : ((scaledSum d e p (n + m) / unitsPerOne : Nat) : Int)
      = Int.floor (((scaledSum d e p (n + m) : Nat) : ℚ) / (unitsPerOne : ℚ)) := by
    rw [Rat.floor_natCast_div_natCast]
    rfl
  rw [hfl1, hfl2]
  generalize ((scaledSum d e p n : Nat) : ℚ) / (unitsPerOne : ℚ) = s1 at herr1 ⊢
  generalize ((scaledSum d e p (n + m) : Nat) : ℚ) / (unitsPerOne : ℚ) = s2 at herr2 ⊢
  have hshift : (100 : ℚ) * ((1 - (e : ℚ) / unitsPerOne) * (2 / 10)
      + (d : ℚ) / unitsPerOne * (1 / 10) + ((p : ℚ) / 100) * (6 / 10)
      + (((n + m : Nat) : ℚ) / 10) * (1 / 10))
      = (100 : ℚ) * ((1 - (e : ℚ) / unitsPerOne) * (2 / 10)
      + (d : ℚ) / unitsPerOne * (1 / 10) + ((p : ℚ) / 100) * (6 / 10)
      + ((n : ℚ) / 10) * (1 / 10)) + (m : ℚ) := by
    push_cast
    ring
  rw [hshift] at herr2
  generalize (100 : ℚ) * ((1 - (e : ℚ) / unitsPerOne) * (2 / 10)
      + (d : ℚ) / unitsPerOne * (1 / 10) + ((p : ℚ) / 100) * (6 / 10)
      + ((n : ℚ) / 10) * (1 / 10)) = x at herr1 herr2
  have hsmall : (1 : ℚ) / 2 ^ 41 ≤ 1 / 4 := by norm_num
  have a1 := Int.floor_le s1
  have a2 := Int.lt_floor_add_one s1
  have b1 := Int.floor_le s2
  have b2 := Int.lt_floor_add_one s2
  constructor
  · have hq : ((Int.floor s1 : Int) : ℚ) + ((m : Int) : ℚ) - 2 < ((Int.floor s2 : Int) : ℚ) := by
      push_cast
      linarith [herr1.1, herr1.2, herr2.1, herr2.2]
    have hz : Int.floor s1 + (m : Int) - 2 < Int.floor s2 := by exact_mod_cast hq
    omega
  · have hq : ((Int.floor s2 : Int) : ℚ) < ((Int.floor s1 : Int) : ℚ) + ((m : Int) : ℚ) + 2 := by
      push_cast
      linarith [herr1.1, herr1.2, herr2.1, herr2.2]
    have hz : Int.floor s2 < Int.floor s1 + (m : Int) + 2 := by exact_mod_cast hq
    omega

/-- Raising the version of a record within the documented bounds, staying at 10 or
below, never lowers its level. -/
theorem priority_mono_version (r : Nodepool) (k : Int) (hb : r.inBounds = true)
    (hk : 0 ≤ k) (hv : r.Version + k ≤ 10) :
    priority r ≤ priority { r with Version := r.Version + k } := by
  rcases eq_or_lt_of_le hk with h0 | hpos
  · rw [← h0, add_zero]
  · have h := (priority_version_raise r k hb hk hv).1
    omega

set_option maxRecDepth 100000 in
theorem priority_spota_v2_eval :
    priority ⟨"spota_v2", Float64.ofDec 9 10, Float64.ofDec 2 10, 0, 2, ""⟩ = 27 := by
  decide

set_option maxRecDepth 100000 in
theorem priority_spota_v6_eval :
    priority ⟨"spota_v6", Float64.ofDec 9 10, Float64.ofDec 2 10, 0, 6, ""⟩ = 31 := by
  decide

set_option maxRecDepth 100000 in
theorem priority_spotb_v2_eval :
    priority ⟨"spotb_v2", Float64.ofDec 9 10, Float64.ofDec 5 100, 0, 2, ""⟩ = 30 := by
  decide

set_option maxRecDepth 100000 in
theorem priority_spotb_v6_eval :
    priority ⟨"spotb_v6", Float64.ofDec 9 10, Float64.ofDec 5 100, 0, 6, ""⟩ = 34 := by
  decide

set_option maxRecDepth 100000 in
/-- C14, counterexample: the record with placement score 0, eviction rate 1.0, discount 0
and version 6 is within the documented bounds and is filed at level 6; with its version
raised by 1, to 7, it is filed at level 6 again, not at level 7. -/
theorem C14_counterexample :
    (record "p" (Float64.ofInt 0) (Float64.ofInt 1) 0 6).inBounds = true ∧
      (6 : Int) + 1 ≤ 10 ∧
      calculatePriority [("p", record "p" (Float64.ofInt 0) (Float64.ofInt 1) 0 6)]
        = [(6, [".*p.*"])] ∧
      calculatePriority [("p", record "p" (Float64.ofInt 0) (Float64.ofInt 1) 0 (6 + 1))]
        = [(6, [".*p.*"])] := by
  have h6 := priority_family "p" "Spot" 6 (by norm_num) (by norm_num)
  have h7 := priority_family "p" "Spot" (6 + 1) (by norm_num) (by norm_num)
  refine ⟨by decide, by decide, ?_, ?_⟩
  · simp only [calculatePriority, calculatePriorityStep, List.foldl_cons, List.foldl_nil,
      GoMap.get, GoMap.set, List.nil_append, record, h6]
    decide
  · simp only [calculatePriority, calculatePriorityStep, List.foldl_cons, List.foldl_nil,
      GoMap.get, GoMap.set, List.nil_append, record, h7]
    decide

/-- C14, amended: for every record within the documented bounds (so with version 0 or
more) and every `k ≥ 0` with `Version + k ≤ 10`, the level `calculatePriority` assigns
to the record with its version raised by `k` is not below the level of the original
record, and is `k` higher up to 1: between `level + k - 1` and `level + k + 1`. For the
records of `TestVersions`, version 6 is exactly 4 levels above version 2. -/
theorem C14_version_raise (r : Nodepool) (k : Int) (hb : r.inBounds = true)
    (hk : 0 ≤ k) (hv : r.Version + k ≤ 10) :
    pattern r.Name ∈ (calculatePriority [(r.Name, { r with Version := r.Version + k })]).get
        (priority { r with Version := r.Version + k }) [] ∧
      pattern r.Name ∈ (calculatePriority [(r.Name, r)]).get (priority r) [] ∧
      priority r ≤ priority { r with Version := r.Version + k } ∧
      priority r + k - 1 ≤ priority { r with Version := r.Version + k } ∧
      priority { r with Version := r.Version + k } ≤ priority r + k + 1 ∧
      priority ⟨"spota_v6", Float64.ofDec 9 10, Float64.ofDec 2 10, 0, 6, ""⟩
        = priority ⟨"spota_v2", Float64.ofDec 9 10, Float64.ofDec 2 10, 0, 2, ""⟩ + 4 ∧
      priority ⟨"spotb_v6", Float64.ofDec 9 10, Float64.ofDec 5 100, 0, 6, ""⟩
        = priority ⟨"spotb_v2", Float64.ofDec 9 10, Float64.ofDec 5 100, 0, 2, ""⟩ + 4 := by
  refine ⟨calculatePriority_mem _ r.Name { r with Version := r.Version + k }
      (List.mem_singleton_self _),
    calculatePriority_mem _ r.Name r (List.mem_singleton_self _),
    priority_mono_version r k hb hk hv,
    (priority_version_raise r k hb hk hv).1, (priority_version_raise r k hb hk hv).2, ?_, ?_⟩
  · rw [priority_spota_v6_eval, priority_spota_v2_eval]
    rfl
  · rw [priority_spotb_v6_eval, priority_spotb_v2_eval]
    rfl

set_option maxRecDepth 100000 in
/-- C14, witness: the record `spota_v2` of `TestVersions` with its version raised by 4. -/
theorem C14_version_raise_witness :
    priority ⟨"spota_v2", Float64.ofDec 9 10, Float64.ofDec 2 10, 0, 2, ""⟩
        ≤ priority ⟨"spota_v2", Float64.ofDec 9 10, Float64.ofDec 2 10, 0, 2 + 4, ""⟩ ∧
      priority ⟨"spota_v2", Float64.ofDec 9 10, Float64.ofDec 2 10, 0, 2, ""⟩ + 4 - 1
        ≤ priority ⟨"spota_v2", Float64.ofDec 9 10, Float64.ofDec 2 10, 0, 2 + 4, ""⟩ ∧
      priority ⟨"spota_v2", Float64.ofDec 9 10, Float64.ofDec 2 10, 0, 2 + 4, ""⟩
        ≤ priority ⟨"spota_v2", Float64.ofDec 9 10, Float64.ofDec 2 10, 0, 2, ""⟩ + 4 + 1 :=
  have h := C14_version_raise ⟨"spota_v2", Float64.ofDec 9 10, Float64.ofDec 2 10, 0, 2, ""⟩ 4
    (by decide) (by decide) (by decide)
  ⟨h.2.2.1, h.2.2.2.1, h.2.2.2.2.1⟩

end SpotMonitor
